import Mathlib

/-!
Shard-local routing cache loader (MongoDB 3.6)

A shallow embedding of `ShardServerCatalogCacheLoader`
(`src/mongo/db/s/shard_server_catalog_cache_loader.cpp`) and of
`ShardCollectionType` (`src/mongo/s/catalog/type_shard_collection.cpp`),
followed by theorems about the task queue, the metadata merger, the persisted
mirror and the scheduling of `getChunksSince`.

Conventions of the embedding:
* a C++ `invariant(...)` that fails aborts the process: the embedded function
  returns `none`;
* `StatusWith<T>` is `Except ErrorCodes T`, a thrown `DBException` is the
  `Except.error` of the function that throws;
* state guarded by `_mutex` is passed explicitly;
* results of collaborators outside the loader (storage reads, the config
  server loader, the replication coordinator) are arguments of the embedded
  function.
-/

namespace Mongo

/-! ## Basic types -/

/-- Error codes of `Status` that the loader distinguishes; the reason string of a
`Status` carries no behaviour and is left out. -/
inductive ErrorCodes where
  | NamespaceNotFound
  | OperationFailed
  | Interrupted
  | InterruptedAtShutdown
  | PrimarySteppedDown
  | ConflictingOperationInProgress
  | NotMaster
  | NoSuchKey
  | TypeMismatch
  | BadValue
  | ShardKeyNotFound
  | InvalidUUID
  | ShutdownInProgress
  | HostUnreachable
  | WriteConcernFailed
  deriving DecidableEq, Repr

/-- The C++ `StatusWith<T>`: a value or the error code of a non-OK status. -/
abbrev StatusWith (α : Type) := Except ErrorCodes α

/-- The C++ `Status`: `none` is `Status::OK()`. -/
abbrev Status := Option ErrorCodes

/-- An `OID`, the epoch of a collection incarnation; `0` is the default-constructed
(unset) value `OID()`. -/
abbrev OID := Nat

/-- A namespace string such as `db.coll`. -/
abbrev NamespaceString := String

/-- Modelled from the spec: `ChunkVersion` (its header `chunk_version.h` is not
among the sources). A version is `(major, minor, epoch)`. -/
structure ChunkVersion where
  major : Nat
  minor : Nat
  epoch : OID
  deriving DecidableEq, Repr

namespace ChunkVersion

/-- Modelled from the spec: `ChunkVersion::UNSHARDED()`, the sentinel
`(0, 0, zero-epoch)`. -/
def UNSHARDED : ChunkVersion := ⟨0, 0, 0⟩

/-- Modelled from the spec: `ChunkVersion::isSet()`, which holds when the
`(major, minor)` pair is not `(0, 0)`. -/
def isSet (v : ChunkVersion) : Bool := decide (v.major ≠ 0 ∨ v.minor ≠ 0)

/-- Modelled from the spec: `ChunkVersion::equals` and `operator==`, equal epoch and
equal `(major, minor)`. -/
def equals (a b : ChunkVersion) : Bool := decide (a = b)

/-- Modelled from the spec: `operator<` of `ChunkVersion`, the lexicographic order
on `(major, minor)`. The operator itself does not look at the epoch; the order is
meaningful between versions of one epoch only. -/
def lt (a b : ChunkVersion) : Bool :=
  decide (a.major < b.major ∨ (a.major = b.major ∧ a.minor < b.minor))

/-- Modelled from the spec: `operator>` of `ChunkVersion`. -/
def gt (a b : ChunkVersion) : Bool := lt b a

end ChunkVersion

/-- Modelled from the spec: the BSON values that occur in a `config.cache.collections`
document (`bsonobj.h` and `bsonelement.h` are not among the sources). A BSON
timestamp is its pair of 32-bit halves. -/
inductive BSONValue where
  | String (s : String)
  | Object (fields : List (String × BSONValue))
  | BinData (subtype : Nat) (data : List Nat)
  | jstOID (oid : OID)
  | Bool (b : Bool)
  | bsonTimestamp (secs : Nat) (inc : Nat)
  | NumberInt (n : Int)
  | jstNULL

/-- A BSON document: its fields in order. `BSONObj()` is the empty document. -/
abbrev BSONObj := List (String × BSONValue)

/-- A `UUID`: sixteen bytes. -/
structure UUID where
  bytes : List Nat
  size : bytes.length = 16
  deriving DecidableEq

/-- A chunk: a key range `[min, max)` owned by one shard, with the version at which it
was last changed. Keys are points of the ordered key space. -/
structure ChunkType where
  min : Int
  max : Int
  shard : String
  version : ChunkVersion
  deriving DecidableEq, Repr

/-- `ChunkType::getVersion`. -/
def ChunkType.getVersion (c : ChunkType) : ChunkVersion := c.version

/-- `CatalogCacheLoader::CollectionAndChangedChunks`. -/
structure CollectionAndChangedChunks where
  uuid : Option UUID
  epoch : OID
  shardKeyPattern : BSONObj
  defaultCollation : BSONObj
  shardKeyIsUnique : Bool
  changedChunks : List ChunkType

/-- The default-constructed `CollectionAndChangedChunks()`. -/
def CollectionAndChangedChunks.empty : CollectionAndChangedChunks :=
  { uuid := none, epoch := 0, shardKeyPattern := [], defaultCollation := [],
    shardKeyIsUnique := false, changedChunks := [] }

/-! ## Task and TaskList -/

/-- `ShardServerCatalogCacheLoader::Task`. -/
structure Task where
  taskNum : Nat
  collectionAndChangedChunks : Option CollectionAndChangedChunks
  minQueryVersion : ChunkVersion
  maxQueryVersion : ChunkVersion
  dropped : Bool
  termCreated : Int

/-- `Task::Task(statusWithCollectionAndChangedChunks, minimumQueryVersion, currentTerm)`;
`taskId` is the value fetched from `taskIdGenerator`. The two invariants of the
constructor give `none` when they fail. -/
def Task.construct (taskId : Nat) (statusWithCollectionAndChangedChunks :
    StatusWith CollectionAndChangedChunks) (minimumQueryVersion : ChunkVersion)
    (currentTerm : Int) : Option Task :=
  match statusWithCollectionAndChangedChunks with
  | .ok collAndChunks =>
    match collAndChunks.changedChunks.getLast? with
    | none => none
    | some back =>
      some { taskNum := taskId, collectionAndChangedChunks := some collAndChunks,
             minQueryVersion := minimumQueryVersion, maxQueryVersion := back.getVersion,
             dropped := false, termCreated := currentTerm }
  | .error code =>
    if code = ErrorCodes.NamespaceNotFound then
      some { taskNum := taskId, collectionAndChangedChunks := none,
             minQueryVersion := minimumQueryVersion,
             maxQueryVersion := ChunkVersion.UNSHARDED,
             dropped := true, termCreated := currentTerm }
    else none

/-- `ShardServerCatalogCacheLoader::TaskList`: the queue `_tasks`, front first. -/
structure TaskList where
  _tasks : List Task

/-- `TaskList::TaskList()`: no task. -/
def TaskList.init : TaskList := ⟨[]⟩

/-- `TaskList::empty()`. -/
def TaskList.empty (l : TaskList) : Bool := l._tasks.isEmpty

/-- `TaskList::addTask`; `none` when one of its invariants fails. -/
def TaskList.addTask (l : TaskList) (task : Task) : Option TaskList :=
  match l._tasks with
  | [] => some ⟨[task]⟩
  | front :: rest =>
    let back := (front :: rest).getLast (List.cons_ne_nil front rest)
    if task.dropped then
      if back.maxQueryVersion.equals task.minQueryVersion then
        -- `_tasks.erase(std::next(_tasks.begin()), _tasks.end())` leaves `[front]`
        if !front.dropped then some ⟨[front, task]⟩ else some ⟨[front]⟩
      else none
    else
      if back.maxQueryVersion.equals task.minQueryVersion || !task.minQueryVersion.isSet then
        some ⟨(front :: rest) ++ [task]⟩
      else none

/-- `TaskList::pop_front`; `none` when the list is empty (the invariant fails). -/
def TaskList.pop_front (l : TaskList) : Option TaskList :=
  match l._tasks with
  | [] => none
  | _ :: rest => some ⟨rest⟩

/-- `TaskList::hasTasksFromThisTerm`; `none` when the list is empty. -/
def TaskList.hasTasksFromThisTerm (l : TaskList) (term : Int) : Option Bool :=
  match l._tasks.getLast? with
  | none => none
  | some back => some (decide (back.termCreated = term))

/-- `TaskList::getHighestVersionEnqueued`; `none` when the list is empty. -/
def TaskList.getHighestVersionEnqueued (l : TaskList) : Option ChunkVersion :=
  match l._tasks.getLast? with
  | none => none
  | some back => some back.maxQueryVersion

/-- `TaskList::getEnqueuedMetadataForTerm`. The result is `none` where the source
dereferences an unset `collectionAndChangedChunks` or takes `back()` or `front()` of
an empty vector. -/
def TaskList.getEnqueuedMetadataForTerm (l : TaskList) (term : Int) :
    Option CollectionAndChangedChunks :=
  l._tasks.foldl
    (fun acc task =>
      match acc with
      | none => none
      | some collAndChunks =>
        if task.termCreated ≠ term then some collAndChunks
        else if task.dropped then some CollectionAndChangedChunks.empty
        else
          match task.collectionAndChangedChunks with
          | none => none
          | some taskCollAndChunks =>
            if taskCollAndChunks.epoch ≠ collAndChunks.epoch then some taskCollAndChunks
            else
              match collAndChunks.changedChunks.getLast?, taskCollAndChunks.changedChunks with
              | some back, front :: rest =>
                if back.getVersion.equals front.getVersion then
                  some { collAndChunks with
                    changedChunks := collAndChunks.changedChunks ++ rest }
                else
                  some { collAndChunks with
                    changedChunks := collAndChunks.changedChunks ++ front :: rest }
              | _, _ => none)
    (some CollectionAndChangedChunks.empty)

/-! ## The metadata merger -/

/-- The map `_taskLists` of the loader, from namespace to task list. -/
abbrev TaskLists := NamespaceString → Option TaskList

/-- `ShardServerCatalogCacheLoader::_getEnqueuedMetadata`; `none` when the invariant of
`hasTasksFromThisTerm` fails or `getEnqueuedMetadataForTerm` is undefined. -/
def _getEnqueuedMetadata (taskLists : TaskLists) (nss : NamespaceString)
    (catalogCacheSinceVersion : ChunkVersion) (term : Int) :
    Option (Bool × CollectionAndChangedChunks) :=
  match taskLists nss with
  | none => some (false, CollectionAndChangedChunks.empty)
  | some taskList =>
    match taskList.hasTasksFromThisTerm term with
    | none => none
    | some false => some (false, CollectionAndChangedChunks.empty)
    | some true =>
      match taskList.getEnqueuedMetadataForTerm term with
      | none => none
      | some collAndChunks =>
        if collAndChunks.epoch ≠ catalogCacheSinceVersion.epoch then
          some (true, collAndChunks)
        else
          some (true, { collAndChunks with
            changedChunks := collAndChunks.changedChunks.dropWhile
              (fun c => c.getVersion.lt catalogCacheSinceVersion) })

/-- The local `persisted` of `_getLoaderMetadata` once `swPersisted` has been looked at
(lines 650-658): `NamespaceNotFound` becomes the empty object, any other error is
returned to the caller. -/
def persistedOrError (swPersisted : StatusWith CollectionAndChangedChunks) :
    StatusWith CollectionAndChangedChunks :=
  match swPersisted with
  | .error code =>
    if code = ErrorCodes.NamespaceNotFound then .ok CollectionAndChangedChunks.empty
    else .error code
  | .ok persisted => .ok persisted

/-- `ShardServerCatalogCacheLoader::_getLoaderMetadata`. The argument `swPersisted` is
what `getIncompletePersistedMetadataSinceVersion` returned for this call. -/
def _getLoaderMetadata (taskLists : TaskLists) (nss : NamespaceString)
    (catalogCacheSinceVersion : ChunkVersion) (term : Int)
    (swPersisted : StatusWith CollectionAndChangedChunks) :
    Option (StatusWith CollectionAndChangedChunks) :=
  match _getEnqueuedMetadata taskLists nss catalogCacheSinceVersion term with
  | none => none
  | some (tasksAreEnqueued, enqueued) =>
    match persistedOrError swPersisted with
    | .error code => some (.error code)
    | .ok persisted =>
      if !tasksAreEnqueued then some (.ok persisted)
      else if persisted.changedChunks.isEmpty || enqueued.changedChunks.isEmpty ||
          decide (enqueued.epoch ≠ persisted.epoch) then some (.ok enqueued)
      else
        match enqueued.changedChunks with
        | [] => none
        | front :: _ =>
          let minEnqueuedVersion := front.getVersion
          some (.ok { persisted with
            changedChunks :=
              persisted.changedChunks.takeWhile
                (fun c => c.getVersion.lt minEnqueuedVersion) ++ enqueued.changedChunks })

/-- The version comparisons that the loop of lines 701-705 evaluates: each persisted
chunk up to and including the first one that is not below `minEnqueuedVersion`, paired
with `minEnqueuedVersion`. -/
def overlapComparisons (minEnqueuedVersion : ChunkVersion) :
    List ChunkType → List (ChunkVersion × ChunkVersion)
  | [] => []
  | c :: cs =>
    (c.getVersion, minEnqueuedVersion) ::
      (if c.getVersion.lt minEnqueuedVersion then overlapComparisons minEnqueuedVersion cs
       else [])

/-- `_getLoaderMetadata` instrumented: next to the result, the list of comparisons between
the version of a persisted chunk and the version of an enqueued chunk that were
evaluated (only the loop of lines 701-705 makes such comparisons). -/
def _getLoaderMetadataTraced (taskLists : TaskLists) (nss : NamespaceString)
    (catalogCacheSinceVersion : ChunkVersion) (term : Int)
    (swPersisted : StatusWith CollectionAndChangedChunks) :
    Option (StatusWith CollectionAndChangedChunks × List (ChunkVersion × ChunkVersion)) :=
  match _getEnqueuedMetadata taskLists nss catalogCacheSinceVersion term with
  | none => none
  | some (tasksAreEnqueued, enqueued) =>
    match persistedOrError swPersisted with
    | .error code => some (.error code, [])
    | .ok persisted =>
      if !tasksAreEnqueued then some (.ok persisted, [])
      else if persisted.changedChunks.isEmpty || enqueued.changedChunks.isEmpty ||
          decide (enqueued.epoch ≠ persisted.epoch) then some (.ok enqueued, [])
      else
        match enqueued.changedChunks with
        | [] => none
        | front :: _ =>
          let minEnqueuedVersion := front.getVersion
          some (.ok { persisted with
            changedChunks :=
              persisted.changedChunks.takeWhile
                (fun c => c.getVersion.lt minEnqueuedVersion) ++ enqueued.changedChunks },
            overlapComparisons minEnqueuedVersion persisted.changedChunks)

/-- A chunk list is sorted ascending by version: no chunk is followed, anywhere later
in the list, by a chunk of a lower version. -/
def SortedByVersion (chunks : List ChunkType) : Prop :=
  chunks.Pairwise (fun a b => b.getVersion.lt a.getVersion = false)

/-- A chunk list is strictly ascending by version. -/
def StrictlySortedByVersion (chunks : List ChunkType) : Prop :=
  chunks.Pairwise (fun a b => a.getVersion.lt b.getVersion = true)

/-- Adjacent non-drop tasks of a list are contiguous: the later one starts at the version
the earlier one ends at, or its `minQueryVersion` is unset. -/
def TaskList.Contiguous (l : TaskList) : Prop :=
  ∀ (i : Nat) (a b : Task), l._tasks[i]? = some a → l._tasks[i + 1]? = some b →
    a.dropped = false → b.dropped = false →
    a.maxQueryVersion = b.minQueryVersion ∨ b.minQueryVersion.isSet = false

/-- The task lists that `addTask` (with its invariants holding) and `pop_front` build
from the empty list. -/
inductive TaskList.Reachable : TaskList → Prop where
  | init : TaskList.Reachable TaskList.init
  | addTask (l l2 : TaskList) (task : Task) : TaskList.Reachable l →
      l.addTask task = some l2 → TaskList.Reachable l2
  | pop_front (l l2 : TaskList) : TaskList.Reachable l →
      l.pop_front = some l2 → TaskList.Reachable l2

/-- The contiguity relation between a task and its successor. -/
def Task.ContiguousWith (a b : Task) : Prop :=
  a.dropped = false → b.dropped = false →
    a.maxQueryVersion = b.minQueryVersion ∨ b.minQueryVersion.isSet = false

/-! ## ShardCollectionType and its BSON form -/

/-- The `BSONType` of the values above. -/
inductive BSONType where
  | String
  | Object
  | BinData
  | jstOID
  | Bool
  | bsonTimestamp
  | NumberInt
  | jstNULL
  deriving DecidableEq, Repr

/-- `BSONElement::type`. -/
def BSONValue.type : BSONValue → BSONType
  | .String _ => BSONType.String
  | .Object _ => BSONType.Object
  | .BinData _ _ => BSONType.BinData
  | .jstOID _ => BSONType.jstOID
  | .Bool _ => BSONType.Bool
  | .bsonTimestamp _ _ => BSONType.bsonTimestamp
  | .NumberInt _ => BSONType.NumberInt
  | .jstNULL => BSONType.jstNULL

/-- `BSONObj::operator[]` and `getField`: the first element named `fieldName`, or `none`
for the end-of-object element (`eoo`). -/
def BSONObj.getField (object : BSONObj) (fieldName : String) : Option BSONValue :=
  (object.find? (fun field => field.1 == fieldName)).map Prod.snd

/-- Modelled from the spec: `bsonExtractTypedField` of `bson_extract.cpp` (not among the
sources): `NoSuchKey` when the field is missing, `TypeMismatch` when it has another
type. -/
def bsonExtractTypedField (object : BSONObj) (fieldName : String) (type : BSONType) :
    StatusWith BSONValue :=
  match object.getField fieldName with
  | none => .error ErrorCodes.NoSuchKey
  | some element =>
    if element.type = type then .ok element else .error ErrorCodes.TypeMismatch

/-- Modelled from the spec: `bsonExtractStringField` of `bson_extract.cpp`. -/
def bsonExtractStringField (object : BSONObj) (fieldName : String) : StatusWith String :=
  match bsonExtractTypedField object fieldName BSONType.String with
  | .ok (.String s) => .ok s
  | .ok _ => .error ErrorCodes.TypeMismatch
  | .error code => .error code

/-- Modelled from the spec: `bsonExtractBooleanField` of `bson_extract.cpp`: a boolean
element gives its value, a number gives whether it is non-zero. -/
def bsonExtractBooleanField (object : BSONObj) (fieldName : String) : StatusWith Bool :=
  match object.getField fieldName with
  | none => .error ErrorCodes.NoSuchKey
  | some (.Bool b) => .ok b
  | some (.NumberInt n) => .ok (decide (n ≠ 0))
  | some _ => .error ErrorCodes.TypeMismatch

/-- The BinData subtype `newUUID`. -/
def newUUID : Nat := 4

/-- Modelled from the spec: `UUID::parse(BSONElement)` of `uuid.cpp` (not among the
sources): a BinData element of subtype `newUUID` holding sixteen bytes. -/
def UUID.parse (element : BSONValue) : StatusWith UUID :=
  match element with
  | .BinData subtype data =>
    if h : subtype = newUUID ∧ data.length = 16 then .ok ⟨data, h.2⟩
    else .error ErrorCodes.InvalidUUID
  | _ => .error ErrorCodes.InvalidUUID

/-- Modelled from the spec: `UUID::appendToBuilder`, the element it appends. -/
def UUID.toElement (uuid : UUID) : BSONValue := .BinData newUUID uuid.bytes

/-- Modelled from the spec: `ChunkVersion::parseFromBSONWithFieldAndSetEpoch`: reads the
`(major, minor)` pair from the timestamp named `field` and sets the epoch to the one
given. -/
def ChunkVersion.parseFromBSONWithFieldAndSetEpoch (obj : BSONObj) (field : String)
    (epoch : OID) : StatusWith ChunkVersion :=
  match obj.getField field with
  | some (.bsonTimestamp secs inc) => .ok ⟨secs, inc, epoch⟩
  | _ => .error ErrorCodes.BadValue

/-- Modelled from the spec: `BSONObjBuilder::appendTimestamp(name, version.toLong())`:
the major version is the upper half of the timestamp, the minor version the lower. -/
def ChunkVersion.toTimestamp (v : ChunkVersion) : BSONValue := .bsonTimestamp v.major v.minor

/-- `ShardCollectionType`, a document of `config.cache.collections`. -/
structure ShardCollectionType where
  _nss : NamespaceString
  _uuid : Option UUID
  _epoch : OID
  _keyPattern : BSONObj
  _defaultCollation : BSONObj
  _unique : Bool
  _refreshing : Option Bool
  _lastRefreshedCollectionVersion : Option ChunkVersion

/-- The constructor `ShardCollectionType(nss, uuid, epoch, keyPattern, defaultCollation,
unique)`. -/
def ShardCollectionType.construct (nss : NamespaceString) (uuid : Option UUID) (epoch : OID)
    (keyPattern : BSONObj) (defaultCollation : BSONObj) (unique : Bool) :
    ShardCollectionType :=
  { _nss := nss, _uuid := uuid, _epoch := epoch, _keyPattern := keyPattern,
    _defaultCollation := defaultCollation, _unique := unique, _refreshing := none,
    _lastRefreshedCollectionVersion := none }

/-- `ShardCollectionType::fromBSON`. -/
def ShardCollectionType.fromBSON (source : BSONObj) : StatusWith ShardCollectionType :=
  match bsonExtractStringField source "_id" with
  | .error status => .error status
  | .ok nss =>
  match (match bsonExtractTypedField source "uuid" BSONType.BinData with
      | .ok uuidElem =>
        (match UUID.parse uuidElem with
         | .ok uuid => (.ok (some uuid) : StatusWith (Option UUID))
         | .error status => .error status)
      | .error status =>
        if status = ErrorCodes.NoSuchKey then .ok none else .error status) with
  | .error status => .error status
  | .ok uuid =>
  match bsonExtractTypedField source "epoch" BSONType.jstOID with
  | .error status => .error status
  | .ok (.String _) | .ok (.Object _) | .ok (.BinData _ _) | .ok (.Bool _)
  | .ok (.bsonTimestamp _ _) | .ok (.NumberInt _) | .ok .jstNULL =>
    .error ErrorCodes.TypeMismatch
  | .ok (.jstOID epoch) =>
  match bsonExtractTypedField source "key" BSONType.Object with
  | .error status => .error status
  | .ok (.String _) | .ok (.jstOID _) | .ok (.BinData _ _) | .ok (.Bool _)
  | .ok (.bsonTimestamp _ _) | .ok (.NumberInt _) | .ok .jstNULL =>
    .error ErrorCodes.TypeMismatch
  | .ok (.Object obj) =>
  if obj.isEmpty then .error ErrorCodes.ShardKeyNotFound
  else
  match (match bsonExtractTypedField source "defaultCollation" BSONType.Object with
      | .ok (.Object collationObj) =>
        if collationObj.isEmpty then (.error ErrorCodes.BadValue : StatusWith BSONObj)
        else .ok collationObj
      | .ok _ => .error ErrorCodes.TypeMismatch
      | .error status =>
        if status ≠ ErrorCodes.NoSuchKey then .error status else .ok []) with
  | .error status => .error status
  | .ok collation =>
  match bsonExtractBooleanField source "unique" with
  | .error status => .error status
  | .ok unique =>
  let shardCollectionType := ShardCollectionType.construct nss uuid epoch obj collation unique
  match (match bsonExtractBooleanField source "refreshing" with
      | .ok refreshing =>
        (.ok { shardCollectionType with _refreshing := some refreshing } :
          StatusWith ShardCollectionType)
      | .error status =>
        if status = ErrorCodes.NoSuchKey then .ok shardCollectionType
        else .error status) with
  | .error status => .error status
  | .ok shardCollectionType =>
  match source.getField "lastRefreshedCollectionVersion" with
  | none => .ok shardCollectionType
  | some _ =>
    match ChunkVersion.parseFromBSONWithFieldAndSetEpoch source
        "lastRefreshedCollectionVersion" epoch with
    | .error status => .error status
    | .ok version =>
      .ok { shardCollectionType with _lastRefreshedCollectionVersion := some version }

/-- `ShardCollectionType::toBSON`. -/
def ShardCollectionType.toBSON (entry : ShardCollectionType) : BSONObj :=
  [("_id", BSONValue.String entry._nss)] ++
  (match entry._uuid with
   | some uuid => [("uuid", uuid.toElement)]
   | none => []) ++
  [("epoch", BSONValue.jstOID entry._epoch)] ++
  [("key", BSONValue.Object entry._keyPattern)] ++
  (if !entry._defaultCollation.isEmpty then
     [("defaultCollation", BSONValue.Object entry._defaultCollation)]
   else []) ++
  [("unique", BSONValue.Bool entry._unique)] ++
  (match entry._refreshing with
   | some refreshing => [("refreshing", BSONValue.Bool refreshing)]
   | none => []) ++
  (match entry._lastRefreshedCollectionVersion with
   | some version => [("lastRefreshedCollectionVersion", version.toTimestamp)]
   | none => [])


/-! ## The persisted mirror -/

/-- The shard's persisted mirror: `config.cache.collections`, one document per sharded
collection keyed by namespace, and `config.cache.chunks.<nss>`, the chunk documents of
each collection (a collection without chunks table has the empty list). -/
structure PersistedStore where
  collections : NamespaceString → Option ShardCollectionType
  chunks : NamespaceString → List ChunkType

/-- The store of a shard that has persisted nothing yet. -/
def PersistedStore.empty : PersistedStore := ⟨fun _ => none, fun _ => []⟩

/-- The effect of `$set` with the fields of `update.toBSON()` on the document `old`:
fields that `toBSON` leaves out of the update keep their stored value. -/
def ShardCollectionType.applyUpdate (update old : ShardCollectionType) : ShardCollectionType :=
  { _nss := update._nss,
    _uuid := match update._uuid with
      | some uuid => some uuid
      | none => old._uuid,
    _epoch := update._epoch,
    _keyPattern := update._keyPattern,
    _defaultCollation :=
      if !update._defaultCollation.isEmpty then update._defaultCollation
      else old._defaultCollation,
    _unique := update._unique,
    _refreshing := match update._refreshing with
      | some refreshing => some refreshing
      | none => old._refreshing,
    _lastRefreshedCollectionVersion := match update._lastRefreshedCollectionVersion with
      | some version => some version
      | none => old._lastRefreshedCollectionVersion }

/-- Modelled from the spec: `updateShardCollectionsEntry` of `shard_metadata_util.cpp`
(not among the sources), the spec's `upsertCollectionEntry(nss, fields, upsert=true)`:
sets the fields of `update` on the entry of `nss`, creating the entry when it is
missing and `upsert` is set. -/
def updateShardCollectionsEntry (store : PersistedStore) (nss : NamespaceString)
    (update : ShardCollectionType) (upsert : Bool) : PersistedStore :=
  { store with
    collections := fun n =>
      if n = nss then
        match store.collections nss with
        | some old => some (update.applyUpdate old)
        | none => if upsert then some update else none
      else store.collections n }

/-- Modelled from the spec: `setPersistedRefreshFlags`, the spec's
`setRefreshing(nss, true)`. -/
def setPersistedRefreshFlags (store : PersistedStore) (nss : NamespaceString) :
    PersistedStore :=
  { store with
    collections := fun n =>
      if n = nss then
        (store.collections nss).map (fun entry => { entry with _refreshing := some true })
      else store.collections n }

/-- Modelled from the spec: `unsetPersistedRefreshFlags`, the spec's
`setRefreshing(nss, false, last_refreshed_version = V)`. -/
def unsetPersistedRefreshFlags (store : PersistedStore) (nss : NamespaceString)
    (refreshedVersion : ChunkVersion) : PersistedStore :=
  { store with
    collections := fun n =>
      if n = nss then
        (store.collections nss).map (fun entry =>
          { entry with _refreshing := some false,
                       _lastRefreshedCollectionVersion := some refreshedVersion })
      else store.collections n }

/-- The key ranges `[min, max)` of two chunks intersect. -/
def rangesIntersect (a b : ChunkType) : Bool := decide (a.min < b.max ∧ b.min < a.max)

/-- Chunk `new` removes the stored chunk `stored` when it is written: their key ranges
intersect, or they have the same min key, the key of the chunks table. -/
def replacedBy (new stored : ChunkType) : Bool :=
  rangesIntersect stored new || decide (stored.min = new.min)

/-- Modelled from the spec: one step of `applyChunkDiff`: remove every stored chunk whose
key range intersects the new chunk, then insert the new chunk; the table is keyed by
min key and the insertion is an upsert on that key. -/
def applyChunk (table : List ChunkType) (chunk : ChunkType) : List ChunkType :=
  ((table.filter (fun c => !rangesIntersect c chunk)).filter
    (fun c => !decide (c.min = chunk.min))) ++ [chunk]

/-- A failure inside `updateShardChunks`: the first `applied` chunks were written; of the
next chunk, the removal of the intersecting chunks took place when `removedNext` is set,
its insertion did not; the call returns `code`. -/
structure ChunkDiffFault where
  applied : Nat
  removedNext : Bool
  code : ErrorCodes

/-- Modelled from the spec: `updateShardChunks` of `shard_metadata_util.cpp` (not among
the sources), the spec's `applyChunkDiff(nss, newChunks, epoch)`: the chunks are applied
one by one in order, each atomically, the batch not atomically. -/
def updateShardChunks (fault : Option ChunkDiffFault) (store : PersistedStore)
    (nss : NamespaceString) (chunks : List ChunkType) (_currEpoch : OID) :
    PersistedStore × Status :=
  match fault with
  | none =>
    ({ store with
       chunks := fun n =>
         if n = nss then chunks.foldl applyChunk (store.chunks nss) else store.chunks n },
     none)
  | some f =>
    let written := (chunks.take f.applied).foldl applyChunk (store.chunks nss)
    let table :=
      match f.removedNext, chunks.drop f.applied with
      | true, next :: _ => written.filter (fun c => !rangesIntersect c next)
      | _, _ => written
    ({ store with chunks := fun n => if n = nss then table else store.chunks n },
     some f.code)

/-- The storage failures met by one run of `persistCollectionAndChangedChunks`: for each
of its four writes, `none` when the write succeeds. A write that fails with a status
changes nothing, except the chunk diff, which may stop half-way. -/
structure PersistFaults where
  updateShardCollectionsEntry : Status
  setPersistedRefreshFlags : Status
  updateShardChunks : Option ChunkDiffFault
  unsetPersistedRefreshFlags : Status

/-- No storage failure. -/
def PersistFaults.noFaults : PersistFaults := ⟨none, none, none, none⟩

/-- `persistCollectionAndChangedChunks` (lines 84-129): the store after the run and the
status returned. The result is `none` where the source takes `back()` of an empty
`changedChunks`. -/
def persistCollectionAndChangedChunks (faults : PersistFaults) (store : PersistedStore)
    (nss : NamespaceString) (collAndChunks : CollectionAndChangedChunks) :
    Option (PersistedStore × Status) :=
  let update := ShardCollectionType.construct nss collAndChunks.uuid collAndChunks.epoch
    collAndChunks.shardKeyPattern collAndChunks.defaultCollation collAndChunks.shardKeyIsUnique
  match faults.updateShardCollectionsEntry with
  | some status => some (store, some status)
  | Option.none =>
  let store := updateShardCollectionsEntry store nss update true
  match faults.setPersistedRefreshFlags with
  | some status => some (store, some status)
  | Option.none =>
  let store := setPersistedRefreshFlags store nss
  match updateShardChunks faults.updateShardChunks store nss collAndChunks.changedChunks
      collAndChunks.epoch with
  | (store, some status) => some (store, some status)
  | (store, Option.none) =>
  match collAndChunks.changedChunks.getLast? with
  | Option.none => Option.none
  | some back =>
  match faults.unsetPersistedRefreshFlags with
  | some status => some (store, some status)
  | Option.none => some (unsetPersistedRefreshFlags store nss back.getVersion, Option.none)

/-- Where a run of `dropChunksAndDeleteCollectionsEntry` fails. -/
inductive DropFault where
  | deleteEntry (code : ErrorCodes)
  | dropChunks (code : ErrorCodes)

/-- Modelled from the spec: `dropChunksAndDeleteCollectionsEntry` of
`shard_metadata_util.cpp` (not among the sources), the spec's `dropChunksAndEntry(nss)`:
deletes the collections entry of `nss`, then drops its chunks table. -/
def dropChunksAndDeleteCollectionsEntry (fault : Option DropFault) (store : PersistedStore)
    (nss : NamespaceString) : PersistedStore × Status :=
  match fault with
  | some (.deleteEntry code) => (store, some code)
  | some (.dropChunks code) =>
    ({ store with collections := fun n => if n = nss then none else store.collections n },
     some code)
  | none =>
    ({ collections := fun n => if n = nss then none else store.collections n,
       chunks := fun n => if n = nss then [] else store.chunks n }, none)

/-- The stores reached from the empty store by successive runs, failing or not, of
`persistCollectionAndChangedChunks` and `dropChunksAndDeleteCollectionsEntry`, for any
namespaces and payloads. -/
inductive PersistedStore.Reachable : PersistedStore → Prop where
  | empty : PersistedStore.Reachable PersistedStore.empty
  | persist (store store2 : PersistedStore) (faults : PersistFaults) (nss : NamespaceString)
      (payload : CollectionAndChangedChunks) (status : Status) :
      PersistedStore.Reachable store →
      persistCollectionAndChangedChunks faults store nss payload = some (store2, status) →
      PersistedStore.Reachable store2
  | drop (store store2 : PersistedStore) (fault : Option DropFault) (nss : NamespaceString)
      (status : Status) :
      PersistedStore.Reachable store →
      dropChunksAndDeleteCollectionsEntry fault store nss = (store2, status) →
      PersistedStore.Reachable store2

/-- `ShardServerCatalogCacheLoader::ReplicaSetRole`. -/
inductive ReplicaSetRole where
  | None
  | Secondary
  | Primary
  deriving DecidableEq, Repr

/-- The members of the loader guarded by `_mutex`, and the counter `taskIdGenerator`. -/
structure LoaderState where
  _role : ReplicaSetRole
  _term : Int
  _taskLists : TaskLists
  taskIdGenerator : Nat

/-- What a request of `getChunksSince` does to its caller: an invocation of `callbackFn`
with its argument, or `notify->set()`. -/
inductive Event where
  | callbackFn (result : StatusWith CollectionAndChangedChunks)
  | notifySet

/-- The number of invocations of `callbackFn` in a sequence of events. -/
def callbackCount : List Event → Nat
  | [] => 0
  | Event.callbackFn _ :: rest => callbackCount rest + 1
  | Event.notifySet :: rest => callbackCount rest

/-- Some invocation of `callbackFn` occurs in the sequence. -/
def callbackInvoked : List Event → Bool
  | [] => false
  | Event.callbackFn _ :: _ => true
  | Event.notifySet :: rest => callbackInvoked rest

/-- The notification is set somewhere in the sequence. -/
def notificationSet : List Event → Bool
  | [] => false
  | Event.callbackFn _ :: rest => notificationSet rest
  | Event.notifySet :: _ => true

/-- `ShardServerCatalogCacheLoader::_ensureMajorityPrimaryAndScheduleTask`.
`linearizableReadStatus` is what `waitForLinearizableReadConcern` returned and
`scheduleStatus` what `_threadPool.schedule` returned for the `_runTasks` worker. The
result is `none` when an invariant of `addTask` fails, and when the thread pool refuses
the worker: line 798 then locks `_mutex`, which this thread holds since line 786, and
the call never returns. -/
def _ensureMajorityPrimaryAndScheduleTask (state : LoaderState) (nss : NamespaceString)
    (task : Task) (linearizableReadStatus : Status) (scheduleStatus : Status) :
    Option (LoaderState × Status) :=
  match linearizableReadStatus with
  | some code => some (state, some code)
  | none =>
    -- `_taskLists[nss]` creates an empty list when the map has none for `nss`
    let taskList := (state._taskLists nss).getD TaskList.init
    let wasEmpty := taskList.empty
    match taskList.addTask task with
    | none => none
    | some taskList2 =>
      let state2 := { state with
        _taskLists := fun n => if n = nss then some taskList2 else state._taskLists n }
      if wasEmpty then
        match scheduleStatus with
        | none => some (state2, none)
        | some _ => none
      else some (state2, none)

/-- The results of the collaborators that one run of the primary path meets. -/
structure PrimaryOutcomes where
  /-- What `getPersistedMaxVersion` returns, an error when it throws. -/
  persistedMaxVersion : StatusWith ChunkVersion
  /-- The argument with which the config server loader invokes its callback. -/
  configResponse : StatusWith CollectionAndChangedChunks
  /-- The loader state when the config server loader invokes its callback. -/
  stateAtResponse : LoaderState
  /-- What `waitForLinearizableReadConcern` returns. -/
  linearizableReadStatus : Status
  /-- What `_threadPool.schedule` returns for the `_runTasks` worker. -/
  scheduleStatus : Status
  /-- What `getIncompletePersistedMetadataSinceVersion` returns. -/
  swPersisted : StatusWith CollectionAndChangedChunks

/-- The lambda that computes `maxLoaderVersion` (lines 517-535); an error is the
exception thrown by `getPersistedMaxVersion`. -/
def getMaxLoaderVersion (state : LoaderState) (nss : NamespaceString) (termScheduled : Int)
    (persistedMaxVersion : StatusWith ChunkVersion) : Option (StatusWith ChunkVersion) :=
  match state._taskLists nss with
  | some taskList =>
    match taskList.hasTasksFromThisTerm termScheduled with
    | none => none
    | some true => taskList.getHighestVersionEnqueued.map Except.ok
    | some false => some persistedMaxVersion
  | none => some persistedMaxVersion

/-- The end of `remoteRefreshCallbackFn` after metadata was found remotely (lines
602-613): answer from the loader's persisted and enqueued metadata. The reference
`collAndChunks` of line 560 points into `swCollectionAndChangedChunks`, so the invariant
of line 606 looks at the metadata just assigned: the result is `none` when that metadata
is OK and has no chunk. -/
def answerFromLoaderMetadata (state : LoaderState) (nss : NamespaceString)
    (catalogCacheSinceVersion : ChunkVersion) (termScheduled : Int)
    (swPersisted : StatusWith CollectionAndChangedChunks) :
    Option (LoaderState × List Event) :=
  match _getLoaderMetadata state._taskLists nss catalogCacheSinceVersion termScheduled
      swPersisted with
  | none => none
  | some (.ok collAndChunks) =>
    if collAndChunks.changedChunks.isEmpty then none
    else some (state, [Event.callbackFn (.ok collAndChunks), Event.notifySet])
  | some (.error code) => some (state, [Event.callbackFn (.error code), Event.notifySet])

/-- The lambda `remoteRefreshCallbackFn` of `_schedulePrimaryGetChunksSince` (lines
537-614), run on the loader state `state`: the state it leaves and the events it
causes. -/
def remoteRefreshCallbackFn (state : LoaderState) (nss : NamespaceString)
    (catalogCacheSinceVersion maxLoaderVersion : ChunkVersion) (termScheduled : Int)
    (linearizableReadStatus scheduleStatus : Status)
    (swPersisted : StatusWith CollectionAndChangedChunks)
    (swCollectionAndChangedChunks : StatusWith CollectionAndChangedChunks) :
    Option (LoaderState × List Event) :=
  match swCollectionAndChangedChunks with
  | .error code =>
    if code = ErrorCodes.NamespaceNotFound then
      match Task.construct state.taskIdGenerator swCollectionAndChangedChunks maxLoaderVersion
          termScheduled with
      | none => none
      | some task =>
        match _ensureMajorityPrimaryAndScheduleTask
            { state with taskIdGenerator := state.taskIdGenerator + 1 } nss task
            linearizableReadStatus scheduleStatus with
        | none => none
        | some (state2, some scheduleError) =>
          some (state2, [Event.callbackFn (.error scheduleError), Event.notifySet])
        | some (state2, none) =>
          some (state2, [Event.callbackFn swCollectionAndChangedChunks, Event.notifySet])
    else some (state, [Event.callbackFn swCollectionAndChangedChunks, Event.notifySet])
  | .ok collAndChunks =>
    match collAndChunks.changedChunks.getLast? with
    | none => none
    | some back =>
      if back.getVersion.epoch ≠ collAndChunks.epoch then
        some (state,
          [Event.callbackFn (.error ErrorCodes.ConflictingOperationInProgress),
           Event.notifySet])
      else if decide (collAndChunks.epoch ≠ maxLoaderVersion.epoch) ||
          back.getVersion.gt maxLoaderVersion then
        match Task.construct state.taskIdGenerator swCollectionAndChangedChunks
            maxLoaderVersion termScheduled with
        | none => none
        | some task =>
          match _ensureMajorityPrimaryAndScheduleTask
              { state with taskIdGenerator := state.taskIdGenerator + 1 } nss task
              linearizableReadStatus scheduleStatus with
          | none => none
          | some (state2, some scheduleError) =>
            some (state2, [Event.callbackFn (.error scheduleError), Event.notifySet])
          | some (state2, none) =>
            answerFromLoaderMetadata state2 nss catalogCacheSinceVersion termScheduled
              swPersisted
      else
        answerFromLoaderMetadata state nss catalogCacheSinceVersion termScheduled swPersisted

/-- `ShardServerCatalogCacheLoader::_schedulePrimaryGetChunksSince`, together with the
run of `remoteRefreshCallbackFn` that the config server loader makes, once, with
`outcomes.configResponse`. An error is the exception thrown out of the function. -/
def _schedulePrimaryGetChunksSince (state : LoaderState) (nss : NamespaceString)
    (catalogCacheSinceVersion : ChunkVersion) (termScheduled : Int)
    (outcomes : PrimaryOutcomes) : Option (Except ErrorCodes (LoaderState × List Event)) :=
  match getMaxLoaderVersion state nss termScheduled outcomes.persistedMaxVersion with
  | none => none
  | some (.error code) => some (.error code)
  | some (.ok maxLoaderVersion) =>
    (remoteRefreshCallbackFn outcomes.stateAtResponse nss catalogCacheSinceVersion
      maxLoaderVersion termScheduled outcomes.linearizableReadStatus outcomes.scheduleStatus
      outcomes.swPersisted outcomes.configResponse).map Except.ok

/-- Modelled from the spec: `RefreshState` of `shard_metadata_util.h` (not among the
sources), what `getPersistedRefreshFlags` reads from the collections entry. -/
structure RefreshState where
  epoch : OID
  refreshing : Bool
  lastRefreshedCollectionVersion : ChunkVersion
  deriving DecidableEq, Repr

/-- What the persisted store and the notifications show to a secondary at one moment:
the result a call made at that moment gets. -/
structure Observation where
  /-- The result of `getPersistedRefreshFlags(opCtx, nss)`. -/
  refreshFlags : StatusWith RefreshState
  /-- The result of `notif.get(opCtx)`: `none` when a change was notified, a code when
  the wait was interrupted. -/
  notification : Status
  /-- The result of `getPersistedMetadataSinceVersion(opCtx, nss, version, true)`, an error
  when it throws. -/
  metadata : StatusWith CollectionAndChangedChunks

/-- The inner loop of `_getCompletePersistedMetadataForSecondarySinceVersion` (lines
918-928), started at moment `time`: the refresh state read with refreshing = false and
the moment after the read; an error is the exception thrown; `none` when `fuel`
iterations did not end the loop. -/
def waitUntilNotRefreshing (observe : Nat → Observation) :
    Nat → Nat → Option (Except ErrorCodes (RefreshState × Nat))
  | 0, _ => none
  | fuel + 1, time =>
    match (observe time).refreshFlags with
    | .error code => some (.error code)
    | .ok refreshState =>
      if !refreshState.refreshing then some (.ok (refreshState, time + 1))
      else
        match (observe (time + 1)).notification with
        | some code => some (.error code)
        | none => waitUntilNotRefreshing observe fuel (time + 2)

/-- `ShardServerCatalogCacheLoader::_getCompletePersistedMetadataForSecondarySinceVersion`
started at moment `time`; an error is the exception thrown; `none` when `fuel`
iterations did not end a loop. -/
def _getCompletePersistedMetadataForSecondarySinceVersion (observe : Nat → Observation) :
    Nat → Nat → Option (Except ErrorCodes CollectionAndChangedChunks)
  | 0, _ => none
  | fuel + 1, time =>
    match waitUntilNotRefreshing observe (fuel + 1) time with
    | none => none
    | some (.error code) => some (.error code)
    | some (.ok (beginRefreshState, time2)) =>
      match (observe time2).metadata with
      | .error code => some (.error code)
      | .ok collAndChangedChunks =>
        match (observe (time2 + 1)).refreshFlags with
        | .error code => some (.error code)
        | .ok endRefreshState =>
          if beginRefreshState = endRefreshState then some (.ok collAndChangedChunks)
          else _getCompletePersistedMetadataForSecondarySinceVersion observe fuel (time2 + 2)

/-- `ShardServerCatalogCacheLoader::_runSecondaryGetChunksSince`. `refreshStatus` is the
outcome of `forcePrimaryRefreshAndWaitForReplication`, a code when it throws. An error is
the exception thrown out of the function. -/
def _runSecondaryGetChunksSince (refreshStatus : Status) (observe : Nat → Observation)
    (fuel : Nat) : Option (Except ErrorCodes (List Event)) :=
  match refreshStatus with
  | some code => some (.error code)
  | none =>
    match _getCompletePersistedMetadataForSecondarySinceVersion observe fuel 0 with
    | none => none
    | some (.error code) => some (.error code)
    | some (.ok swCollAndChunks) => some (.ok [Event.callbackFn (.ok swCollAndChunks)])

/-- One request of `getChunksSince` and what it meets while it runs. -/
structure Request where
  nss : NamespaceString
  version : ChunkVersion
  /-- The loader state when `getChunksSince` is called. -/
  stateAtCall : LoaderState
  /-- The loader state when the scheduled work starts. -/
  stateAtStart : LoaderState
  primary : PrimaryOutcomes
  /-- The outcome of `forcePrimaryRefreshAndWaitForReplication`. -/
  refreshStatus : Status
  observe : Nat → Observation

/-- The work that `getChunksSince` hands to the thread pool (lines 402-433), for the
`currentTerm` and `isPrimary` captured at the call: the events it causes until it
finishes, the run of `remoteRefreshCallbackFn` included. -/
def scheduledWork (request : Request) (currentTerm : Int) (isPrimary : Bool) (fuel : Nat) :
    Option (List Event) :=
  if request.stateAtStart._term ≠ currentTerm then
    some [Event.callbackFn (.error ErrorCodes.Interrupted), Event.notifySet]
  else if isPrimary then
    match _schedulePrimaryGetChunksSince request.stateAtStart request.nss request.version
        currentTerm request.primary with
    | none => none
    | some (.error code) => some [Event.callbackFn (.error code), Event.notifySet]
    | some (.ok (_, events)) => some events
  else
    match _runSecondaryGetChunksSince request.refreshStatus request.observe fuel with
    | none => none
    | some (.error code) => some [Event.callbackFn (.error code), Event.notifySet]
    | some (.ok events) => some events

/-- `ShardServerCatalogCacheLoader::getChunksSince` for a request whose work the thread
pool accepts and runs: the events of the request. The result is `none` when the
invariant on `_role` fails or the work does not finish. -/
def getChunksSince (request : Request) (fuel : Nat) : Option (List Event) :=
  if request.stateAtCall._role = ReplicaSetRole.None then none
  else
    scheduledWork request request.stateAtCall._term
      (decide (request.stateAtCall._role = ReplicaSetRole.Primary)) fuel


/-! ## The replay of the spec for enqueued metadata -/

/-- From the spec's words, one step of the replay of `enqueuedMetadataForTerm`: a drop
resets the accumulator; a task of another epoch replaces it; a task of the same epoch
has its changedChunks appended, without its first chunk exactly when the version of that
chunk equals the version of the accumulator's last chunk. A non-drop task carries a
payload; one without payload leaves the accumulator as it is. -/
def replayStep (accumulator : CollectionAndChangedChunks) (task : Task) :
    CollectionAndChangedChunks :=
  if task.dropped then CollectionAndChangedChunks.empty
  else
    match task.collectionAndChangedChunks with
    | none => accumulator
    | some payload =>
      if payload.epoch ≠ accumulator.epoch then payload
      else
        { accumulator with
          changedChunks := accumulator.changedChunks ++
            (match accumulator.changedChunks.getLast?, payload.changedChunks with
             | some back, front :: rest =>
               if back.getVersion = front.getVersion then rest else front :: rest
             | _, chunks => chunks) }

/-- From the spec's words, `enqueuedMetadataForTerm(term)`: the replay, from the empty
accumulator and in order, of the tasks whose `termCreated` is `term`. -/
def TaskList.replayForTerm (l : TaskList) (term : Int) : CollectionAndChangedChunks :=
  (l._tasks.filter (fun task => decide (task.termCreated = term))).foldl replayStep
    CollectionAndChangedChunks.empty

/-- Every non-drop task of the term was built by the `Task` constructor from a payload of
a collection: it carries a payload, the payload has a chunk, and its epoch is set. -/
def TaskList.PayloadsSet (l : TaskList) (term : Int) : Prop :=
  ∀ task ∈ l._tasks, task.termCreated = term → task.dropped = false →
    ∃ payload, task.collectionAndChangedChunks = some payload ∧
      payload.changedChunks ≠ [] ∧ payload.epoch ≠ 0

/-- The step function that `getEnqueuedMetadataForTerm` folds over `_tasks`. -/
def enqueuedMetadataStep (term : Int) (acc : Option CollectionAndChangedChunks)
    (task : Task) : Option CollectionAndChangedChunks :=
  match acc with
  | none => none
  | some collAndChunks =>
    if task.termCreated ≠ term then some collAndChunks
    else if task.dropped then some CollectionAndChangedChunks.empty
    else
      match task.collectionAndChangedChunks with
      | none => none
      | some taskCollAndChunks =>
        if taskCollAndChunks.epoch ≠ collAndChunks.epoch then some taskCollAndChunks
        else
          match collAndChunks.changedChunks.getLast?, taskCollAndChunks.changedChunks with
          | some back, front :: rest =>
            if back.getVersion.equals front.getVersion then
              some { collAndChunks with
                changedChunks := collAndChunks.changedChunks ++ rest }
            else
              some { collAndChunks with
                changedChunks := collAndChunks.changedChunks ++ front :: rest }
          | _, _ => none


/-! ## Role transitions -/

/-- `ShardServerCatalogCacheLoader::initializeReplicaSetRole`; `none` when the invariant
`_role == ReplicaSetRole::None` fails. -/
def initializeReplicaSetRole (state : LoaderState) (isPrimary : Bool) : Option LoaderState :=
  if state._role = ReplicaSetRole.None then
    if isPrimary then some { state with _role := ReplicaSetRole.Primary }
    else some { state with _role := ReplicaSetRole.Secondary }
  else none

/-- `ShardServerCatalogCacheLoader::onStepDown`; `none` when the invariant
`_role != ReplicaSetRole::None` fails. -/
def onStepDown (state : LoaderState) : Option LoaderState :=
  if state._role ≠ ReplicaSetRole.None then
    some { state with _term := state._term + 1, _role := ReplicaSetRole.Secondary }
  else none

/-- `ShardServerCatalogCacheLoader::onStepUp`; `none` when the invariant
`_role != ReplicaSetRole::None` fails. -/
def onStepUp (state : LoaderState) : Option LoaderState :=
  if state._role ≠ ReplicaSetRole.None then
    some { state with _term := state._term + 1, _role := ReplicaSetRole.Primary }
  else none

/-- The locked block of the destructor `~ShardServerCatalogCacheLoader` (lines 335-339):
it increments `_term`. -/
def shutDown (state : LoaderState) : LoaderState :=
  { state with _term := state._term + 1 }

/-! ## The persisting workers -/

/-- Modelled from the spec: `ErrorCodes::isShutdownError` (the error code table is not
among the sources): the shutdown-class errors. -/
def isShutdownError (code : ErrorCodes) : Bool :=
  decide (code = ErrorCodes.ShutdownInProgress ∨ code = ErrorCodes.InterruptedAtShutdown)

/-- The storage failures that one run of `_updatePersistedMetadata` meets. -/
structure StorageFaults where
  persist : PersistFaults
  drop : Option DropFault

/-- No storage failure. -/
def StorageFaults.noFaults : StorageFaults := ⟨PersistFaults.noFaults, none⟩

/-- `ShardServerCatalogCacheLoader::_updatePersistedMetadata`: the store it leaves, and
`none` when it returns normally or the code of the exception it throws. The result is
`none` when the list of `nss` has no front task or the invariant of line 860 fails. -/
def _updatePersistedMetadata (state : LoaderState) (store : PersistedStore)
    (nss : NamespaceString) (faults : StorageFaults) : Option (PersistedStore × Status) :=
  match ((state._taskLists nss).getD TaskList.init)._tasks with
  | [] => none
  | task :: _ =>
    let payloadHasChunks :=
      match task.collectionAndChangedChunks with
      | some collAndChunks => some (!collAndChunks.changedChunks.isEmpty)
      | none => none
    if !task.dropped && payloadHasChunks ≠ some true then none
    else if task.termCreated ≠ state._term then some (store, none)
    else if task.dropped then
      some (dropChunksAndDeleteCollectionsEntry faults.drop store nss)
    else
      match task.collectionAndChangedChunks with
      | none => none
      | some collAndChunks =>
        persistCollectionAndChangedChunks faults.persist store nss collAndChunks

/-- The loader with the persisted store and, for each namespace, the number of `_runTasks`
workers that the thread pool holds or runs. -/
structure System where
  loader : LoaderState
  store : PersistedStore
  workers : NamespaceString → Nat

/-- The task lists with the list of `nss` set to `taskList`. -/
def setTaskList (taskLists : TaskLists) (nss : NamespaceString) (taskList : TaskList) :
    TaskLists :=
  fun n => if n = nss then some taskList else taskLists n

/-- `_taskLists.erase(nss)`. -/
def eraseTaskList (taskLists : TaskLists) (nss : NamespaceString) : TaskLists :=
  fun n => if n = nss then none else taskLists n

/-- The worker counts after the worker of `nss` has ended. -/
def workerEnded (workers : NamespaceString → Nat) (nss : NamespaceString) :
    NamespaceString → Nat :=
  fun n => if n = nss then workers nss - 1 else workers n

/-- The worker counts after the thread pool accepted one more worker for `nss`. -/
def workerScheduled (workers : NamespaceString → Nat) (nss : NamespaceString) :
    NamespaceString → Nat :=
  fun n => if n = nss then workers nss + 1 else workers n

/-- The tasks queued for `nss`: those of its list, none when the map has no list. -/
def tasksOf (taskLists : TaskLists) (nss : NamespaceString) : List Task :=
  ((taskLists nss).getD TaskList.init)._tasks

/-- The part of `_runTasks` under `_mutex` (lines 829-851), run by the worker of `nss`
with the `taskFinished` it computed; `scheduleStatus` is what `_threadPool.schedule`
returns for the next worker. Next to the system it leaves, whether a worker was
scheduled again. The result is `none` when the invariant of `pop_front` fails. -/
def runTasksLocked (sys : System) (nss : NamespaceString) (taskFinished : Bool)
    (scheduleStatus : Status) : Option (System × Bool) :=
  let taskList := (sys.loader._taskLists nss).getD TaskList.init
  match (if taskFinished then taskList.pop_front else some taskList) with
  | none => none
  | some taskList2 =>
    if !taskList2.empty then
      match scheduleStatus with
      | none =>
        some ({ sys with
          loader := { sys.loader with
            _taskLists := setTaskList sys.loader._taskLists nss taskList2 } }, true)
      | some _ =>
        some ({ sys with
          loader := { sys.loader with _taskLists := eraseTaskList sys.loader._taskLists nss },
          workers := workerEnded sys.workers nss }, false)
    else
      some ({ sys with
        loader := { sys.loader with _taskLists := eraseTaskList sys.loader._taskLists nss },
        workers := workerEnded sys.workers nss }, false)

/-- `_runTasks` from the point where `_updatePersistedMetadata` has returned
(`updateStatus = none`) or thrown (lines 815-851). -/
def runTasksAfterUpdate (sys : System) (nss : NamespaceString) (updateStatus : Status)
    (scheduleStatus : Status) : Option (System × Bool) :=
  match updateStatus with
  | none => runTasksLocked sys nss true scheduleStatus
  | some code =>
    if isShutdownError code then
      some ({ sys with workers := workerEnded sys.workers nss }, false)
    else runTasksLocked sys nss false scheduleStatus

/-- `ShardServerCatalogCacheLoader::_runTasks`, run by a worker of `nss`. -/
def _runTasks (sys : System) (nss : NamespaceString) (faults : StorageFaults)
    (scheduleStatus : Status) : Option (System × Bool) :=
  match _updatePersistedMetadata sys.loader sys.store nss faults with
  | none => none
  | some (store2, updateStatus) =>
    runTasksAfterUpdate { sys with store := store2 } nss updateStatus scheduleStatus

/-- `_ensureMajorityPrimaryAndScheduleTask` on the system: when the call returns OK and
the list was empty, the thread pool has accepted a worker for `nss`. -/
def ensureMajorityPrimaryAndScheduleTaskStep (sys : System) (nss : NamespaceString)
    (task : Task) (linearizableReadStatus scheduleStatus : Status) :
    Option (System × Status) :=
  match _ensureMajorityPrimaryAndScheduleTask sys.loader nss task linearizableReadStatus
      scheduleStatus with
  | none => none
  | some (loader2, status) =>
    let wasEmpty := ((sys.loader._taskLists nss).getD TaskList.init).empty
    some ({ sys with
      loader := loader2,
      workers :=
        if status = none ∧ wasEmpty = true then workerScheduled sys.workers nss
        else sys.workers }, status)

/-- One step of the loader: a task is enqueued through
`_ensureMajorityPrimaryAndScheduleTask`; a worker of some namespace, after its storage
writes left the store `store2` and ended with `updateStatus`, completes `_runTasks`; or
the node steps down or up. -/
inductive System.Step : System → System → Prop where
  | enqueue (sys sys2 : System) (nss : NamespaceString) (task : Task)
      (linearizableReadStatus scheduleStatus status : Status) :
      ensureMajorityPrimaryAndScheduleTaskStep sys nss task linearizableReadStatus
        scheduleStatus = some (sys2, status) →
      System.Step sys sys2
  | worker (sys sys2 : System) (nss : NamespaceString) (store2 : PersistedStore)
      (updateStatus scheduleStatus : Status) (rescheduled : Bool) :
      0 < sys.workers nss →
      runTasksAfterUpdate { sys with store := store2 } nss updateStatus scheduleStatus =
        some (sys2, rescheduled) →
      System.Step sys sys2
  | stepDown (sys : System) (loader2 : LoaderState) :
      onStepDown sys.loader = some loader2 → System.Step sys { sys with loader := loader2 }
  | stepUp (sys : System) (loader2 : LoaderState) :
      onStepUp sys.loader = some loader2 → System.Step sys { sys with loader := loader2 }

/-- The systems reached from a loader without task list and without worker. -/
inductive System.Reachable : System → Prop where
  | init (sys : System) : (∀ nss, sys.loader._taskLists nss = none) →
      (∀ nss, sys.workers nss = 0) → System.Reachable sys
  | step (sys sys2 : System) : System.Reachable sys → System.Step sys sys2 →
      System.Reachable sys2

/-- The operations of the loader that change its state. -/
inductive LoaderState.Operation : LoaderState → LoaderState → Prop where
  | initializeReplicaSetRole (state state2 : LoaderState) (isPrimary : Bool) :
      initializeReplicaSetRole state isPrimary = some state2 →
      LoaderState.Operation state state2
  | onStepDown (state state2 : LoaderState) :
      onStepDown state = some state2 → LoaderState.Operation state state2
  | onStepUp (state state2 : LoaderState) :
      onStepUp state = some state2 → LoaderState.Operation state state2
  | shutDown (state : LoaderState) : LoaderState.Operation state (shutDown state)
  | remoteRefreshCallbackFn (state state2 : LoaderState) (nss : NamespaceString)
      (catalogCacheSinceVersion maxLoaderVersion : ChunkVersion) (termScheduled : Int)
      (linearizableReadStatus scheduleStatus : Status)
      (swPersisted swCollectionAndChangedChunks : StatusWith CollectionAndChangedChunks)
      (events : List Event) :
      remoteRefreshCallbackFn state nss catalogCacheSinceVersion maxLoaderVersion
        termScheduled linearizableReadStatus scheduleStatus swPersisted
        swCollectionAndChangedChunks = some (state2, events) →
      LoaderState.Operation state state2
  | runTasks (sys sys2 : System) (nss : NamespaceString) (faults : StorageFaults)
      (scheduleStatus : Status) (rescheduled : Bool) :
      _runTasks sys nss faults scheduleStatus = some (sys2, rescheduled) →
      LoaderState.Operation sys.loader sys2.loader


/-- At most one worker per namespace, and none for a namespace without queued task. -/
def System.OneWorker (sys : System) : Prop :=
  ∀ nss, sys.workers nss ≤ 1 ∧ (tasksOf sys.loader._taskLists nss = [] → sys.workers nss = 0)


/-! ## The primary path next to the store -/

/-- The non-drop task that `Task::Task` builds from an OK payload whose last chunk is
`back`. -/
def refreshTask (taskId : Nat) (payload : CollectionAndChangedChunks)
    (minimumQueryVersion : ChunkVersion) (back : ChunkType) (currentTerm : Int) : Task :=
  { taskNum := taskId, collectionAndChangedChunks := some payload,
    minQueryVersion := minimumQueryVersion, maxQueryVersion := back.getVersion,
    dropped := false, termCreated := currentTerm }

/-- The drop task that `Task::Task` builds from a NamespaceNotFound status. -/
def dropTask (taskId : Nat) (minimumQueryVersion : ChunkVersion) (currentTerm : Int) : Task :=
  { taskNum := taskId, collectionAndChangedChunks := none,
    minQueryVersion := minimumQueryVersion, maxQueryVersion := ChunkVersion.UNSHARDED,
    dropped := true, termCreated := currentTerm }

/-- The loader state after `task` was constructed and `_taskLists[nss]` became
`taskList`. -/
def withTaskList (state : LoaderState) (nss : NamespaceString) (taskList : TaskList) :
    LoaderState :=
  { state with
    taskIdGenerator := state.taskIdGenerator + 1,
    _taskLists := setTaskList state._taskLists nss taskList }

/-- `remoteRefreshCallbackFn` on the system. The lambda writes nothing to the persisted
store (its storage accesses are the reads behind `swPersisted`), and the thread pool
has accepted a worker for `nss` exactly when the list of `nss` was empty and has a task
afterwards (lines 788-792). -/
def remoteRefreshCallbackFnStep (sys : System) (nss : NamespaceString)
    (catalogCacheSinceVersion maxLoaderVersion : ChunkVersion) (termScheduled : Int)
    (linearizableReadStatus scheduleStatus : Status)
    (swPersisted swCollectionAndChangedChunks : StatusWith CollectionAndChangedChunks) :
    Option (System × List Event) :=
  (remoteRefreshCallbackFn sys.loader nss catalogCacheSinceVersion maxLoaderVersion
    termScheduled linearizableReadStatus scheduleStatus swPersisted
    swCollectionAndChangedChunks).map
    (fun r =>
      ({ loader := r.1, store := sys.store,
         workers :=
           if (tasksOf sys.loader._taskLists nss).isEmpty = true ∧
               (tasksOf r.1._taskLists nss).isEmpty = false then
             workerScheduled sys.workers nss
           else sys.workers }, r.2))


/-! ## waitForCollectionFlush -/

/-- The loop of `ShardServerCatalogCacheLoader::waitForCollectionFlush` (lines 447-487).
`states i` is the loader state that iteration `i` of the loop sees under `_mutex`: the
state at entry for `i = 0`, the state when `waitForActiveTaskCompletion` has reacquired
the mutex afterwards. The result is the iteration at which the function returns
normally, or the code of the `uassert`; it is `none` when the loop has not ended after
`fuel` iterations, and where the source takes `back()` or `front()` of an empty list. -/
def waitForCollectionFlushLoop (states : Nat → LoaderState) (nss : NamespaceString)
    (initialTerm : Int) : Nat → Nat → Option Nat → Option (Except ErrorCodes Nat)
  | 0, _, _ => none
  | fuel + 1, iteration, taskNumToWait =>
    if (states iteration)._role = ReplicaSetRole.Primary ∧
        (states iteration)._term = initialTerm then
      match (states iteration)._taskLists nss with
      | none => some (.ok iteration)
      | some taskList =>
        match taskNumToWait with
        | none =>
          match taskList._tasks.getLast? with
          | none => none
          | some lastTask =>
            waitForCollectionFlushLoop states nss initialTerm fuel (iteration + 1)
              (some lastTask.taskNum)
        | some captured =>
          match taskList._tasks with
          | [] => none
          | activeTask :: rest =>
            if activeTask.taskNum > captured then
              if activeTask.dropped then
                waitForCollectionFlushLoop states nss initialTerm fuel (iteration + 1)
                  (some activeTask.taskNum)
              else
                match rest with
                | secondTask :: _ =>
                  if secondTask.dropped then
                    waitForCollectionFlushLoop states nss initialTerm fuel (iteration + 1)
                      (some secondTask.taskNum)
                  else some (.ok iteration)
                | [] => some (.ok iteration)
            else
              waitForCollectionFlushLoop states nss initialTerm fuel (iteration + 1)
                (some captured)
    else some (.error ErrorCodes.NotMaster)

/-- `ShardServerCatalogCacheLoader::waitForCollectionFlush`: `initialTerm` is the term of
the state at entry and no task number is captured yet. -/
def waitForCollectionFlush (states : Nat → LoaderState) (nss : NamespaceString)
    (fuel : Nat) : Option (Except ErrorCodes Nat) :=
  waitForCollectionFlushLoop states nss (states 0)._term fuel 0 none

/-- The tasks of a list were added in increasing `taskNum` order. -/
def IncreasingTaskNums (tasks : List Task) : Prop :=
  tasks.Pairwise (fun a b => a.taskNum < b.taskNum)


/-! ## The operation context group -/

/-- Modelled from the spec: the group `_contexts` of the loader
(`operation_context_group.h` is not among the sources): for each outstanding operation
context, the code it was interrupted with, `none` while it is not interrupted. -/
abbrev OperationContextGroup := List Status

/-- Modelled from the spec: `OperationContextGroup::interrupt(code)`: every outstanding
context of the group is interrupted with `code`; a context interrupted before keeps the
code it has. -/
def OperationContextGroup.interrupt (contexts : OperationContextGroup) (code : ErrorCodes) :
    OperationContextGroup :=
  contexts.map (fun killStatus => some (killStatus.getD code))

/-- The loader: the members guarded by `_mutex` and the group `_contexts`. -/
structure ShardServerCatalogCacheLoader where
  state : LoaderState
  _contexts : OperationContextGroup

/-- `ShardServerCatalogCacheLoader::onStepDown` (lines 364-370) with the group: after the
invariant, `_contexts.interrupt(ErrorCodes::PrimarySteppedDown)`, then the writes of
`onStepDown` to term and role. -/
def ShardServerCatalogCacheLoader.onStepDown (loader : ShardServerCatalogCacheLoader) :
    Option ShardServerCatalogCacheLoader :=
  (Mongo.onStepDown loader.state).map (fun state2 =>
    { state := state2,
      _contexts :=
        OperationContextGroup.interrupt loader._contexts ErrorCodes.PrimarySteppedDown })

/-- `ShardServerCatalogCacheLoader::onStepUp` (lines 373-378) with the group: the body
has the invariant and the writes of `onStepUp` to term and role, and no statement on
`_contexts`. -/
def ShardServerCatalogCacheLoader.onStepUp (loader : ShardServerCatalogCacheLoader) :
    Option ShardServerCatalogCacheLoader :=
  (Mongo.onStepUp loader.state).map (fun state2 =>
    { state := state2, _contexts := loader._contexts })

/-- The locked block of the destructor (lines 335-339) with the group:
`_contexts.interrupt(ErrorCodes::InterruptedAtShutdown)`, then `++_term`. -/
def ShardServerCatalogCacheLoader.shutDown (loader : ShardServerCatalogCacheLoader) :
    ShardServerCatalogCacheLoader :=
  { state := Mongo.shutDown loader.state,
    _contexts :=
      OperationContextGroup.interrupt loader._contexts ErrorCodes.InterruptedAtShutdown }


/-! ## Reads of the persisted mirror -/

/-- The failures of the storage reads that one call meets: for each read, the code of the
failure, `none` when the read succeeds. -/
structure ReadFaults where
  readShardCollectionsEntry : Status
  readShardChunks : Status
  afterShardCollectionsEntry : Status

/-- No read fails. -/
def ReadFaults.noFaults : ReadFaults := ⟨none, none, none⟩

/-- Modelled from the spec: `readShardCollectionsEntry` of `shard_metadata_util.cpp` (not
among the sources), the spec's `readCollectionEntry(nss) → CollectionEntry | NotFound`:
the entry of `nss`, NamespaceNotFound when there is none, the code of the storage failure
when the read fails. -/
def readShardCollectionsEntry (readStatus : Status) (store : PersistedStore)
    (nss : NamespaceString) : StatusWith ShardCollectionType :=
  match readStatus with
  | some code => .error code
  | none =>
    match store.collections nss with
    | none => .error ErrorCodes.NamespaceNotFound
    | some entry => .ok entry

/-- Modelled from the spec: `QueryAndSort` of `shard_metadata_util.h`: a filter on chunk
documents and a sort on the version, ascending or descending. -/
structure QueryAndSort where
  query : ChunkType → Bool
  ascending : Bool

/-- Modelled from the spec: `createShardChunkDiffQuery`, the spec's diff query
`filter = {version ≥ V}`, `sort = {version asc}`. -/
def createShardChunkDiffQuery (collectionVersion : ChunkVersion) : QueryAndSort :=
  { query := fun chunk => !chunk.getVersion.lt collectionVersion, ascending := true }

/-- Chunk `a` may stand before chunk `b` in a list sorted ascending by version. -/
def versionAscending (a b : ChunkType) : Prop := b.getVersion.lt a.getVersion = false

/-- Chunk `a` may stand before chunk `b` in a list sorted descending by version. -/
def versionDescending (a b : ChunkType) : Prop := a.getVersion.lt b.getVersion = false

instance : DecidableRel versionAscending :=
  fun a b => inferInstanceAs (Decidable (b.getVersion.lt a.getVersion = false))

instance : DecidableRel versionDescending :=
  fun a b => inferInstanceAs (Decidable (a.getVersion.lt b.getVersion = false))

instance : IsTotal ChunkType versionAscending :=
  ⟨fun a b => by
    unfold versionAscending ChunkType.getVersion ChunkVersion.lt
    simp only [decide_eq_false_iff_not]
    omega⟩

instance : IsTrans ChunkType versionAscending :=
  ⟨fun a b c => by
    unfold versionAscending ChunkType.getVersion ChunkVersion.lt
    simp only [decide_eq_false_iff_not]
    omega⟩

/-- Modelled from the spec: `readShardChunks` of `shard_metadata_util.cpp` (not among the
sources), the spec's `readChunks(nss, filter, sort, limit, requiredEpoch)`: the chunks of
`nss` that pass the filter, sorted by version, at most `limit` of them. A read that
fails, the disagreement of the epoch included, returns the code `readStatus`. -/
def readShardChunks (readStatus : Status) (store : PersistedStore) (nss : NamespaceString)
    (query : ChunkType → Bool) (ascending : Bool) (limit : Option Nat) (_epoch : OID) :
    StatusWith (List ChunkType) :=
  match readStatus with
  | some code => .error code
  | none =>
    let found := (store.chunks nss).filter query
    let sorted :=
      if ascending then found.insertionSort versionAscending
      else found.insertionSort versionDescending
    match limit with
    | some n => .ok (sorted.take n)
    | none => .ok sorted

/-- `getPersistedMaxVersion` (lines 142-178); an error is the exception thrown. -/
def getPersistedMaxVersion (reads : ReadFaults) (store : PersistedStore)
    (nss : NamespaceString) : StatusWith ChunkVersion :=
  match readShardCollectionsEntry reads.readShardCollectionsEntry store nss with
  | .error code =>
    if code = ErrorCodes.NamespaceNotFound then .ok ChunkVersion.UNSHARDED
    else .error ErrorCodes.OperationFailed
  | .ok statusWithCollection =>
    match readShardChunks reads.readShardChunks store nss (fun _ => true) false (some 1)
        statusWithCollection._epoch with
    | .error _ => .error ErrorCodes.OperationFailed
    | .ok [] => .ok ChunkVersion.UNSHARDED
    | .ok (front :: _) => .ok front.getVersion

/-- `getPersistedMetadataSinceVersion` (lines 192-219); an error is the exception thrown
by `uassertStatusOK`. The body does not read `okToReadWhileRefreshing`. -/
def getPersistedMetadataSinceVersion (reads : ReadFaults) (store : PersistedStore)
    (nss : NamespaceString) (version : ChunkVersion) (_okToReadWhileRefreshing : Bool) :
    StatusWith CollectionAndChangedChunks :=
  match readShardCollectionsEntry reads.readShardCollectionsEntry store nss with
  | .error code => .error code
  | .ok shardCollectionEntry =>
    let startingVersion : ChunkVersion :=
      if shardCollectionEntry._epoch = version.epoch then version
      else ⟨0, 0, shardCollectionEntry._epoch⟩
    let diff := createShardChunkDiffQuery startingVersion
    match readShardChunks reads.readShardChunks store nss diff.query diff.ascending none
        startingVersion.epoch with
    | .error code => .error code
    | .ok changedChunks =>
      .ok { uuid := shardCollectionEntry._uuid,
            epoch := shardCollectionEntry._epoch,
            shardKeyPattern := shardCollectionEntry._keyPattern,
            defaultCollation := shardCollectionEntry._defaultCollation,
            shardKeyIsUnique := shardCollectionEntry._unique,
            changedChunks := changedChunks }

/-- The catch block of `getIncompletePersistedMetadataSinceVersion` (lines 252-260), for
an exception of code `code`. -/
def caughtReadFailure (code : ErrorCodes) : StatusWith CollectionAndChangedChunks :=
  if code = ErrorCodes.NamespaceNotFound then .ok CollectionAndChangedChunks.empty
  else .error ErrorCodes.OperationFailed

/-- `getIncompletePersistedMetadataSinceVersion` (lines 228-261). `store` is the
persisted mirror when the entry and the chunks are read, `afterStore` the mirror when the
entry is read again. -/
def getIncompletePersistedMetadataSinceVersion (reads : ReadFaults)
    (store afterStore : PersistedStore) (nss : NamespaceString) (version : ChunkVersion) :
    StatusWith CollectionAndChangedChunks :=
  match getPersistedMetadataSinceVersion reads store nss version false with
  | .error code => caughtReadFailure code
  | .ok collAndChunks =>
    if collAndChunks.changedChunks.isEmpty then .ok CollectionAndChangedChunks.empty
    else
      match readShardCollectionsEntry reads.afterShardCollectionsEntry afterStore nss with
      | .error code => caughtReadFailure code
      | .ok afterShardCollectionsEntry =>
        if collAndChunks.epoch ≠ afterShardCollectionsEntry._epoch then
          .ok CollectionAndChangedChunks.empty
        else .ok collAndChunks


/-! ## The writes of persistCollectionAndChangedChunks in order -/

/-- A call of one of the four storage writes of `persistCollectionAndChangedChunks`,
with its arguments. -/
inductive StorageWrite where
  | updateShardCollectionsEntry (update : ShardCollectionType) (upsert : Bool)
  | setPersistedRefreshFlags
  | updateShardChunks (chunks : List ChunkType) (currEpoch : OID)
  | unsetPersistedRefreshFlags (refreshedVersion : ChunkVersion)

/-- `persistCollectionAndChangedChunks` (lines 84-129) instrumented: next to the store it
leaves and the status it returns, the storage writes it called, in the order of the
calls, the failing one included. -/
def persistCollectionAndChangedChunksTraced (faults : PersistFaults) (store : PersistedStore)
    (nss : NamespaceString) (collAndChunks : CollectionAndChangedChunks) :
    Option (PersistedStore × Status × List StorageWrite) :=
  let update := ShardCollectionType.construct nss collAndChunks.uuid collAndChunks.epoch
    collAndChunks.shardKeyPattern collAndChunks.defaultCollation collAndChunks.shardKeyIsUnique
  let call1 := StorageWrite.updateShardCollectionsEntry update true
  match faults.updateShardCollectionsEntry with
  | some status => some (store, some status, [call1])
  | Option.none =>
  let store := updateShardCollectionsEntry store nss update true
  let call2 := StorageWrite.setPersistedRefreshFlags
  match faults.setPersistedRefreshFlags with
  | some status => some (store, some status, [call1, call2])
  | Option.none =>
  let store := setPersistedRefreshFlags store nss
  let call3 := StorageWrite.updateShardChunks collAndChunks.changedChunks collAndChunks.epoch
  match updateShardChunks faults.updateShardChunks store nss collAndChunks.changedChunks
      collAndChunks.epoch with
  | (store, some status) => some (store, some status, [call1, call2, call3])
  | (store, Option.none) =>
  match collAndChunks.changedChunks.getLast? with
  | Option.none => Option.none
  | some back =>
  let call4 := StorageWrite.unsetPersistedRefreshFlags back.getVersion
  match faults.unsetPersistedRefreshFlags with
  | some status => some (store, some status, [call1, call2, call3, call4])
  | Option.none =>
    some (unsetPersistedRefreshFlags store nss back.getVersion, Option.none,
      [call1, call2, call3, call4])

/-- From the spec's words, a sequence of writes that stops at the first failing step and
returns that step's status: each write comes with the status it returns; the result is
the writes made and the status returned. -/
def stopAtFirstFailure : List (StorageWrite × Status) → List StorageWrite × Status
  | [] => ([], none)
  | (write, none) :: rest => (write :: (stopAtFirstFailure rest).1, (stopAtFirstFailure rest).2)
  | (write, some status) :: _ => ([write], some status)


/-! ## Task lists found in the map -/

/-- Every task list present in the map `_taskLists` holds a task. -/
def LoaderState.ListsNonEmpty (state : LoaderState) : Prop :=
  ∀ nss taskList, state._taskLists nss = some taskList → taskList._tasks ≠ []


/-! ## Sample data -/

/-- Chunk `[0, 10)` at version `1|0` of epoch 7. -/
def sampleChunk1 : ChunkType := { min := 0, max := 10, shard := "shard0", version := ⟨1, 0, 7⟩ }

/-- Chunk `[10, 20)` at version `1|1` of epoch 7. -/
def sampleChunk2 : ChunkType := { min := 10, max := 20, shard := "shard0", version := ⟨1, 1, 7⟩ }

/-- Chunk `[10, 15)` at version `1|2` of epoch 7. -/
def sampleChunk3 : ChunkType := { min := 10, max := 15, shard := "shard1", version := ⟨1, 2, 7⟩ }

/-- Chunk `[15, 20)` at version `1|3` of epoch 7. -/
def sampleChunk4 : ChunkType := { min := 15, max := 20, shard := "shard0", version := ⟨1, 3, 7⟩ }

/-- The collection of epoch 7 with the chunks given. -/
def samplePayload (chunks : List ChunkType) : CollectionAndChangedChunks :=
  { uuid := none, epoch := 7, shardKeyPattern := [("x", BSONValue.NumberInt 1)],
    defaultCollation := [], shardKeyIsUnique := false, changedChunks := chunks }

/-- A first refresh of the sample collection, from `UNSHARDED` to `1|1`. -/
def sampleTaskA : Task :=
  { taskNum := 0, collectionAndChangedChunks := some (samplePayload [sampleChunk1, sampleChunk2]),
    minQueryVersion := ChunkVersion.UNSHARDED, maxQueryVersion := ⟨1, 1, 7⟩,
    dropped := false, termCreated := 1 }

/-- The refresh that follows `sampleTaskA`, from `1|1` to `1|3`. -/
def sampleTaskB : Task :=
  { taskNum := 1,
    collectionAndChangedChunks := some (samplePayload [sampleChunk2, sampleChunk3, sampleChunk4]),
    minQueryVersion := ⟨1, 1, 7⟩, maxQueryVersion := ⟨1, 3, 7⟩,
    dropped := false, termCreated := 1 }

/-- A drop task that continues `sampleTaskB`. -/
def sampleDropTask : Task :=
  { taskNum := 2, collectionAndChangedChunks := none, minQueryVersion := ⟨1, 3, 7⟩,
    maxQueryVersion := ChunkVersion.UNSHARDED, dropped := true, termCreated := 1 }

/-- Task lists holding `tasks` for the namespace `db.coll` and nothing else. -/
def sampleTaskLists (tasks : List Task) : TaskLists :=
  fun nss => if nss = "db.coll" then some ⟨tasks⟩ else none

/-- An entry built by the constructor from an empty shard key pattern. -/
def sampleEntryEmptyKey : ShardCollectionType :=
  ShardCollectionType.construct "db.coll" none 7 [] [] false

/-- An entry of epoch 7 whose lastRefreshedCollectionVersion carries epoch 8. -/
def sampleEntryOtherEpoch : ShardCollectionType :=
  { ShardCollectionType.construct "db.coll" none 7 [("x", BSONValue.NumberInt 1)] [] false with
    _refreshing := some false, _lastRefreshedCollectionVersion := some ⟨1, 0, 8⟩ }

/-- A complete entry of epoch 7. -/
def sampleEntry : ShardCollectionType :=
  { _nss := "db.coll", _uuid := some ⟨List.replicate 16 0, rfl⟩, _epoch := 7,
    _keyPattern := [("x", BSONValue.NumberInt 1)],
    _defaultCollation := [("locale", BSONValue.String "fr")], _unique := true,
    _refreshing := some false, _lastRefreshedCollectionVersion := some ⟨1, 3, 7⟩ }


/-- A primary in term 1 without any task list. -/
def samplePrimaryState : LoaderState :=
  { _role := ReplicaSetRole.Primary, _term := 1, _taskLists := fun _ => none,
    taskIdGenerator := 0 }

/-- A secondary in term 1 without any task list. -/
def sampleSecondaryState : LoaderState :=
  { _role := ReplicaSetRole.Secondary, _term := 1, _taskLists := fun _ => none,
    taskIdGenerator := 0 }

/-- A store that shows a finished refresh up to `1|1` and the chunks `sampleChunk1` and
`sampleChunk2` at every moment, and notifies at once. -/
def sampleObserve : Nat → Observation :=
  fun _ =>
    { refreshFlags := .ok ⟨7, false, ⟨1, 1, 7⟩⟩, notification := none,
      metadata := .ok (samplePayload [sampleChunk1, sampleChunk2]) }

/-- The config server loader answers that `db.coll` does not exist, the majority barrier
succeeds, and the thread pool answers `scheduleStatus` to the `_runTasks` worker. -/
def sampleDropOutcomes (scheduleStatus : Status) : PrimaryOutcomes :=
  { persistedMaxVersion := .ok ChunkVersion.UNSHARDED,
    configResponse := .error ErrorCodes.NamespaceNotFound,
    stateAtResponse := samplePrimaryState,
    linearizableReadStatus := none,
    scheduleStatus := scheduleStatus,
    swPersisted := .ok CollectionAndChangedChunks.empty }

/-- A request for `db.coll` on a primary whose config server loader reports the
collection as dropped. -/
def samplePrimaryRequest (scheduleStatus : Status) : Request :=
  { nss := "db.coll", version := ChunkVersion.UNSHARDED,
    stateAtCall := samplePrimaryState, stateAtStart := samplePrimaryState,
    primary := sampleDropOutcomes scheduleStatus,
    refreshStatus := none, observe := sampleObserve }

/-- A request for `db.coll` on a secondary: the refresh of the primary and the wait for
replication succeed, the local reads succeed. -/
def sampleSecondaryRequest : Request :=
  { nss := "db.coll", version := ChunkVersion.UNSHARDED,
    stateAtCall := sampleSecondaryState, stateAtStart := sampleSecondaryState,
    primary := sampleDropOutcomes none,
    refreshStatus := none, observe := sampleObserve }


/-- A primary in term 1 that holds `tasks` for `db.coll`, with `workers` workers for it,
over the empty store. -/
def sampleSystem (tasks : List Task) (workers : Nat) : System :=
  { loader := { samplePrimaryState with _taskLists := sampleTaskLists tasks },
    store := PersistedStore.empty,
    workers := fun nss => if nss = "db.coll" then workers else 0 }

/-- The system `sampleSystem tasks workers` after the node has stepped down: a secondary
in term 2. -/
def sampleSystemSteppedDown (tasks : List Task) (workers : Nat) : System :=
  { sampleSystem tasks workers with
    loader := { _role := ReplicaSetRole.Secondary, _term := 2,
                _taskLists := sampleTaskLists tasks, taskIdGenerator := 0 } }

/-- The first write of `persistCollectionAndChangedChunks` fails with `code`. -/
def sampleFaults (code : ErrorCodes) : StorageFaults :=
  { persist := { PersistFaults.noFaults with updateShardCollectionsEntry := some code },
    drop := none }


/-- The states seen by a flush of `db.coll` that starts while `sampleTaskA` and
`sampleTaskB` are queued: both are queued at entry, `sampleTaskB` alone is left when the
first task completes, and a task with number 2 is the front when the second completes. -/
def sampleFlushStates : Nat → LoaderState :=
  fun i =>
    { samplePrimaryState with
      _taskLists := sampleTaskLists
        (if i = 0 then [sampleTaskA, sampleTaskB]
         else if i = 1 then [sampleTaskB]
         else [{ sampleTaskB with taskNum := 2 }]) }


/-- A primary in term 1 with two outstanding operation contexts: one not interrupted, one
interrupted before with `Interrupted`. -/
def sampleLoader : ShardServerCatalogCacheLoader :=
  { state := samplePrimaryState, _contexts := [none, some ErrorCodes.Interrupted] }


/-- A store whose entry of `db.coll` has epoch 7 and whose chunks table holds, in this
order, the chunks at versions `1|3`, `1|0` and `1|2`. -/
def sampleStoreUnordered : PersistedStore :=
  { collections := fun nss => if nss = "db.coll" then some sampleEntry else none,
    chunks := fun nss =>
      if nss = "db.coll" then [sampleChunk4, sampleChunk1, sampleChunk3] else [] }

/-- The store `sampleStoreUnordered` after the collection was dropped and created again
with epoch 8. -/
def sampleStoreRecreated : PersistedStore :=
  { sampleStoreUnordered with
    collections := fun nss =>
      if nss = "db.coll" then some { sampleEntry with _epoch := 8 } else none }


/-- The chunk diff fails with HostUnreachable after the first chunk was written. -/
def sampleDiffFaults : PersistFaults :=
  { PersistFaults.noFaults with
    updateShardChunks := some ⟨1, false, ErrorCodes.HostUnreachable⟩ }


/-- A store seen by a secondary while a refresh is applied: refreshing = true at moment 0,
the notification at moment 1, refreshing = false with version `1|1` at moment 2, a read of
the chunks at moment 3 during which a new refresh completes (version `1|3` at moment 4),
then a quiet store: version `1|3` from moment 5 on and four chunks read. -/
def sampleObserveRefreshing : Nat → Observation :=
  fun time =>
    { refreshFlags :=
        if time = 0 then .ok ⟨7, true, ⟨1, 0, 7⟩⟩
        else if time ≤ 3 then .ok ⟨7, false, ⟨1, 1, 7⟩⟩
        else .ok ⟨7, false, ⟨1, 3, 7⟩⟩,
      notification := none,
      metadata :=
        if time ≤ 3 then .ok (samplePayload [sampleChunk1, sampleChunk2])
        else .ok (samplePayload [sampleChunk1, sampleChunk2, sampleChunk3, sampleChunk4]) }


/-- The system after `sampleTaskA` was enqueued for `db.coll` in term 1 and, its worker
still waiting in the thread pool, the node stepped down and up again: a primary in term 3
whose list of `db.coll` holds the task of term 1, over the empty store. -/
def sampleSystemSteppedUp : System :=
  { loader := { _role := ReplicaSetRole.Primary, _term := 3,
                _taskLists := setTaskList samplePrimaryState._taskLists "db.coll"
                  ⟨[sampleTaskA]⟩,
                taskIdGenerator := 0 },
    store := PersistedStore.empty,
    workers := workerScheduled (fun _ => 0) "db.coll" }

/-- What the primary path meets on `sys` when the config server loader answers
`configResponse`, the majority barrier succeeds, the thread pool accepts work and no
storage read fails. -/
def sampleOutcomesOn (sys : System) (version : ChunkVersion)
    (configResponse : StatusWith CollectionAndChangedChunks) : PrimaryOutcomes :=
  { persistedMaxVersion := getPersistedMaxVersion ReadFaults.noFaults sys.store "db.coll",
    configResponse := configResponse,
    stateAtResponse := sys.loader,
    linearizableReadStatus := none,
    scheduleStatus := none,
    swPersisted :=
      getIncompletePersistedMetadataSinceVersion ReadFaults.noFaults sys.store sys.store
        "db.coll" version }


theorem chain_getElem {α : Type} {R : α → α → Prop} :
    ∀ (l : List α), l.Chain' R → ∀ (i : Nat) (a b : α),
      l[i]? = some a → l[i + 1]? = some b → R a b
  | [], _, i, a, b, ha, _ => by simp at ha
  | [x], _, i, a, b, _, hb => by simp at hb
  | x :: y :: rest, h, 0, a, b, ha, hb => by
    simp at ha hb
    subst ha hb
    exact (List.chain'_cons.mp h).1
  | x :: y :: rest, h, i + 1, a, b, ha, hb => by
    have h2 : (y :: rest).Chain' R := (List.chain'_cons.mp h).2
    exact chain_getElem (y :: rest) h2 i a b (by simpa using ha) (by simpa using hb)

theorem addTask_chain (l l2 : TaskList) (task : Task)
    (h : l._tasks.Chain' Task.ContiguousWith) (hadd : l.addTask task = some l2) :
    l2._tasks.Chain' Task.ContiguousWith := by
  obtain ⟨tasks⟩ := l
  cases tasks with
  | nil =>
    simp [TaskList.addTask] at hadd
    subst hadd
    simp
  | cons front rest =>
    simp only [TaskList.addTask] at hadd
    by_cases hd : task.dropped = true
    · rw [if_pos hd] at hadd
      split at hadd
      · split at hadd
        · simp at hadd
          subst hadd
          simp only [List.chain'_cons, List.chain'_singleton, and_true]
          intro _ hb
          rw [hd] at hb
          exact absurd hb (by simp)
        · simp at hadd
          subst hadd
          simp
      · simp at hadd
    · rw [if_neg hd] at hadd
      split at hadd
      · rename_i hinv
        simp at hadd
        subst hadd
        show ((front :: rest) ++ [task]).Chain' Task.ContiguousWith
        rw [List.chain'_append]
        refine ⟨h, by simp, ?_⟩
        intro x hx y hy
        simp at hy
        subst hy
        rw [List.getLast?_eq_getLast _ (List.cons_ne_nil front rest)] at hx
        simp only [Option.mem_def, Option.some.injEq] at hx
        subst hx
        intro _ _
        simp only [Bool.or_eq_true, ChunkVersion.equals, decide_eq_true_eq,
          Bool.not_eq_true'] at hinv
        exact hinv
      · simp at hadd

theorem pop_front_chain (l l2 : TaskList)
    (h : l._tasks.Chain' Task.ContiguousWith) (hpop : l.pop_front = some l2) :
    l2._tasks.Chain' Task.ContiguousWith := by
  obtain ⟨tasks⟩ := l
  cases tasks with
  | nil => simp [TaskList.pop_front] at hpop
  | cons front rest =>
    simp [TaskList.pop_front] at hpop
    subst hpop
    exact h.tail

theorem reachable_chain (l : TaskList) (h : TaskList.Reachable l) :
    l._tasks.Chain' Task.ContiguousWith := by
  induction h with
  | init => simp [TaskList.init]
  | addTask l l2 task _ hadd ih => exact addTask_chain l l2 task ih hadd
  | pop_front l l2 _ hpop ih => exact pop_front_chain l l2 ih hpop

/-- C9: in every task list reachable from the empty list by `addTask` calls whose
invariants hold and `pop_front` calls, two adjacent tasks that are both non-drop are
contiguous: the maxQueryVersion of the first equals the minQueryVersion of the second,
or the minQueryVersion of the second is unset. -/
theorem TaskList.reachable_contiguous (l : TaskList) (h : TaskList.Reachable l) :
    l.Contiguous := by
  intro i a b ha hb
  exact chain_getElem l._tasks (reachable_chain l h) i a b ha hb

theorem TaskList.reachable_contiguous_witness :
    TaskList.Reachable ⟨[sampleTaskA, sampleTaskB]⟩ ∧
      TaskList.Contiguous ⟨[sampleTaskA, sampleTaskB]⟩ :=
  have hr : TaskList.Reachable ⟨[sampleTaskA, sampleTaskB]⟩ :=
    TaskList.Reachable.addTask ⟨[sampleTaskA]⟩ _ sampleTaskB
      (TaskList.Reachable.addTask TaskList.init _ sampleTaskA TaskList.Reachable.init rfl)
      rfl
  ⟨hr, TaskList.reachable_contiguous _ hr⟩

/-- C10: adding a drop task `t` to a non-empty list whose back task ends at
`t.minQueryVersion` leaves `[front]` when the front task is already a drop and
`[front, t]` otherwise; the front task is the one the list had before. -/
theorem TaskList.addTask_drop (l : TaskList) (front back t : Task)
    (hfront : l._tasks.head? = some front) (hback : l._tasks.getLast? = some back)
    (hdrop : t.dropped = true) (hversion : back.maxQueryVersion = t.minQueryVersion) :
    l.addTask t = some ⟨if front.dropped = true then [front] else [front, t]⟩ := by
  obtain ⟨tasks⟩ := l
  cases tasks with
  | nil => simp at hfront
  | cons f rest =>
    simp only [List.head?_cons, Option.some.injEq] at hfront
    subst hfront
    rw [List.getLast?_eq_getLast _ (List.cons_ne_nil f rest)] at hback
    simp only [Option.some.injEq] at hback
    simp only [TaskList.addTask, hdrop, if_true, hback, ChunkVersion.equals, hversion,
      decide_True]
    cases hf : f.dropped <;> simp

theorem TaskList.addTask_drop_witness :
    TaskList.addTask ⟨[sampleTaskA, sampleTaskB]⟩ sampleDropTask =
      some ⟨[sampleTaskA, sampleDropTask]⟩ :=
  TaskList.addTask_drop ⟨[sampleTaskA, sampleTaskB]⟩ sampleTaskA sampleTaskB sampleDropTask
    rfl rfl rfl rfl

/-! ### The metadata merger -/

theorem ChunkVersion.lt_of_lt_of_not_lt (d m c : ChunkVersion)
    (h1 : d.lt m = true) (h2 : c.lt m = false) : d.lt c = true := by
  simp only [ChunkVersion.lt, decide_eq_true_eq, decide_eq_false_iff_not] at *
  omega

theorem ChunkVersion.lt_trans (a b c : ChunkVersion)
    (h1 : a.lt b = true) (h2 : b.lt c = true) : a.lt c = true := by
  simp only [ChunkVersion.lt, decide_eq_true_eq] at *
  omega

theorem ChunkVersion.not_lt_of_lt (a b : ChunkVersion) (h : a.lt b = true) :
    b.lt a = false := by
  simp only [ChunkVersion.lt, decide_eq_true_eq, decide_eq_false_iff_not] at *
  omega

theorem ChunkVersion.not_lt_of_lt_of_not_lt (a f e : ChunkVersion)
    (h1 : a.lt f = true) (h2 : e.lt f = false) : e.lt a = false := by
  simp only [ChunkVersion.lt, decide_eq_true_eq, decide_eq_false_iff_not] at *
  omega

theorem takeWhile_eq_filter_of_sorted (m : ChunkVersion) :
    ∀ (l : List ChunkType), SortedByVersion l →
      l.takeWhile (fun c => c.getVersion.lt m) = l.filter (fun c => c.getVersion.lt m)
  | [], _ => rfl
  | c :: cs, h => by
    have hcs : SortedByVersion cs := (List.pairwise_cons.mp h).2
    have hc := (List.pairwise_cons.mp h).1
    by_cases hlt : c.getVersion.lt m = true
    · simp only [List.takeWhile_cons, List.filter_cons, hlt, if_true]
      rw [takeWhile_eq_filter_of_sorted m cs hcs]
    · simp only [List.takeWhile_cons, List.filter_cons, hlt, if_false, Bool.false_eq_true]
      symm
      rw [List.filter_eq_nil_iff]
      intro d hd hdm
      have h1 := hc d hd
      have h2 := ChunkVersion.lt_of_lt_of_not_lt d.getVersion m c.getVersion hdm
        (by simpa using hlt)
      rw [h1] at h2
      exact Bool.false_ne_true h2

theorem merge_pairwise (R : ChunkType → ChunkType → Prop)
    (hR1 : ∀ a f : ChunkType, a.getVersion.lt f.getVersion = true → R a f)
    (hR2 : ∀ a f e : ChunkType, a.getVersion.lt f.getVersion = true → R f e → R a e)
    (P : List ChunkType) (front : ChunkType) (rest : List ChunkType)
    (hP : P.Pairwise R) (hE : (front :: rest).Pairwise R) :
    (P.takeWhile (fun c => c.getVersion.lt front.getVersion) ++ front :: rest).Pairwise R := by
  rw [List.pairwise_append]
  refine ⟨hP.sublist (List.takeWhile_sublist _), hE, ?_⟩
  intro a ha b hb
  have hlt : a.getVersion.lt front.getVersion = true :=
    @List.mem_takeWhile_imp _ (fun c : ChunkType => c.getVersion.lt front.getVersion) _ _ ha
  rcases List.mem_cons.mp hb with hbf | hbr
  · subst hbf
    exact hR1 a b hlt
  · exact hR2 a front b hlt ((List.pairwise_cons.mp hE).1 b hbr)

theorem _getLoaderMetadataTraced_fst (taskLists : TaskLists) (nss : NamespaceString)
    (since : ChunkVersion) (term : Int) (swPersisted : StatusWith CollectionAndChangedChunks) :
    (_getLoaderMetadataTraced taskLists nss since term swPersisted).map Prod.fst =
      _getLoaderMetadata taskLists nss since term swPersisted := by
  unfold _getLoaderMetadataTraced _getLoaderMetadata
  cases _getEnqueuedMetadata taskLists nss since term with
  | none => rfl
  | some p =>
    obtain ⟨b, enqueued⟩ := p
    simp only
    cases persistedOrError swPersisted with
    | error code => rfl
    | ok persisted =>
      simp only
      split
      · rfl
      · split
        · rfl
        · cases enqueued.changedChunks <;> rfl

/-- C1: in the overlap case of `_getLoaderMetadata` (tasks enqueued for the term, both
changedChunks lists non-empty, equal epochs) with persisted chunks sorted ascending by
version, the returned changedChunks are exactly the persisted chunks whose version is
below the version of the first enqueued chunk, in their original order, followed by all
enqueued chunks in order; every other field is that of persisted. -/
theorem _getLoaderMetadata_overlap (taskLists : TaskLists) (nss : NamespaceString)
    (since : ChunkVersion) (term : Int) (persisted enqueued : CollectionAndChangedChunks)
    (front : ChunkType) (rest : List ChunkType)
    (henq : _getEnqueuedMetadata taskLists nss since term = some (true, enqueued))
    (hp : persisted.changedChunks ≠ [])
    (he : enqueued.changedChunks = front :: rest)
    (hepoch : enqueued.epoch = persisted.epoch)
    (hsorted : SortedByVersion persisted.changedChunks) :
    _getLoaderMetadata taskLists nss since term (.ok persisted) =
      some (.ok { persisted with
        changedChunks :=
          persisted.changedChunks.filter (fun c => c.getVersion.lt front.getVersion) ++
            enqueued.changedChunks }) := by
  have hp2 : persisted.changedChunks.isEmpty = false := by
    cases h : persisted.changedChunks with
    | nil => exact absurd h hp
    | cons _ _ => rfl
  simp only [_getLoaderMetadata, henq, persistedOrError, Bool.not_true, hp2, he,
    List.isEmpty_cons, hepoch, ne_eq, not_true_eq_false, decide_False, Bool.or_self,
    Bool.false_eq_true, if_false]
  rw [takeWhile_eq_filter_of_sorted front.getVersion persisted.changedChunks hsorted]

/-- C2: outside the overlap case `_getLoaderMetadata` returns one of its inputs unchanged.
Without a task list for nss, or with a newest task of another term, the result is the
persisted metadata; with tasks enqueued and persisted changedChunks empty, or enqueued
changedChunks empty, or different epochs, the result is the enqueued metadata. In both
cases no version of a persisted chunk is compared with a version of an enqueued chunk. -/
theorem _getLoaderMetadata_returns_input (taskLists : TaskLists) (nss : NamespaceString)
    (since : ChunkVersion) (term : Int) (swPersisted : StatusWith CollectionAndChangedChunks)
    (persisted : CollectionAndChangedChunks)
    (hpersisted : persistedOrError swPersisted = .ok persisted) :
    ((taskLists nss = none ∨
        ∃ taskList back, taskLists nss = some taskList ∧
          taskList._tasks.getLast? = some back ∧ back.termCreated ≠ term) →
      _getLoaderMetadata taskLists nss since term swPersisted = some (.ok persisted) ∧
      _getLoaderMetadataTraced taskLists nss since term swPersisted =
        some (.ok persisted, [])) ∧
    (∀ enqueued : CollectionAndChangedChunks,
      _getEnqueuedMetadata taskLists nss since term = some (true, enqueued) →
      (persisted.changedChunks = [] ∨ enqueued.changedChunks = [] ∨
        enqueued.epoch ≠ persisted.epoch) →
      _getLoaderMetadata taskLists nss since term swPersisted = some (.ok enqueued) ∧
      _getLoaderMetadataTraced taskLists nss since term swPersisted =
        some (.ok enqueued, [])) := by
  constructor
  · intro h
    have henq : _getEnqueuedMetadata taskLists nss since term =
        some (false, CollectionAndChangedChunks.empty) := by
      rcases h with h | ⟨taskList, back, h1, h2, h3⟩
      · simp [_getEnqueuedMetadata, h]
      · simp [_getEnqueuedMetadata, h1, TaskList.hasTasksFromThisTerm, h2, h3]
    simp [_getLoaderMetadata, _getLoaderMetadataTraced, henq, hpersisted]
  · intro enqueued henq hcase
    have hc : (persisted.changedChunks.isEmpty || enqueued.changedChunks.isEmpty ||
        decide (enqueued.epoch ≠ persisted.epoch)) = true := by
      rcases hcase with h | h | h
      · simp [h]
      · simp [h]
      · simp [h]
    simp only [_getLoaderMetadata, _getLoaderMetadataTraced, henq, hpersisted, hc,
      Bool.not_true, Bool.false_eq_true, if_false, if_true, and_self]

/-- C3: when the persisted result and the enqueued result are each sorted ascending by
version, `_getLoaderMetadata` returns, and the changedChunks it returns are sorted
ascending by version, in every branch of the merge; the same holds for strictly
ascending lists. -/
theorem _getLoaderMetadata_sorted (taskLists : TaskLists) (nss : NamespaceString)
    (since : ChunkVersion) (term : Int) (swPersisted : StatusWith CollectionAndChangedChunks)
    (tasksAreEnqueued : Bool) (enqueued : CollectionAndChangedChunks)
    (henq : _getEnqueuedMetadata taskLists nss since term = some (tasksAreEnqueued, enqueued)) :
    ∃ r, _getLoaderMetadata taskLists nss since term swPersisted = some r ∧
      (SortedByVersion enqueued.changedChunks →
        (∀ p, swPersisted = .ok p → SortedByVersion p.changedChunks) →
        ∀ result, r = .ok result → SortedByVersion result.changedChunks) ∧
      (StrictlySortedByVersion enqueued.changedChunks →
        (∀ p, swPersisted = .ok p → StrictlySortedByVersion p.changedChunks) →
        ∀ result, r = .ok result → StrictlySortedByVersion result.changedChunks) := by
  have key : ∀ (R : ChunkType → ChunkType → Prop),
      (∀ a f : ChunkType, a.getVersion.lt f.getVersion = true → R a f) →
      (∀ a f e : ChunkType, a.getVersion.lt f.getVersion = true → R f e → R a e) →
      ∃ r, _getLoaderMetadata taskLists nss since term swPersisted = some r ∧
        (enqueued.changedChunks.Pairwise R →
          (∀ p, swPersisted = .ok p → p.changedChunks.Pairwise R) →
          ∀ result, r = .ok result → result.changedChunks.Pairwise R) := by
    intro R hR1 hR2
    simp only [_getLoaderMetadata, henq]
    cases hsw : swPersisted with
    | error code =>
      by_cases hcode : code = ErrorCodes.NamespaceNotFound
      · simp only [persistedOrError, hcode, if_true]
        split
        · exact ⟨_, rfl, fun _ _ result hr => by
            simp only [Except.ok.injEq] at hr
            subst hr
            exact List.Pairwise.nil⟩
        · exact ⟨_, rfl, fun hE _ result hr => by
            simp only [Except.ok.injEq] at hr
            subst hr
            exact hE⟩
      · simp only [persistedOrError, hcode, if_false]
        exact ⟨_, rfl, fun _ _ result hr => by simp at hr⟩
    | ok persisted =>
      simp only [persistedOrError]
      split
      · exact ⟨_, rfl, fun _ hP result hr => by
          simp only [Except.ok.injEq] at hr
          subst hr
          exact hP persisted rfl⟩
      · split
        · exact ⟨_, rfl, fun hE _ result hr => by
            simp only [Except.ok.injEq] at hr
            subst hr
            exact hE⟩
        · rename_i hnot
          cases hch : enqueued.changedChunks with
          | nil => simp [hch] at hnot
          | cons front rest =>
            refine ⟨_, rfl, fun hE hP result hr => ?_⟩
            simp only [Except.ok.injEq] at hr
            subst hr
            exact merge_pairwise R hR1 hR2 persisted.changedChunks front rest
              (hP persisted rfl) hE
  obtain ⟨r, hr, hsorted⟩ := key (fun a b => b.getVersion.lt a.getVersion = false)
    (fun a f h => ChunkVersion.not_lt_of_lt _ _ h)
    (fun a f e h1 h2 => ChunkVersion.not_lt_of_lt_of_not_lt _ _ _ h1 h2)
  obtain ⟨r2, hr2, hstrict⟩ := key (fun a b => a.getVersion.lt b.getVersion = true)
    (fun a f h => h)
    (fun a f e h1 h2 => ChunkVersion.lt_trans _ _ _ h1 h2)
  have : r2 = r := by
    rw [hr] at hr2
    exact (Option.some.inj hr2).symm
  subst this
  exact ⟨r2, hr, hsorted, hstrict⟩

theorem _getLoaderMetadata_overlap_witness :
    _getLoaderMetadata (sampleTaskLists [sampleTaskB]) "db.coll" ⟨1, 0, 7⟩ 1
        (.ok (samplePayload [sampleChunk1, sampleChunk2])) =
      some (.ok (samplePayload [sampleChunk1, sampleChunk2, sampleChunk3, sampleChunk4])) :=
  _getLoaderMetadata_overlap (sampleTaskLists [sampleTaskB]) "db.coll" ⟨1, 0, 7⟩ 1
    (samplePayload [sampleChunk1, sampleChunk2])
    (samplePayload [sampleChunk2, sampleChunk3, sampleChunk4]) sampleChunk2
    [sampleChunk3, sampleChunk4] rfl (by decide) rfl rfl (by unfold SortedByVersion; decide)

theorem _getLoaderMetadata_returns_input_witness :
    (_getLoaderMetadata (sampleTaskLists [sampleTaskA]) "db.coll" ⟨1, 0, 7⟩ 2
        (.ok (samplePayload [sampleChunk1])) = some (.ok (samplePayload [sampleChunk1])) ∧
      _getLoaderMetadataTraced (sampleTaskLists [sampleTaskA]) "db.coll" ⟨1, 0, 7⟩ 2
        (.ok (samplePayload [sampleChunk1])) = some (.ok (samplePayload [sampleChunk1]), [])) ∧
    (_getLoaderMetadata (sampleTaskLists [sampleTaskA]) "db.coll" ⟨1, 0, 7⟩ 1
        (.error ErrorCodes.NamespaceNotFound) =
        some (.ok (samplePayload [sampleChunk1, sampleChunk2])) ∧
      _getLoaderMetadataTraced (sampleTaskLists [sampleTaskA]) "db.coll" ⟨1, 0, 7⟩ 1
        (.error ErrorCodes.NamespaceNotFound) =
        some (.ok (samplePayload [sampleChunk1, sampleChunk2]), [])) :=
  ⟨(_getLoaderMetadata_returns_input (sampleTaskLists [sampleTaskA]) "db.coll" ⟨1, 0, 7⟩ 2
      (.ok (samplePayload [sampleChunk1])) (samplePayload [sampleChunk1]) rfl).1
      (Or.inr ⟨⟨[sampleTaskA]⟩, sampleTaskA, rfl, rfl, by decide⟩),
   (_getLoaderMetadata_returns_input (sampleTaskLists [sampleTaskA]) "db.coll" ⟨1, 0, 7⟩ 1
      (.error ErrorCodes.NamespaceNotFound) CollectionAndChangedChunks.empty rfl).2
      (samplePayload [sampleChunk1, sampleChunk2]) rfl (Or.inl rfl)⟩

theorem _getLoaderMetadata_sorted_witness :
    ∃ r, _getLoaderMetadata (sampleTaskLists [sampleTaskB]) "db.coll" ⟨1, 0, 7⟩ 1
        (.ok (samplePayload [sampleChunk1, sampleChunk2])) = some r ∧
      ∀ result, r = .ok result → StrictlySortedByVersion result.changedChunks :=
  have h := _getLoaderMetadata_sorted (sampleTaskLists [sampleTaskB]) "db.coll" ⟨1, 0, 7⟩ 1
    (.ok (samplePayload [sampleChunk1, sampleChunk2])) true
    (samplePayload [sampleChunk2, sampleChunk3, sampleChunk4]) rfl
  h.imp fun _ hr => ⟨hr.1, hr.2.2 (by unfold StrictlySortedByVersion; decide)
    (fun p hp => by
      cases hp
      unfold StrictlySortedByVersion
      decide)⟩

/-! ### ShardCollectionType -/

/-- C6 (as amended): for every entry whose shard key pattern is not empty and whose
lastRefreshedCollectionVersion, when set, carries the epoch of the entry,
`fromBSON(entry.toBSON())` succeeds and yields the original entry: nss, uuid, epoch,
key pattern, default collation, unique, refreshing and lastRefreshedCollectionVersion
are all unchanged. -/
theorem ShardCollectionType.fromBSON_toBSON (entry : ShardCollectionType)
    (hkey : entry._keyPattern ≠ [])
    (hepoch : ∀ v, entry._lastRefreshedCollectionVersion = some v → v.epoch = entry._epoch) :
    ShardCollectionType.fromBSON entry.toBSON = .ok entry := by
  obtain ⟨nss, uuid, epoch, keyPattern, collation, unique, refreshing, version⟩ := entry
  simp only at hkey hepoch
  have hk : keyPattern.isEmpty = false := by
    cases keyPattern with
    | nil => exact absurd rfl hkey
    | cons _ _ => rfl
  have hv : ∀ v, version = some v → (⟨v.major, v.minor, epoch⟩ : ChunkVersion) = v := by
    intro v hv
    have := hepoch v hv
    cases v
    simp_all
  cases uuid with
  | none =>
    cases collation <;> cases refreshing <;> cases version <;>
      simp [ShardCollectionType.fromBSON, ShardCollectionType.toBSON, hk,
        bsonExtractStringField, bsonExtractTypedField, bsonExtractBooleanField,
        BSONObj.getField, BSONValue.type, ShardCollectionType.construct,
        ChunkVersion.parseFromBSONWithFieldAndSetEpoch, ChunkVersion.toTimestamp,
        List.find?] <;> exact hv _ rfl
  | some u =>
    have hu : u.bytes.length = 16 := u.size
    cases collation <;> cases refreshing <;> cases version <;>
      simp [ShardCollectionType.fromBSON, ShardCollectionType.toBSON, hk,
        bsonExtractStringField, bsonExtractTypedField, bsonExtractBooleanField,
        BSONObj.getField, BSONValue.type, ShardCollectionType.construct,
        ChunkVersion.parseFromBSONWithFieldAndSetEpoch, ChunkVersion.toTimestamp,
        List.find?, UUID.parse, UUID.toElement, newUUID, hu] <;> exact hv _ rfl

/-- C6 (counterexample): an entry built by the constructor from an empty key pattern is
serialized to a document that `fromBSON` rejects with ShardKeyNotFound, and an entry of
epoch 7 whose lastRefreshedCollectionVersion carries epoch 8 comes back with that
version at epoch 7, so not equal to the original. -/
theorem ShardCollectionType.fromBSON_toBSON_counterexample :
    ShardCollectionType.fromBSON sampleEntryEmptyKey.toBSON =
        .error ErrorCodes.ShardKeyNotFound ∧
      ShardCollectionType.fromBSON sampleEntryOtherEpoch.toBSON =
        .ok { sampleEntryOtherEpoch with _lastRefreshedCollectionVersion := some ⟨1, 0, 7⟩ } ∧
      ShardCollectionType.fromBSON sampleEntryOtherEpoch.toBSON ≠ .ok sampleEntryOtherEpoch := by
  refine ⟨rfl, rfl, ?_⟩
  intro h
  have h2 := congrArg (fun r : StatusWith ShardCollectionType =>
    match r with
    | .ok e => e._lastRefreshedCollectionVersion
    | .error _ => none) h
  revert h2
  decide

/-! ### The persisted mirror -/

/-- A stored chunk survives the diff `chunks` when none of its chunks removes it. -/
theorem foldl_applyChunk (chunks : List ChunkType) :
    ∀ table : List ChunkType,
      chunks.foldl applyChunk table =
        table.filter (fun c => chunks.all (fun d => !replacedBy d c)) ++
          chunks.foldl applyChunk []
  := by
  induction chunks with
  | nil => intro table; simp
  | cons d rest ih =>
    intro table
    simp only [List.foldl_cons]
    rw [ih (applyChunk table d), ih (applyChunk [] d)]
    simp only [applyChunk, List.filter_append, List.filter_filter, List.filter_nil,
      List.nil_append, List.append_assoc, List.all_cons]
    congr 1
    apply List.filter_congr
    intro c _
    simp only [replacedBy, Bool.not_or, Bool.and_assoc]
    cases rangesIntersect c d <;> cases decide (c.min = d.min) <;> simp

theorem mem_foldl_applyChunk (chunks : List ChunkType) :
    ∀ (table : List ChunkType) (c : ChunkType),
      c ∈ chunks.foldl applyChunk table → c ∈ table ∨ c ∈ chunks := by
  induction chunks with
  | nil => intro table c h; exact Or.inl (by simpa using h)
  | cons d rest ih =>
    intro table c h
    simp only [List.foldl_cons] at h
    rcases ih _ c h with h1 | h1
    · simp only [applyChunk, List.mem_append, List.mem_filter, List.mem_singleton] at h1
      rcases h1 with h1 | h1
      · exact Or.inl h1.1.1
      · exact Or.inr (by simp [h1])
    · exact Or.inr (List.mem_cons_of_mem _ h1)

theorem foldl_applyChunk_twice (chunks table : List ChunkType) :
    chunks.foldl applyChunk (chunks.foldl applyChunk table) =
      chunks.foldl applyChunk table := by
  rw [foldl_applyChunk chunks (chunks.foldl applyChunk table)]
  rw [foldl_applyChunk chunks table]
  rw [List.filter_append, List.filter_filter]
  have h1 : (chunks.foldl applyChunk []).filter
      (fun c => chunks.all (fun d => !replacedBy d c)) = [] := by
    rw [List.filter_eq_nil_iff]
    intro c hc
    have hmem : c ∈ chunks := by
      rcases mem_foldl_applyChunk chunks [] c hc with h | h
      · simp at h
      · exact h
    simp only [List.all_eq_true, Bool.not_eq_true', not_forall]
    exact ⟨c, hmem, by simp [replacedBy]⟩
  rw [h1, List.append_nil]
  congr 1
  apply List.filter_congr
  intro c _
  simp

theorem persist_noFaults (store : PersistedStore) (nss : NamespaceString)
    (payload : CollectionAndChangedChunks) (back : ChunkType)
    (hback : payload.changedChunks.getLast? = some back) :
    ∃ s1, persistCollectionAndChangedChunks PersistFaults.noFaults store nss payload =
        some (s1, none) ∧
      s1.chunks nss = payload.changedChunks.foldl applyChunk (store.chunks nss) ∧
      s1.collections nss = some
        { (match store.collections nss with
            | some old =>
              (ShardCollectionType.construct nss payload.uuid payload.epoch
                payload.shardKeyPattern payload.defaultCollation
                payload.shardKeyIsUnique).applyUpdate old
            | none =>
              ShardCollectionType.construct nss payload.uuid payload.epoch
                payload.shardKeyPattern payload.defaultCollation payload.shardKeyIsUnique) with
          _refreshing := some false,
          _lastRefreshedCollectionVersion := some back.getVersion } := by
  refine ⟨unsetPersistedRefreshFlags
    (updateShardChunks none
      (setPersistedRefreshFlags
        (updateShardCollectionsEntry store nss
          (ShardCollectionType.construct nss payload.uuid payload.epoch
            payload.shardKeyPattern payload.defaultCollation payload.shardKeyIsUnique) true)
        nss) nss payload.changedChunks payload.epoch).1 nss back.getVersion, ?_, ?_, ?_⟩
  · simp only [persistCollectionAndChangedChunks, PersistFaults.noFaults, updateShardChunks,
      hback]
  · simp [unsetPersistedRefreshFlags, setPersistedRefreshFlags, updateShardCollectionsEntry,
      updateShardChunks]
  · simp only [unsetPersistedRefreshFlags, setPersistedRefreshFlags,
      updateShardCollectionsEntry, updateShardChunks, if_true]
    cases store.collections nss <;> simp

/-- C7: for every store and every non-drop payload (its changedChunks are not empty),
running `persistCollectionAndChangedChunks(nss, payload)` twice in succession, with every
write succeeding, leaves the collection entry and the chunk table of nss as the first
run left them. -/
theorem persistCollectionAndChangedChunks_twice (store : PersistedStore)
    (nss : NamespaceString) (payload : CollectionAndChangedChunks) (back : ChunkType)
    (hback : payload.changedChunks.getLast? = some back) :
    ∃ s1 s2,
      persistCollectionAndChangedChunks PersistFaults.noFaults store nss payload =
        some (s1, none) ∧
      persistCollectionAndChangedChunks PersistFaults.noFaults s1 nss payload =
        some (s2, none) ∧
      s2.collections nss = s1.collections nss ∧ s2.chunks nss = s1.chunks nss := by
  obtain ⟨s1, h1, hchunks1, hentry1⟩ := persist_noFaults store nss payload back hback
  obtain ⟨s2, h2, hchunks2, hentry2⟩ := persist_noFaults s1 nss payload back hback
  refine ⟨s1, s2, h1, h2, ?_, ?_⟩
  · rw [hentry2, hentry1]
    cases store.collections nss <;>
      cases hu : payload.uuid <;> cases hc : payload.defaultCollation.isEmpty <;>
      simp [ShardCollectionType.applyUpdate, ShardCollectionType.construct, hu, hc]
  · rw [hchunks2, hchunks1, foldl_applyChunk_twice]

/-- C7 (witness): persisting `sampleChunk1` and `sampleChunk2` twice into the empty
store. -/
theorem persistCollectionAndChangedChunks_twice_witness :
    ∃ s1 s2,
      persistCollectionAndChangedChunks PersistFaults.noFaults PersistedStore.empty "db.coll"
        (samplePayload [sampleChunk1, sampleChunk2]) = some (s1, none) ∧
      persistCollectionAndChangedChunks PersistFaults.noFaults s1 "db.coll"
        (samplePayload [sampleChunk1, sampleChunk2]) = some (s2, none) ∧
      s2.collections "db.coll" = s1.collections "db.coll" ∧
      s2.chunks "db.coll" = s1.chunks "db.coll" :=
  persistCollectionAndChangedChunks_twice PersistedStore.empty "db.coll"
    (samplePayload [sampleChunk1, sampleChunk2]) sampleChunk2 rfl

theorem answerFromLoaderMetadata_events (state state2 : LoaderState) (nss : NamespaceString)
    (since : ChunkVersion) (term : Int) (swPersisted : StatusWith CollectionAndChangedChunks)
    (events : List Event)
    (h : answerFromLoaderMetadata state nss since term swPersisted = some (state2, events)) :
    ∃ result, events = [Event.callbackFn result, Event.notifySet] := by
  unfold answerFromLoaderMetadata at h
  split at h
  · simp at h
  · split at h
    · simp at h
    · simp only [Option.some.injEq, Prod.mk.injEq] at h
      exact ⟨_, h.2.symm⟩
  · simp only [Option.some.injEq, Prod.mk.injEq] at h
    exact ⟨_, h.2.symm⟩

theorem remoteRefreshCallbackFn_events (state state2 : LoaderState) (nss : NamespaceString)
    (since maxLoaderVersion : ChunkVersion) (term : Int)
    (linearizableReadStatus scheduleStatus : Status)
    (swPersisted sw : StatusWith CollectionAndChangedChunks) (events : List Event)
    (h : remoteRefreshCallbackFn state nss since maxLoaderVersion term linearizableReadStatus
      scheduleStatus swPersisted sw = some (state2, events)) :
    ∃ result, events = [Event.callbackFn result, Event.notifySet] := by
  unfold remoteRefreshCallbackFn at h
  split at h
  · split at h
    · split at h
      · simp at h
      · split at h
        · simp at h
        · simp only [Option.some.injEq, Prod.mk.injEq] at h
          exact ⟨_, h.2.symm⟩
        · simp only [Option.some.injEq, Prod.mk.injEq] at h
          exact ⟨_, h.2.symm⟩
    · simp only [Option.some.injEq, Prod.mk.injEq] at h
      exact ⟨_, h.2.symm⟩
  · split at h
    · simp at h
    · split at h
      · simp only [Option.some.injEq, Prod.mk.injEq] at h
        exact ⟨_, h.2.symm⟩
      · split at h
        · split at h
          · simp at h
          · split at h
            · simp at h
            · simp only [Option.some.injEq, Prod.mk.injEq] at h
              exact ⟨_, h.2.symm⟩
            · exact answerFromLoaderMetadata_events _ _ _ _ _ _ _ h
        · exact answerFromLoaderMetadata_events _ _ _ _ _ _ _ h

/-- Whenever the work scheduled by `getChunksSince` finishes, it has invoked `callbackFn`
exactly once. -/
theorem scheduledWork_callbackCount (request : Request) (currentTerm : Int)
    (isPrimary : Bool) (fuel : Nat) (events : List Event)
    (h : scheduledWork request currentTerm isPrimary fuel = some events) :
    callbackCount events = 1 := by
  unfold scheduledWork at h
  split at h
  · simp only [Option.some.injEq] at h
    subst h
    rfl
  · split at h
    · split at h
      · simp at h
      · simp only [Option.some.injEq] at h
        subst h
        rfl
      · rename_i state2 evs hprim
        simp only [Option.some.injEq] at h
        subst h
        unfold _schedulePrimaryGetChunksSince at hprim
        split at hprim
        · simp at hprim
        · simp at hprim
        · simp only [Option.map_eq_some', Except.ok.injEq, Prod.exists] at hprim
          obtain ⟨s, e, hcb, hs⟩ := hprim
          obtain ⟨result, hres⟩ := remoteRefreshCallbackFn_events _ _ _ _ _ _ _ _ _ _ _ hcb
          simp only [Prod.mk.injEq] at hs
          rw [← hs.2, hres]
          rfl
    · split at h
      · simp at h
      · simp only [Option.some.injEq] at h
        subst h
        rfl
      · rename_i evs hsec
        simp only [Option.some.injEq] at h
        subst h
        unfold _runSecondaryGetChunksSince at hsec
        split at hsec
        · simp at hsec
        · split at hsec
          · simp at hsec
          · simp at hsec
          · simp only [Option.some.injEq, Except.ok.injEq] at hsec
            rw [← hsec]
            rfl

/-- Whenever the work scheduled by `getChunksSince` finishes, it has set the notification,
unless it is the work of a secondary whose reads succeeded: that one ends with the
invocation of `callbackFn`. -/
theorem scheduledWork_notificationSet (request : Request) (currentTerm : Int)
    (isPrimary : Bool) (fuel : Nat) (events : List Event)
    (h : scheduledWork request currentTerm isPrimary fuel = some events) :
    notificationSet events = true ∨
      (isPrimary = false ∧ ∃ collAndChunks, events = [Event.callbackFn (.ok collAndChunks)]) := by
  unfold scheduledWork at h
  split at h
  · simp only [Option.some.injEq] at h
    subst h
    exact Or.inl rfl
  · split at h
    · split at h
      · simp at h
      · simp only [Option.some.injEq] at h
        subst h
        exact Or.inl rfl
      · rename_i state2 evs hprim
        simp only [Option.some.injEq] at h
        subst h
        unfold _schedulePrimaryGetChunksSince at hprim
        split at hprim
        · simp at hprim
        · simp at hprim
        · simp only [Option.map_eq_some', Except.ok.injEq, Prod.exists] at hprim
          obtain ⟨s, e, hcb, hs⟩ := hprim
          obtain ⟨result, hres⟩ := remoteRefreshCallbackFn_events _ _ _ _ _ _ _ _ _ _ _ hcb
          simp only [Prod.mk.injEq] at hs
          rw [← hs.2, hres]
          exact Or.inl rfl
    · rename_i hp
      split at h
      · simp at h
      · simp only [Option.some.injEq] at h
        subst h
        exact Or.inl rfl
      · rename_i evs hsec
        simp only [Option.some.injEq] at h
        subst h
        unfold _runSecondaryGetChunksSince at hsec
        split at hsec
        · simp at hsec
        · split at hsec
          · simp at hsec
          · simp at hsec
          · simp only [Option.some.injEq, Except.ok.injEq] at hsec
            exact Or.inr ⟨by simpa using hp, _, hsec.symm⟩

/-- C4 (failing input): a primary without task list for `db.coll` whose config server
loader answers NamespaceNotFound, whose majority barrier succeeds and whose thread pool
refuses the `_runTasks` worker. `_ensureMajorityPrimaryAndScheduleTask` then locks
`_mutex` at line 798 while it holds it since line 786, so the request never finishes and
`callbackFn` is never invoked; when the thread pool accepts the worker the same request
invokes `callbackFn` once, with NamespaceNotFound. -/
theorem getChunksSince_thread_pool_refuses :
    (∀ fuel, getChunksSince (samplePrimaryRequest (some ErrorCodes.ShutdownInProgress)) fuel =
      none) ∧
    (∀ fuel, getChunksSince (samplePrimaryRequest none) fuel =
      some [Event.callbackFn (.error ErrorCodes.NamespaceNotFound), Event.notifySet]) :=
  ⟨fun _ => rfl, fun _ => rfl⟩

/-- C5 (failing input): a secondary whose refresh of the primary and local reads succeed.
The request invokes `callbackFn` with the metadata read and finishes without setting the
notification. -/
theorem getChunksSince_secondary_notification_unset :
    ∀ fuel, getChunksSince sampleSecondaryRequest (fuel + 1) =
        some [Event.callbackFn (.ok (samplePayload [sampleChunk1, sampleChunk2]))] ∧
      callbackInvoked
        [Event.callbackFn (.ok (samplePayload [sampleChunk1, sampleChunk2]))] = true ∧
      notificationSet
        [Event.callbackFn (.ok (samplePayload [sampleChunk1, sampleChunk2]))] = false :=
  fun _ => ⟨rfl, rfl, rfl⟩

theorem ShardCollectionType.fromBSON_toBSON_witness :
    ShardCollectionType.fromBSON sampleEntry.toBSON = .ok sampleEntry :=
  ShardCollectionType.fromBSON_toBSON sampleEntry (by simp [sampleEntry])
    (fun v hv => by
      simp only [sampleEntry, Option.some.injEq] at hv
      subst hv
      rfl)

/-! ### getEnqueuedMetadataForTerm -/

theorem getEnqueuedMetadataForTerm_eq_foldl (l : TaskList) (term : Int) :
    l.getEnqueuedMetadataForTerm term =
      l._tasks.foldl (enqueuedMetadataStep term) (some CollectionAndChangedChunks.empty) := rfl

theorem foldl_enqueuedMetadataStep_none (term : Int) (tasks : List Task) :
    tasks.foldl (enqueuedMetadataStep term) none = none := by
  induction tasks with
  | nil => rfl
  | cons t rest ih => simpa [enqueuedMetadataStep] using ih

theorem enqueuedMetadataStep_replay (term : Int) (acc r : CollectionAndChangedChunks)
    (task : Task) (h : enqueuedMetadataStep term (some acc) task = some r) :
    r = if task.termCreated = term then replayStep acc task else acc := by
  unfold enqueuedMetadataStep at h
  simp only at h
  by_cases hterm : task.termCreated = term
  · simp only [hterm, ne_eq, not_true_eq_false, if_false, if_true] at h ⊢
    unfold replayStep
    by_cases hd : task.dropped = true
    · simp only [hd, if_true] at h ⊢
      exact (Option.some.inj h).symm
    · simp only [hd, if_false, Bool.false_eq_true] at h ⊢
      cases hp : task.collectionAndChangedChunks with
      | none => simp [hp] at h
      | some payload =>
        simp only [hp] at h ⊢
        by_cases he : payload.epoch = acc.epoch
        · simp only [he, ne_eq, not_true_eq_false, if_false] at h ⊢
          cases hb : acc.changedChunks.getLast? with
          | none => simp [hb] at h
          | some back =>
            cases hc : payload.changedChunks with
            | nil => simp [hb, hc] at h
            | cons front rest =>
              simp only [hb, hc, ChunkVersion.equals, decide_eq_true_eq] at h ⊢
              by_cases hv : back.getVersion = front.getVersion
              · simp only [hv, if_true] at h ⊢
                exact (Option.some.inj h).symm
              · simp only [hv, if_false] at h ⊢
                exact (Option.some.inj h).symm
        · simp only [ne_eq, he, not_false_eq_true, if_true] at h ⊢
          exact (Option.some.inj h).symm
  · simp only [ne_eq, hterm, not_false_eq_true, if_true, if_false] at h ⊢
    exact (Option.some.inj h).symm

theorem foldl_enqueuedMetadataStep_replay (term : Int) (tasks : List Task) :
    ∀ (acc r : CollectionAndChangedChunks),
      tasks.foldl (enqueuedMetadataStep term) (some acc) = some r →
      r = (tasks.filter (fun task => decide (task.termCreated = term))).foldl replayStep acc := by
  induction tasks with
  | nil =>
    intro acc r h
    simpa using h.symm
  | cons t rest ih =>
    intro acc r h
    simp only [List.foldl_cons] at h
    cases hstep : enqueuedMetadataStep term (some acc) t with
    | none =>
      rw [hstep, foldl_enqueuedMetadataStep_none] at h
      simp at h
    | some acc2 =>
      rw [hstep] at h
      have h2 := enqueuedMetadataStep_replay term acc acc2 t hstep
      have h3 := ih acc2 r h
      by_cases hterm : t.termCreated = term
      · simp only [hterm, if_true] at h2
        simp only [List.filter_cons, hterm, decide_True, if_true, List.foldl_cons]
        rw [← h2]
        exact h3
      · simp only [hterm, if_false] at h2
        simp only [List.filter_cons, hterm, decide_False, Bool.false_eq_true, if_false]
        rw [← h2]
        exact h3

theorem foldl_enqueuedMetadataStep_defined (term : Int) (tasks : List Task) :
    ∀ (acc : CollectionAndChangedChunks),
      (acc.changedChunks = [] → acc.epoch = 0) →
      (∀ task ∈ tasks, task.termCreated = term → task.dropped = false →
        ∃ payload, task.collectionAndChangedChunks = some payload ∧
          payload.changedChunks ≠ [] ∧ payload.epoch ≠ 0) →
      ∃ r, tasks.foldl (enqueuedMetadataStep term) (some acc) = some r := by
  induction tasks with
  | nil => intro acc _ _; exact ⟨acc, rfl⟩
  | cons t rest ih =>
    intro acc hacc hwf
    simp only [List.foldl_cons]
    have hrest : ∀ task ∈ rest, task.termCreated = term → task.dropped = false →
        ∃ payload, task.collectionAndChangedChunks = some payload ∧
          payload.changedChunks ≠ [] ∧ payload.epoch ≠ 0 :=
      fun task hm => hwf task (List.mem_cons_of_mem _ hm)
    by_cases hterm : t.termCreated = term
    · by_cases hd : t.dropped = true
      · have : enqueuedMetadataStep term (some acc) t =
            some CollectionAndChangedChunks.empty := by
          simp [enqueuedMetadataStep, hterm, hd]
        rw [this]
        exact ih _ (fun _ => rfl) hrest
      · obtain ⟨payload, hp, hne, hep⟩ := hwf t (List.mem_cons_self _ _) hterm
          (by simpa using hd)
        by_cases he : payload.epoch = acc.epoch
        · have hchunks : acc.changedChunks ≠ [] := by
            intro hnil
            exact hep (he.trans (hacc hnil))
          obtain ⟨back, hb⟩ : ∃ back, acc.changedChunks.getLast? = some back := by
            cases hl : acc.changedChunks.getLast? with
            | none => exact absurd (List.getLast?_eq_none_iff.mp hl) hchunks
            | some back => exact ⟨back, rfl⟩
          obtain ⟨front, rest2, hc⟩ : ∃ front rest2, payload.changedChunks = front :: rest2 := by
            cases hl : payload.changedChunks with
            | nil => exact absurd hl hne
            | cons front rest2 => exact ⟨front, rest2, rfl⟩
          by_cases hv : back.getVersion = front.getVersion
          · have : enqueuedMetadataStep term (some acc) t =
                some { acc with changedChunks := acc.changedChunks ++ rest2 } := by
              simp [enqueuedMetadataStep, hterm, hd, hp, he, hb, hc, ChunkVersion.equals, hv]
            rw [this]
            exact ih _ (fun hnil => absurd (List.append_eq_nil.mp hnil).1 hchunks) hrest
          · have : enqueuedMetadataStep term (some acc) t =
                some { acc with changedChunks := acc.changedChunks ++ front :: rest2 } := by
              simp [enqueuedMetadataStep, hterm, hd, hp, he, hb, hc, ChunkVersion.equals, hv]
            rw [this]
            exact ih _ (fun hnil => absurd (List.append_eq_nil.mp hnil).1 hchunks) hrest
        · have : enqueuedMetadataStep term (some acc) t = some payload := by
            simp [enqueuedMetadataStep, hterm, hd, hp, he]
          rw [this]
          exact ih _ (fun hnil => absurd hnil hne) hrest
    · have : enqueuedMetadataStep term (some acc) t = some acc := by
        simp [enqueuedMetadataStep, hterm]
      rw [this]
      exact ih acc hacc hrest

/-- C11: `getEnqueuedMetadataForTerm(term)` is the left-to-right replay over the tasks
with `termCreated == term` only, from the empty accumulator: a drop resets the
accumulator, a non-drop task of another epoch replaces it with its payload, a non-drop
task of the same epoch appends its changedChunks, without the first chunk exactly when
its version equals the version of the accumulator's last chunk. Whatever the function
returns is that replay, and it returns whenever every non-drop task of the term carries
a payload with a chunk and a set epoch. -/
theorem TaskList.getEnqueuedMetadataForTerm_replay (l : TaskList) (term : Int) :
    (∀ r, l.getEnqueuedMetadataForTerm term = some r → r = l.replayForTerm term) ∧
    (l.PayloadsSet term → l.getEnqueuedMetadataForTerm term = some (l.replayForTerm term)) := by
  have h1 : ∀ r, l.getEnqueuedMetadataForTerm term = some r → r = l.replayForTerm term := by
    intro r hr
    rw [getEnqueuedMetadataForTerm_eq_foldl] at hr
    exact foldl_enqueuedMetadataStep_replay term l._tasks _ r hr
  refine ⟨h1, fun hwf => ?_⟩
  obtain ⟨r, hr⟩ := foldl_enqueuedMetadataStep_defined term l._tasks
    CollectionAndChangedChunks.empty (fun _ => rfl) hwf
  rw [← getEnqueuedMetadataForTerm_eq_foldl] at hr
  rw [hr, h1 r hr]

/-! ### The workers -/

theorem addTask_ne_nil (l l2 : TaskList) (task : Task) (h : l.addTask task = some l2) :
    l2._tasks ≠ [] := by
  obtain ⟨tasks⟩ := l
  cases tasks with
  | nil =>
    simp [TaskList.addTask] at h
    subst h
    simp
  | cons front rest =>
    simp only [TaskList.addTask] at h
    split at h
    · split at h
      · split at h <;> (simp at h; subst h; simp)
      · simp at h
    · split at h
      · simp at h
        subst h
        simp
      · simp at h

theorem enqueue_oneWorker (sys sys2 : System) (nss : NamespaceString) (task : Task)
    (lin sched status : Status) (hinv : sys.OneWorker)
    (h : ensureMajorityPrimaryAndScheduleTaskStep sys nss task lin sched = some (sys2, status)) :
    sys2.OneWorker := by
  unfold ensureMajorityPrimaryAndScheduleTaskStep at h
  cases hens : _ensureMajorityPrimaryAndScheduleTask sys.loader nss task lin sched with
  | none => simp [hens] at h
  | some r =>
    obtain ⟨loader2, st⟩ := r
    simp only [hens, Option.some.injEq, Prod.mk.injEq] at h
    obtain ⟨hsys, hst⟩ := h
    subst hst
    unfold _ensureMajorityPrimaryAndScheduleTask at hens
    cases lin with
    | some code =>
      simp only [Option.some.injEq, Prod.mk.injEq] at hens
      obtain ⟨hl, hs⟩ := hens
      subst hl hs
      rw [← hsys]
      simpa using hinv
    | none =>
      simp only at hens
      cases hadd : ((sys.loader._taskLists nss).getD TaskList.init).addTask task with
      | none => simp [hadd] at hens
      | some taskList2 =>
        have hne := addTask_ne_nil _ _ _ hadd
        simp only [hadd] at hens
        by_cases hwas : ((sys.loader._taskLists nss).getD TaskList.init).empty = true
        · simp only [hwas, if_true] at hens
          cases sched with
          | some code => simp at hens
          | none =>
            simp only [Option.some.injEq, Prod.mk.injEq] at hens
            obtain ⟨hl, hs⟩ := hens
            subst hl hs
            rw [← hsys]
            intro n
            by_cases hn : n = nss
            · subst hn
              have hzero : sys.workers n = 0 := (hinv n).2 (by
                simpa [tasksOf, TaskList.empty, List.isEmpty_iff] using hwas)
              simp [workerScheduled, hwas, hzero, tasksOf, hne]
            · simpa [workerScheduled, hwas, hn, tasksOf] using hinv n
        · simp only [hwas, if_false, Bool.false_eq_true, Option.some.injEq,
            Prod.mk.injEq] at hens
          obtain ⟨hl, hs⟩ := hens
          subst hl hs
          rw [← hsys]
          intro n
          by_cases hn : n = nss
          · subst hn
            simp only [hwas, and_false, if_false, tasksOf, if_true, Option.getD_some]
            exact ⟨(hinv n).1, fun hnil => absurd hnil hne⟩
          · simpa [hwas, hn, tasksOf] using hinv n

theorem runTasksLocked_oneWorker (sys sys2 : System) (nss : NamespaceString)
    (taskFinished : Bool) (sched : Status) (rescheduled : Bool) (hinv : sys.OneWorker)
    (h : runTasksLocked sys nss taskFinished sched = some (sys2, rescheduled)) :
    sys2.OneWorker := by
  unfold runTasksLocked at h
  simp only at h
  split at h
  · simp at h
  · rename_i taskList2 _
    by_cases hempty : taskList2.empty = true
    · simp only [hempty, Bool.not_true, Bool.false_eq_true, if_false, Option.some.injEq,
        Prod.mk.injEq] at h
      rw [← h.1]
      intro n
      by_cases hn : n = nss
      · subst hn
        have := (hinv n).1
        simp only [workerEnded, if_true, tasksOf, eraseTaskList]
        exact ⟨by omega, fun _ => by omega⟩
      · simpa [workerEnded, eraseTaskList, tasksOf, hn] using hinv n
    · simp only [hempty, Bool.not_false, if_true] at h
      cases sched with
      | none =>
        simp only [Option.some.injEq, Prod.mk.injEq] at h
        rw [← h.1]
        intro n
        by_cases hn : n = nss
        · subst hn
          simp only [tasksOf, setTaskList, if_true, Option.getD_some]
          refine ⟨(hinv n).1, fun hnil => ?_⟩
          exfalso
          apply hempty
          simp [TaskList.empty, hnil]
        · simpa [setTaskList, tasksOf, hn] using hinv n
      | some code =>
        simp only [Option.some.injEq, Prod.mk.injEq] at h
        rw [← h.1]
        intro n
        by_cases hn : n = nss
        · subst hn
          have := (hinv n).1
          simp only [workerEnded, if_true, tasksOf, eraseTaskList]
          exact ⟨by omega, fun _ => by omega⟩
        · simpa [workerEnded, eraseTaskList, tasksOf, hn] using hinv n

theorem step_oneWorker (sys sys2 : System) (hinv : sys.OneWorker)
    (hstep : System.Step sys sys2) : sys2.OneWorker := by
  cases hstep
  · rename_i nss task lin sched status h
    exact enqueue_oneWorker sys sys2 nss task lin sched status hinv h
  · rename_i nss store2 updateStatus sched rescheduled hpos h
    have hinv2 : System.OneWorker { sys with store := store2 } := hinv
    unfold runTasksAfterUpdate at h
    cases updateStatus with
    | none => exact runTasksLocked_oneWorker _ _ nss true sched rescheduled hinv2 h
    | some code =>
      simp only at h
      by_cases hshut : isShutdownError code = true
      · simp only [hshut, if_true, Option.some.injEq, Prod.mk.injEq] at h
        rw [← h.1]
        intro n
        by_cases hn : n = nss
        · subst hn
          have := (hinv n).1
          simp only [workerEnded, if_true]
          exact ⟨by omega, fun _ => by omega⟩
        · simpa [workerEnded, hn] using hinv n
      · simp only [hshut, if_false, Bool.false_eq_true] at h
        exact runTasksLocked_oneWorker _ _ nss false sched rescheduled hinv2 h
  · rename_i loader2 h
    unfold onStepDown at h
    split at h
    · simp only [Option.some.injEq] at h
      subst h
      exact hinv
    · simp at h
  · rename_i loader2 h
    unfold onStepUp at h
    split at h
    · simp only [Option.some.injEq] at h
      subst h
      exact hinv
    · simp at h

/-- C16: in every state reached by the steps of the loader (a task enqueued through
`_ensureMajorityPrimaryAndScheduleTask`, a worker completing `_runTasks`, a step-down or
step-up), each namespace has at most one `_runTasks` worker scheduled or running. -/
theorem System.at_most_one_worker (sys : System) (h : System.Reachable sys)
    (nss : NamespaceString) : sys.workers nss ≤ 1 := by
  have hinv : sys.OneWorker := by
    induction h with
    | init s hlists hworkers =>
      intro n
      simp [hworkers n]
    | step s s2 _ hstep ih => exact step_oneWorker s s2 ih hstep
  exact (hinv nss).1

theorem System.at_most_one_worker_witness :
    System.Reachable
        { loader := { samplePrimaryState with
            _taskLists := setTaskList samplePrimaryState._taskLists "db.coll" ⟨[sampleTaskA]⟩ },
          store := PersistedStore.empty,
          workers := workerScheduled (fun _ => 0) "db.coll" } ∧
      workerScheduled (fun _ => 0) "db.coll" "db.coll" ≤ 1 :=
  have hr : System.Reachable
      { loader := { samplePrimaryState with
          _taskLists := setTaskList samplePrimaryState._taskLists "db.coll" ⟨[sampleTaskA]⟩ },
        store := PersistedStore.empty,
        workers := workerScheduled (fun _ => 0) "db.coll" } :=
    System.Reachable.step
      { loader := samplePrimaryState, store := PersistedStore.empty, workers := fun _ => 0 } _
      (System.Reachable.init _ (fun _ => rfl) (fun _ => rfl))
      (System.Step.enqueue _ _ "db.coll" sampleTaskA none none none rfl)
  ⟨hr, System.at_most_one_worker _ hr "db.coll"⟩

/-- C17: when the front task of nss was created in a term other than the loader's
current term, `_updatePersistedMetadata` writes nothing: whatever it returns, the store
is the one it was given and no exception is thrown; and it returns whenever the
invariant of line 860 holds for the front task. -/
theorem _updatePersistedMetadata_stale_term (state : LoaderState) (store : PersistedStore)
    (nss : NamespaceString) (faults : StorageFaults) (front : Task) (rest : List Task)
    (hlist : tasksOf state._taskLists nss = front :: rest)
    (hterm : front.termCreated ≠ state._term) :
    (∀ r, _updatePersistedMetadata state store nss faults = some r → r = (store, none)) ∧
    ((front.dropped = true ∨
        ∃ payload, front.collectionAndChangedChunks = some payload ∧
          payload.changedChunks ≠ []) →
      _updatePersistedMetadata state store nss faults = some (store, none)) := by
  unfold tasksOf at hlist
  constructor
  · intro r hr
    unfold _updatePersistedMetadata at hr
    rw [hlist] at hr
    simp only at hr
    split at hr
    · simp at hr
    · simp only [hterm, ne_eq, not_false_eq_true, if_true, Option.some.injEq] at hr
      exact hr.symm
  · intro hinv
    unfold _updatePersistedMetadata
    rw [hlist]
    simp only
    rcases hinv with hd | ⟨payload, hp, hne⟩
    · simp [hd, hterm]
    · have : payload.changedChunks.isEmpty = false := by
        cases h : payload.changedChunks with
        | nil => exact absurd h hne
        | cons _ _ => rfl
      simp [hp, this, hterm]

theorem _updatePersistedMetadata_stale_term_witness :
    _updatePersistedMetadata (sampleSystemSteppedDown [sampleTaskA] 1).loader
        PersistedStore.empty "db.coll" StorageFaults.noFaults =
      some (PersistedStore.empty, none) :=
  (_updatePersistedMetadata_stale_term (sampleSystemSteppedDown [sampleTaskA] 1).loader
    PersistedStore.empty "db.coll" StorageFaults.noFaults sampleTaskA [] rfl
    (by decide)).2 (Or.inr ⟨_, rfl, by simp [samplePayload]⟩)

theorem runTasksLocked_unfinished (sys : System) (nss : NamespaceString) (front : Task)
    (rest : List Task) (sched : Status)
    (hlist : tasksOf sys.loader._taskLists nss = front :: rest) :
    ∃ sys2 rescheduled, runTasksLocked sys nss false sched = some (sys2, rescheduled) ∧
      rescheduled = decide (sched = none) ∧
      sys2.loader._role = sys.loader._role ∧ sys2.loader._term = sys.loader._term ∧
      sys2.store = sys.store ∧
      (sched = none → tasksOf sys2.loader._taskLists nss = front :: rest ∧
        sys2.workers = sys.workers) ∧
      (sched ≠ none → tasksOf sys2.loader._taskLists nss = []) := by
  unfold tasksOf at hlist
  have hempty : ((sys.loader._taskLists nss).getD TaskList.init).empty = false := by
    simp [TaskList.empty, hlist]
  cases sched with
  | none =>
    refine ⟨{ sys with loader := { sys.loader with _taskLists := setTaskList sys.loader._taskLists nss ((sys.loader._taskLists nss).getD TaskList.init) } },
      true, ?_, rfl, ?_⟩
    · simp only [runTasksLocked, Bool.false_eq_true, if_false, hempty, Bool.not_false, if_true]
    · simp [tasksOf, setTaskList, hlist]
  | some code =>
    refine ⟨{ sys with loader := { sys.loader with _taskLists := eraseTaskList sys.loader._taskLists nss }, workers := workerEnded sys.workers nss },
      false, ?_, by simp, ?_⟩
    · simp only [runTasksLocked, Bool.false_eq_true, if_false, hempty, Bool.not_false, if_true]
    · simp [tasksOf, eraseTaskList, TaskList.init]

theorem runTasksLocked_finished (sys : System) (nss : NamespaceString) (front : Task)
    (rest : List Task) (sched : Status)
    (hlist : tasksOf sys.loader._taskLists nss = front :: rest) :
    ∃ sys2 rescheduled, runTasksLocked sys nss true sched = some (sys2, rescheduled) ∧
      sys2.loader._role = sys.loader._role ∧ sys2.loader._term = sys.loader._term ∧
      sys2.store = sys.store ∧
      (sched = none → tasksOf sys2.loader._taskLists nss = rest) ∧
      (sched ≠ none → tasksOf sys2.loader._taskLists nss = []) := by
  unfold tasksOf at hlist
  have hpop : ((sys.loader._taskLists nss).getD TaskList.init).pop_front = some ⟨rest⟩ := by
    simp [TaskList.pop_front, hlist]
  cases rest with
  | nil =>
    refine ⟨{ sys with loader := { sys.loader with _taskLists := eraseTaskList sys.loader._taskLists nss }, workers := workerEnded sys.workers nss },
      false, ?_, ?_⟩
    · simp only [runTasksLocked, if_true, hpop, TaskList.empty, List.isEmpty_nil, Bool.not_true,
        Bool.false_eq_true, if_false]
    · simp [tasksOf, eraseTaskList, TaskList.init]
  | cons second rest2 =>
    cases sched with
    | none =>
      refine ⟨{ sys with loader := { sys.loader with _taskLists := setTaskList sys.loader._taskLists nss ⟨second :: rest2⟩ } },
        true, ?_, ?_⟩
      · simp only [runTasksLocked, if_true, hpop, TaskList.empty, List.isEmpty_cons,
          Bool.not_false]
      · simp [tasksOf, setTaskList]
    | some code =>
      refine ⟨{ sys with loader := { sys.loader with _taskLists := eraseTaskList sys.loader._taskLists nss }, workers := workerEnded sys.workers nss },
        false, ?_, ?_⟩
      · simp only [runTasksLocked, if_true, hpop, TaskList.empty, List.isEmpty_cons,
          Bool.not_false]
      · simp [tasksOf, eraseTaskList, TaskList.init]

/-- C18 (as amended): in `_runTasks`, when the thread pool accepts the next worker, a
front task whose application fails with a storage error leaves the task list of nss as
it was, the failed task at the front, and a front task whose application succeeds is
removed while the remaining tasks keep their order. When the thread pool refuses the
next worker, `_runTasks` erases the task list of nss, unless the failure is a shutdown
error, which leaves the list as it was. -/
theorem _runTasks_task_list (sys : System) (nss : NamespaceString) (faults : StorageFaults)
    (front : Task) (rest : List Task) (store2 : PersistedStore) (updateStatus : Status)
    (hlist : tasksOf sys.loader._taskLists nss = front :: rest)
    (hupdate : _updatePersistedMetadata sys.loader sys.store nss faults =
      some (store2, updateStatus)) :
    ∀ scheduleStatus : Status,
      ∃ sys2 rescheduled, _runTasks sys nss faults scheduleStatus = some (sys2, rescheduled) ∧
        (scheduleStatus = none →
          (updateStatus ≠ none → tasksOf sys2.loader._taskLists nss = front :: rest) ∧
          (updateStatus = none → tasksOf sys2.loader._taskLists nss = rest)) ∧
        (scheduleStatus ≠ none →
          (∀ code, updateStatus = some code →
            tasksOf sys2.loader._taskLists nss =
              if isShutdownError code = true then front :: rest else []) ∧
          (updateStatus = none → tasksOf sys2.loader._taskLists nss = [])) := by
  intro sched
  unfold _runTasks
  rw [hupdate]
  simp only
  have hlist2 : tasksOf (({ sys with store := store2 } : System).loader._taskLists) nss =
      front :: rest := hlist
  cases updateStatus with
  | none =>
    obtain ⟨sys2, r, hrun, _, _, _, h1, h2⟩ :=
      runTasksLocked_finished { sys with store := store2 } nss front rest sched hlist2
    refine ⟨sys2, r, by simpa [runTasksAfterUpdate] using hrun, ?_, ?_⟩
    · intro hs
      exact ⟨fun h => absurd rfl h, fun _ => h1 hs⟩
    · intro hs
      exact ⟨fun code h => by simp at h, fun _ => h2 hs⟩
  | some code =>
    by_cases hshut : isShutdownError code = true
    · refine ⟨{ sys with store := store2, workers := workerEnded sys.workers nss }, false,
        by simp [runTasksAfterUpdate, hshut], ?_, ?_⟩
      · intro _
        exact ⟨fun _ => hlist, fun h => by simp at h⟩
      · intro _
        refine ⟨fun c hc => ?_, fun h => by simp at h⟩
        simp only [Option.some.injEq] at hc
        subst hc
        simpa [hshut] using hlist
    · obtain ⟨sys2, r, hrun, _, _, _, _, h1, h2⟩ :=
        runTasksLocked_unfinished { sys with store := store2 } nss front rest sched hlist2
      refine ⟨sys2, r, by simpa [runTasksAfterUpdate, hshut] using hrun, ?_, ?_⟩
      · intro hs
        exact ⟨fun _ => (h1 hs).1, fun h => by simp at h⟩
      · intro hs
        refine ⟨fun c hc => ?_, fun h => by simp at h⟩
        simp only [Option.some.injEq] at hc
        subst hc
        simpa [hshut] using h2 hs

theorem _runTasks_task_list_witness :
    ∃ sys2 rescheduled,
      _runTasks (sampleSystem [sampleTaskA, sampleTaskB] 1) "db.coll"
        (sampleFaults ErrorCodes.PrimarySteppedDown) none = some (sys2, rescheduled) ∧
      tasksOf sys2.loader._taskLists "db.coll" = [sampleTaskA, sampleTaskB] :=
  have h := _runTasks_task_list (sampleSystem [sampleTaskA, sampleTaskB] 1) "db.coll"
    (sampleFaults ErrorCodes.PrimarySteppedDown) sampleTaskA [sampleTaskB]
    PersistedStore.empty (some ErrorCodes.PrimarySteppedDown) rfl rfl none
  h.imp fun _ h2 => h2.imp fun _ h3 => ⟨h3.1, (h3.2.1 rfl).1 (by simp)⟩

/-- C18 (counterexample): the list of `db.coll` holds two tasks, the first write of the
front task fails with PrimarySteppedDown and the thread pool refuses the next worker:
`_runTasks` erases the list, so neither task is left. -/
theorem _runTasks_task_list_counterexample :
    (_runTasks (sampleSystem [sampleTaskA, sampleTaskB] 1) "db.coll"
        (sampleFaults ErrorCodes.PrimarySteppedDown) (some ErrorCodes.ShutdownInProgress)).map
      (fun r => ((tasksOf r.1.loader._taskLists "db.coll").map (fun t => t.taskNum), r.2)) =
      some ([], false) ∧
    (tasksOf (sampleSystem [sampleTaskA, sampleTaskB] 1).loader._taskLists "db.coll").map
      (fun t => t.taskNum) = [0, 1] ∧
    _updatePersistedMetadata (sampleSystem [sampleTaskA, sampleTaskB] 1).loader
        (sampleSystem [sampleTaskA, sampleTaskB] 1).store "db.coll"
        (sampleFaults ErrorCodes.PrimarySteppedDown) =
      some (PersistedStore.empty, some ErrorCodes.PrimarySteppedDown) :=
  ⟨rfl, rfl, rfl⟩

/-- C19 (as amended): when the storage write of a worker for the front task of nss fails
with PrimarySteppedDown, the worker does not pop the task, and `_runTasks` schedules a
worker for nss again at once when the thread pool accepts it: role and term are what
they were, no `onStepUp` is waited for. -/
theorem runTasksAfterUpdate_stepped_down (sys : System) (nss : NamespaceString)
    (front : Task) (rest : List Task)
    (hlist : tasksOf sys.loader._taskLists nss = front :: rest) :
    ∃ sys2, runTasksAfterUpdate sys nss (some ErrorCodes.PrimarySteppedDown) none =
        some (sys2, true) ∧
      tasksOf sys2.loader._taskLists nss = front :: rest ∧
      sys2.loader._role = sys.loader._role ∧ sys2.loader._term = sys.loader._term ∧
      sys2.workers = sys.workers := by
  obtain ⟨sys2, r, hrun, hr, hrole, hterm, _, h1, _⟩ :=
    runTasksLocked_unfinished sys nss front rest none hlist
  simp only [decide_True] at hr
  subst hr
  refine ⟨sys2, ?_, (h1 rfl).1, hrole, hterm, (h1 rfl).2⟩
  simpa [runTasksAfterUpdate, isShutdownError] using hrun

theorem runTasksAfterUpdate_stepped_down_witness :
    ∃ sys2, runTasksAfterUpdate (sampleSystemSteppedDown [sampleTaskA] 1) "db.coll"
        (some ErrorCodes.PrimarySteppedDown) none = some (sys2, true) ∧
      tasksOf sys2.loader._taskLists "db.coll" = [sampleTaskA] ∧
      sys2.loader._role = ReplicaSetRole.Secondary ∧ sys2.loader._term = 2 ∧
      sys2.workers = (sampleSystemSteppedDown [sampleTaskA] 1).workers :=
  runTasksAfterUpdate_stepped_down (sampleSystemSteppedDown [sampleTaskA] 1) "db.coll"
    sampleTaskA [] rfl

/-- C19 (counterexample): the node has stepped down (secondary, term 2), the worker of
`db.coll` sees its write fail with PrimarySteppedDown and the thread pool accepts work:
`_runTasks` schedules a worker for `db.coll` again, the node still being secondary. -/
theorem runTasksAfterUpdate_stepped_down_counterexample :
    onStepDown (sampleSystem [sampleTaskA] 1).loader =
        some (sampleSystemSteppedDown [sampleTaskA] 1).loader ∧
      (runTasksAfterUpdate (sampleSystemSteppedDown [sampleTaskA] 1) "db.coll"
          (some ErrorCodes.PrimarySteppedDown) none).map
        (fun r => (r.2, r.1.loader._role, r.1.loader._term, r.1.workers "db.coll")) =
        some (true, ReplicaSetRole.Secondary, 2, 1) :=
  ⟨rfl, rfl⟩

/-! ### Role and term -/

theorem _ensureMajorityPrimaryAndScheduleTask_role_term (state state2 : LoaderState)
    (nss : NamespaceString) (task : Task) (lin sched status : Status)
    (h : _ensureMajorityPrimaryAndScheduleTask state nss task lin sched =
      some (state2, status)) :
    state2._role = state._role ∧ state2._term = state._term := by
  unfold _ensureMajorityPrimaryAndScheduleTask at h
  split at h
  · simp only [Option.some.injEq, Prod.mk.injEq] at h
    rw [← h.1]
    exact ⟨rfl, rfl⟩
  · simp only at h
    split at h
    · simp at h
    · split at h
      · split at h
        · simp only [Option.some.injEq, Prod.mk.injEq] at h
          rw [← h.1]
          exact ⟨rfl, rfl⟩
        · simp at h
      · simp only [Option.some.injEq, Prod.mk.injEq] at h
        rw [← h.1]
        exact ⟨rfl, rfl⟩

theorem answerFromLoaderMetadata_state (state state2 : LoaderState) (nss : NamespaceString)
    (since : ChunkVersion) (term : Int) (swPersisted : StatusWith CollectionAndChangedChunks)
    (events : List Event)
    (h : answerFromLoaderMetadata state nss since term swPersisted = some (state2, events)) :
    state2 = state := by
  unfold answerFromLoaderMetadata at h
  split at h
  · simp at h
  · split at h
    · simp at h
    · simp only [Option.some.injEq, Prod.mk.injEq] at h
      exact h.1.symm
  · simp only [Option.some.injEq, Prod.mk.injEq] at h
    exact h.1.symm

theorem remoteRefreshCallbackFn_role_term (state state2 : LoaderState) (nss : NamespaceString)
    (since maxLoaderVersion : ChunkVersion) (term : Int) (lin sched : Status)
    (swPersisted sw : StatusWith CollectionAndChangedChunks) (events : List Event)
    (h : remoteRefreshCallbackFn state nss since maxLoaderVersion term lin sched swPersisted sw =
      some (state2, events)) :
    state2._role = state._role ∧ state2._term = state._term := by
  unfold remoteRefreshCallbackFn at h
  split at h
  · split at h
    · split at h
      · simp at h
      · split at h
        · simp at h
        · rename_i hens
          have hrt := _ensureMajorityPrimaryAndScheduleTask_role_term _ _ _ _ _ _ _ hens
          simp only [Option.some.injEq, Prod.mk.injEq] at h
          rw [← h.1]
          exact hrt
        · rename_i hens
          have hrt := _ensureMajorityPrimaryAndScheduleTask_role_term _ _ _ _ _ _ _ hens
          simp only [Option.some.injEq, Prod.mk.injEq] at h
          rw [← h.1]
          exact hrt
    · simp only [Option.some.injEq, Prod.mk.injEq] at h
      rw [← h.1]
      exact ⟨rfl, rfl⟩
  · split at h
    · simp at h
    · split at h
      · simp only [Option.some.injEq, Prod.mk.injEq] at h
        rw [← h.1]
        exact ⟨rfl, rfl⟩
      · split at h
        · split at h
          · simp at h
          · split at h
            · simp at h
            · rename_i hens
              have hrt := _ensureMajorityPrimaryAndScheduleTask_role_term _ _ _ _ _ _ _ hens
              simp only [Option.some.injEq, Prod.mk.injEq] at h
              rw [← h.1]
              exact hrt
            · rename_i hens
              have hrt := _ensureMajorityPrimaryAndScheduleTask_role_term _ _ _ _ _ _ _ hens
              rw [answerFromLoaderMetadata_state _ _ _ _ _ _ _ h]
              exact hrt
        · rw [answerFromLoaderMetadata_state _ _ _ _ _ _ _ h]
          exact ⟨rfl, rfl⟩

theorem runTasksLocked_role_term (sys sys2 : System) (nss : NamespaceString)
    (taskFinished : Bool) (sched : Status) (rescheduled : Bool)
    (h : runTasksLocked sys nss taskFinished sched = some (sys2, rescheduled)) :
    sys2.loader._role = sys.loader._role ∧ sys2.loader._term = sys.loader._term := by
  unfold runTasksLocked at h
  simp only at h
  split at h
  · simp at h
  · split at h
    · split at h
      · simp only [Option.some.injEq, Prod.mk.injEq] at h
        rw [← h.1]
        exact ⟨rfl, rfl⟩
      · simp only [Option.some.injEq, Prod.mk.injEq] at h
        rw [← h.1]
        exact ⟨rfl, rfl⟩
    · simp only [Option.some.injEq, Prod.mk.injEq] at h
      rw [← h.1]
      exact ⟨rfl, rfl⟩

theorem _runTasks_role_term (sys sys2 : System) (nss : NamespaceString)
    (faults : StorageFaults) (sched : Status) (rescheduled : Bool)
    (h : _runTasks sys nss faults sched = some (sys2, rescheduled)) :
    sys2.loader._role = sys.loader._role ∧ sys2.loader._term = sys.loader._term := by
  unfold _runTasks at h
  split at h
  · simp at h
  · rename_i store2 updateStatus _
    unfold runTasksAfterUpdate at h
    split at h
    · exact runTasksLocked_role_term { sys with store := store2 } sys2 nss true sched _ h
    · split at h
      · simp only [Option.some.injEq, Prod.mk.injEq] at h
        rw [← h.1]
        exact ⟨rfl, rfl⟩
      · exact runTasksLocked_role_term { sys with store := store2 } sys2 nss false sched _ h

/-- C20: `initializeReplicaSetRole(isPrimary)` requires role None and sets the role to
Primary when `isPrimary` and to Secondary otherwise, the term unchanged; `onStepDown` and
`onStepUp` each require a role other than None, add one to the term and set the role to
Secondary and Primary; no operation of the loader sets the role back to None or lowers
the term. -/
theorem role_and_term_transitions :
    (∀ (state : LoaderState) (isPrimary : Bool),
      (state._role = ReplicaSetRole.None →
        initializeReplicaSetRole state isPrimary =
          some { state with
            _role := if isPrimary = true then ReplicaSetRole.Primary
                     else ReplicaSetRole.Secondary }) ∧
      (state._role ≠ ReplicaSetRole.None → initializeReplicaSetRole state isPrimary = none)) ∧
    (∀ state : LoaderState,
      (state._role ≠ ReplicaSetRole.None →
        onStepDown state =
          some { state with _term := state._term + 1, _role := ReplicaSetRole.Secondary } ∧
        onStepUp state =
          some { state with _term := state._term + 1, _role := ReplicaSetRole.Primary }) ∧
      (state._role = ReplicaSetRole.None → onStepDown state = none ∧ onStepUp state = none)) ∧
    (∀ state state2 : LoaderState, LoaderState.Operation state state2 →
      state._term ≤ state2._term ∧
      (state2._role = ReplicaSetRole.None → state._role = ReplicaSetRole.None)) := by
  refine ⟨fun state isPrimary => ⟨fun h => ?_, fun h => ?_⟩,
    fun state => ⟨fun h => ?_, fun h => ?_⟩, fun state state2 hop => ?_⟩
  · cases isPrimary <;> simp [initializeReplicaSetRole, h]
  · simp [initializeReplicaSetRole, h]
  · simp [onStepDown, onStepUp, h]
  · simp [onStepDown, onStepUp, h]
  · cases hop
    · rename_i isPrimary h
      unfold initializeReplicaSetRole at h
      split at h
      · rename_i hnone
        cases isPrimary <;>
          (simp only [Bool.false_eq_true, if_false, if_true, Option.some.injEq] at h
           rw [← h]
           exact ⟨le_refl _, fun _ => hnone⟩)
      · simp at h
    · rename_i h
      unfold onStepDown at h
      split at h
      · simp only [Option.some.injEq] at h
        rw [← h]
        exact ⟨by simp, fun hc => by simp at hc⟩
      · simp at h
    · rename_i h
      unfold onStepUp at h
      split at h
      · simp only [Option.some.injEq] at h
        rw [← h]
        exact ⟨by simp, fun hc => by simp at hc⟩
      · simp at h
    · exact ⟨by simp [shutDown], fun hc => hc⟩
    · rename_i nss since maxLoaderVersion term lin sched swPersisted sw events h
      obtain ⟨hr, ht⟩ := remoteRefreshCallbackFn_role_term _ _ _ _ _ _ _ _ _ _ _ h
      exact ⟨le_of_eq ht.symm, fun hc => by rw [← hr]; exact hc⟩
    · rename_i sys sys2 nss faults sched rescheduled h
      obtain ⟨hr, ht⟩ := _runTasks_role_term _ _ _ _ _ _ h
      exact ⟨le_of_eq ht.symm, fun hc => by rw [← hr]; exact hc⟩

/-! ### The primary path -/

theorem addTask_not_dropped (l l2 : TaskList) (task : Task) (hd : task.dropped = false)
    (h : l.addTask task = some l2) : l2._tasks = l._tasks ++ [task] := by
  obtain ⟨tasks⟩ := l
  cases tasks with
  | nil =>
    simp [TaskList.addTask] at h
    subst h
    simp
  | cons front rest =>
    simp only [TaskList.addTask, hd, Bool.false_eq_true, if_false] at h
    split at h
    · simp at h
      subst h
      rfl
    · simp at h

theorem ensureMajority_enqueued (state : LoaderState) (nss : NamespaceString) (task : Task)
    (sched : Status) (taskList2 : TaskList)
    (hadd : ((state._taskLists nss).getD TaskList.init).addTask task = some taskList2)
    (hsched : tasksOf state._taskLists nss = [] → sched = none) :
    _ensureMajorityPrimaryAndScheduleTask state nss task none sched =
      some ({ state with _taskLists := setTaskList state._taskLists nss taskList2 }, none) := by
  unfold _ensureMajorityPrimaryAndScheduleTask
  simp only [hadd]
  by_cases hwas : ((state._taskLists nss).getD TaskList.init).empty = true
  · have : sched = none := hsched (by
      simpa [tasksOf, TaskList.empty, List.isEmpty_iff] using hwas)
    subst this
    simp only [hwas, if_true]
    rfl
  · simp only [hwas, Bool.false_eq_true, if_false]
    rfl

/-- C12 (as amended): in the primary path, for an OK payload whose last chunk has the
epoch of the payload, the non-drop task (minQueryVersion = maxLoaderVersion,
maxQueryVersion = version of the last chunk, termCreated = termScheduled) is appended to
the list of nss when the epoch of the payload differs from the epoch of maxLoaderVersion
or the last chunk's version is greater than maxLoaderVersion, and the majority barrier
succeeds (the invariant of `addTask` holding and the thread pool accepting the worker of
an empty list); when neither condition on the payload holds, or the barrier fails, the
task lists are left unchanged. -/
theorem remoteRefreshCallbackFn_enqueue (state : LoaderState) (nss : NamespaceString)
    (since maxLoaderVersion : ChunkVersion) (term : Int) (lin sched : Status)
    (swPersisted : StatusWith CollectionAndChangedChunks)
    (payload : CollectionAndChangedChunks) (back : ChunkType)
    (hback : payload.changedChunks.getLast? = some back)
    (hepoch : back.getVersion.epoch = payload.epoch) :
    ((payload.epoch ≠ maxLoaderVersion.epoch ∨ back.getVersion.gt maxLoaderVersion = true) →
      lin = none →
      ∀ taskList2,
        ((state._taskLists nss).getD TaskList.init).addTask
          (refreshTask state.taskIdGenerator payload maxLoaderVersion back term) =
          some taskList2 →
        (tasksOf state._taskLists nss = [] → sched = none) →
        taskList2._tasks = tasksOf state._taskLists nss ++
          [refreshTask state.taskIdGenerator payload maxLoaderVersion back term] ∧
        remoteRefreshCallbackFn state nss since maxLoaderVersion term lin sched swPersisted
          (.ok payload) =
          answerFromLoaderMetadata (withTaskList state nss taskList2) nss since term
            swPersisted) ∧
    ((¬ (payload.epoch ≠ maxLoaderVersion.epoch ∨
          back.getVersion.gt maxLoaderVersion = true) ∨ lin ≠ none) →
      ∀ state2 events,
        remoteRefreshCallbackFn state nss since maxLoaderVersion term lin sched swPersisted
          (.ok payload) = some (state2, events) →
        state2._taskLists = state._taskLists) ∧
    (∀ s s2 events, answerFromLoaderMetadata s nss since term swPersisted = some (s2, events) →
      s2 = s) := by
  refine ⟨fun hcond hlin taskList2 hadd hsched => ?_, fun hno state2 events h => ?_,
    fun s s2 events h => answerFromLoaderMetadata_state s s2 nss since term swPersisted events h⟩
  · subst hlin
    refine ⟨addTask_not_dropped _ _ _ rfl hadd, ?_⟩
    have hc : (decide (payload.epoch ≠ maxLoaderVersion.epoch) ||
        back.getVersion.gt maxLoaderVersion) = true := by
      rcases hcond with h | h
      · simp [h]
      · simp [h]
    have hens := ensureMajority_enqueued
      { state with taskIdGenerator := state.taskIdGenerator + 1 } nss
      (refreshTask state.taskIdGenerator payload maxLoaderVersion back term) sched taskList2
      hadd hsched
    unfold remoteRefreshCallbackFn
    simp only [hback, hepoch, ne_eq, not_true_eq_false, if_false, hc, if_true, Task.construct]
    have hens2 : _ensureMajorityPrimaryAndScheduleTask
        { state with taskIdGenerator := state.taskIdGenerator + 1 } nss
        { taskNum := state.taskIdGenerator, collectionAndChangedChunks := some payload,
          minQueryVersion := maxLoaderVersion, maxQueryVersion := back.getVersion,
          dropped := false, termCreated := term } none sched =
        some (withTaskList state nss taskList2, none) := hens
    rw [hens2]
  · unfold remoteRefreshCallbackFn at h
    simp only [hback, hepoch, ne_eq, not_true_eq_false, if_false] at h
    rcases hno with hno | hlin
    · have hc : (decide (payload.epoch ≠ maxLoaderVersion.epoch) ||
          back.getVersion.gt maxLoaderVersion) = false := by
        simp only [not_or, ne_eq, not_not, Bool.not_eq_true] at hno
        simp [hno.1, hno.2]
      simp only [ne_eq] at hc
      simp only [hc, Bool.false_eq_true, if_false] at h
      rw [answerFromLoaderMetadata_state _ _ _ _ _ _ _ h]
    · split at h
      · split at h
        · simp at h
        · split at h
          · simp at h
          · rename_i hens
            cases lin with
            | none => exact absurd rfl hlin
            | some code =>
              simp only [_ensureMajorityPrimaryAndScheduleTask, Option.some.injEq,
                Prod.mk.injEq] at hens
              simp only [Option.some.injEq, Prod.mk.injEq] at h
              rw [← h.1, ← hens.1]
          · rename_i hens
            cases lin with
            | none => exact absurd rfl hlin
            | some code =>
              simp [_ensureMajorityPrimaryAndScheduleTask] at hens
      · rw [answerFromLoaderMetadata_state _ _ _ _ _ _ _ h]

theorem remoteRefreshCallbackFn_enqueue_witness :
    [sampleTaskA] = tasksOf samplePrimaryState._taskLists "db.coll" ++
        [refreshTask 0 (samplePayload [sampleChunk1, sampleChunk2]) ChunkVersion.UNSHARDED
          sampleChunk2 1] ∧
      remoteRefreshCallbackFn samplePrimaryState "db.coll" ChunkVersion.UNSHARDED
        ChunkVersion.UNSHARDED 1 none none (.ok CollectionAndChangedChunks.empty)
        (.ok (samplePayload [sampleChunk1, sampleChunk2])) =
        answerFromLoaderMetadata (withTaskList samplePrimaryState "db.coll" ⟨[sampleTaskA]⟩)
          "db.coll" ChunkVersion.UNSHARDED 1 (.ok CollectionAndChangedChunks.empty) :=
  (remoteRefreshCallbackFn_enqueue samplePrimaryState "db.coll" ChunkVersion.UNSHARDED
    ChunkVersion.UNSHARDED 1 none none (.ok CollectionAndChangedChunks.empty)
    (samplePayload [sampleChunk1, sampleChunk2]) sampleChunk2 rfl rfl).1
    (Or.inl (by decide)) rfl ⟨[sampleTaskA]⟩ rfl (fun _ => rfl)

/-- C12 (counterexample): the payload has epoch 7 and maxLoaderVersion is UNSHARDED, so
the epochs differ, but the majority barrier fails with NotMaster: no task is enqueued,
the task lists are as before and the callback receives NotMaster. -/
theorem remoteRefreshCallbackFn_enqueue_counterexample :
    (samplePayload [sampleChunk1, sampleChunk2]).epoch ≠ ChunkVersion.UNSHARDED.epoch ∧
      remoteRefreshCallbackFn samplePrimaryState "db.coll" ChunkVersion.UNSHARDED
        ChunkVersion.UNSHARDED 1 (some ErrorCodes.NotMaster) none
        (.ok CollectionAndChangedChunks.empty)
        (.ok (samplePayload [sampleChunk1, sampleChunk2])) =
        some ({ samplePrimaryState with taskIdGenerator := 1 },
          [Event.callbackFn (.error ErrorCodes.NotMaster), Event.notifySet]) ∧
      tasksOf ({ samplePrimaryState with taskIdGenerator := 1 } : LoaderState)._taskLists
        "db.coll" = [] :=
  ⟨by decide, rfl, rfl⟩

/-- C13: in the primary path, for an OK payload whose last changed chunk has an epoch
other than the epoch of the payload, the callback receives
ConflictingOperationInProgress, no task is enqueued, and the loader state (its task
lists included), the persisted store and the workers are unchanged. -/
theorem remoteRefreshCallbackFnStep_conflicting_epoch (sys : System) (nss : NamespaceString)
    (since maxLoaderVersion : ChunkVersion) (term : Int) (lin sched : Status)
    (swPersisted : StatusWith CollectionAndChangedChunks)
    (payload : CollectionAndChangedChunks) (back : ChunkType)
    (hback : payload.changedChunks.getLast? = some back)
    (hepoch : back.getVersion.epoch ≠ payload.epoch) :
    remoteRefreshCallbackFnStep sys nss since maxLoaderVersion term lin sched swPersisted
        (.ok payload) =
      some (sys, [Event.callbackFn (.error ErrorCodes.ConflictingOperationInProgress),
        Event.notifySet]) := by
  have h : remoteRefreshCallbackFn sys.loader nss since maxLoaderVersion term lin sched
      swPersisted (.ok payload) =
      some (sys.loader, [Event.callbackFn (.error ErrorCodes.ConflictingOperationInProgress),
        Event.notifySet]) := by
    unfold remoteRefreshCallbackFn
    simp only [hback, ne_eq, hepoch, not_false_eq_true, if_true]
  unfold remoteRefreshCallbackFnStep
  rw [h]
  simp only [Option.map_some', Option.some.injEq, Prod.mk.injEq, and_true]
  have hw : ¬ ((tasksOf sys.loader._taskLists nss).isEmpty = true ∧
      (tasksOf sys.loader._taskLists nss).isEmpty = false) := by
    intro hc
    rw [hc.1] at hc
    exact Bool.noConfusion hc.2
  simp only [hw, if_false]

/-- A chunk of epoch 8 at version `1|4`. -/
theorem remoteRefreshCallbackFnStep_conflicting_epoch_witness :
    remoteRefreshCallbackFnStep (sampleSystem [] 0) "db.coll" ChunkVersion.UNSHARDED
        ChunkVersion.UNSHARDED 1 none none (.ok CollectionAndChangedChunks.empty)
        (.ok (samplePayload [sampleChunk1, { sampleChunk2 with version := ⟨1, 4, 8⟩ }])) =
      some (sampleSystem [] 0,
        [Event.callbackFn (.error ErrorCodes.ConflictingOperationInProgress),
         Event.notifySet]) :=
  remoteRefreshCallbackFnStep_conflicting_epoch (sampleSystem [] 0) "db.coll"
    ChunkVersion.UNSHARDED ChunkVersion.UNSHARDED 1 none none
    (.ok CollectionAndChangedChunks.empty)
    (samplePayload [sampleChunk1, { sampleChunk2 with version := ⟨1, 4, 8⟩ }])
    { sampleChunk2 with version := ⟨1, 4, 8⟩ } rfl (by decide)

/-- C14 (as amended): in the primary path, when the config loader answers
NamespaceNotFound and the majority barrier succeeds, the task with dropped = true,
minQueryVersion = maxLoaderVersion, maxQueryVersion = UNSHARDED and termCreated =
termScheduled is passed to `addTask` for nss; when the invariant of `addTask` holds and
the thread pool accepts the worker of an empty list, the list of nss is the one
`addTask` returns and the callback receives NamespaceNotFound. -/
theorem remoteRefreshCallbackFn_namespace_not_found (state : LoaderState)
    (nss : NamespaceString) (since maxLoaderVersion : ChunkVersion) (term : Int)
    (sched : Status) (swPersisted : StatusWith CollectionAndChangedChunks) :
    Task.construct state.taskIdGenerator (.error ErrorCodes.NamespaceNotFound)
        maxLoaderVersion term = some (dropTask state.taskIdGenerator maxLoaderVersion term) ∧
    (∀ taskList2,
      ((state._taskLists nss).getD TaskList.init).addTask
        (dropTask state.taskIdGenerator maxLoaderVersion term) = some taskList2 →
      (tasksOf state._taskLists nss = [] → sched = none) →
      remoteRefreshCallbackFn state nss since maxLoaderVersion term none sched swPersisted
        (.error ErrorCodes.NamespaceNotFound) =
        some (withTaskList state nss taskList2,
          [Event.callbackFn (.error ErrorCodes.NamespaceNotFound), Event.notifySet])) ∧
    (((state._taskLists nss).getD TaskList.init).addTask
        (dropTask state.taskIdGenerator maxLoaderVersion term) = none →
      remoteRefreshCallbackFn state nss since maxLoaderVersion term none sched swPersisted
        (.error ErrorCodes.NamespaceNotFound) = none) := by
  refine ⟨rfl, fun taskList2 hadd hsched => ?_, fun hadd => ?_⟩
  · have hens := ensureMajority_enqueued
      { state with taskIdGenerator := state.taskIdGenerator + 1 } nss
      (dropTask state.taskIdGenerator maxLoaderVersion term) sched taskList2 hadd hsched
    have hens2 : _ensureMajorityPrimaryAndScheduleTask
        { state with taskIdGenerator := state.taskIdGenerator + 1 } nss
        { taskNum := state.taskIdGenerator, collectionAndChangedChunks := none,
          minQueryVersion := maxLoaderVersion, maxQueryVersion := ChunkVersion.UNSHARDED,
          dropped := true, termCreated := term } none sched =
        some (withTaskList state nss taskList2, none) := hens
    unfold remoteRefreshCallbackFn
    simp only [if_true, Task.construct]
    rw [hens2]
  · have hadd2 : ((state._taskLists nss).getD TaskList.init).addTask
        { taskNum := state.taskIdGenerator, collectionAndChangedChunks := none,
          minQueryVersion := maxLoaderVersion, maxQueryVersion := ChunkVersion.UNSHARDED,
          dropped := true, termCreated := term } = none := hadd
    unfold remoteRefreshCallbackFn
    simp only [if_true, Task.construct, _ensureMajorityPrimaryAndScheduleTask, hadd2]

theorem remoteRefreshCallbackFn_namespace_not_found_witness :
    remoteRefreshCallbackFn samplePrimaryState "db.coll" ChunkVersion.UNSHARDED
        ChunkVersion.UNSHARDED 1 none none (.ok CollectionAndChangedChunks.empty)
        (.error ErrorCodes.NamespaceNotFound) =
      some (withTaskList samplePrimaryState "db.coll" ⟨[dropTask 0 ChunkVersion.UNSHARDED 1]⟩,
        [Event.callbackFn (.error ErrorCodes.NamespaceNotFound), Event.notifySet]) :=
  (remoteRefreshCallbackFn_namespace_not_found samplePrimaryState "db.coll"
    ChunkVersion.UNSHARDED ChunkVersion.UNSHARDED 1 none
    (.ok CollectionAndChangedChunks.empty)).2.1 ⟨[dropTask 0 ChunkVersion.UNSHARDED 1]⟩ rfl
    (fun _ => rfl)

/-- C14 (counterexample): the config loader answers NamespaceNotFound and the majority
barrier succeeds. With no task list for `db.coll` and a thread pool that refuses the
worker, and with a list whose back task ends at `1|1` while maxLoaderVersion is
UNSHARDED, the run of `remoteRefreshCallbackFn` does not finish: the callback receives
nothing. -/
theorem remoteRefreshCallbackFn_namespace_not_found_counterexample :
    remoteRefreshCallbackFn samplePrimaryState "db.coll" ChunkVersion.UNSHARDED
        ChunkVersion.UNSHARDED 1 none (some ErrorCodes.ShutdownInProgress)
        (.ok CollectionAndChangedChunks.empty) (.error ErrorCodes.NamespaceNotFound) = none ∧
      remoteRefreshCallbackFn (sampleSystem [sampleTaskA] 1).loader "db.coll"
        ChunkVersion.UNSHARDED ChunkVersion.UNSHARDED 2 none none
        (.ok CollectionAndChangedChunks.empty) (.error ErrorCodes.NamespaceNotFound) = none :=
  ⟨rfl, rfl⟩

/-! ### waitForCollectionFlush -/

theorem waitForCollectionFlushLoop_ok (states : Nat → LoaderState) (nss : NamespaceString)
    (initialTerm : Int)
    (hsorted : ∀ i, IncreasingTaskNums (tasksOf (states i)._taskLists nss)) :
    ∀ (fuel iteration : Nat) (taskNumToWait : Option Nat) (k : Nat),
      waitForCollectionFlushLoop states nss initialTerm fuel iteration taskNumToWait =
        some (.ok k) →
      ((states k)._role = ReplicaSetRole.Primary ∧ (states k)._term = initialTerm) ∧
      (∀ captured, taskNumToWait = some captured →
        ∀ task ∈ tasksOf (states k)._taskLists nss, captured < task.taskNum) ∧
      (taskNumToWait = none →
        ∀ lastTask, (tasksOf (states iteration)._taskLists nss).getLast? = some lastTask →
          ∀ task ∈ tasksOf (states k)._taskLists nss, lastTask.taskNum < task.taskNum) := by
  intro fuel
  induction fuel with
  | zero =>
    intro iteration w k h
    simp [waitForCollectionFlushLoop] at h
  | succ fuel ih =>
    intro iteration w k h
    unfold waitForCollectionFlushLoop at h
    split at h
    · rename_i hrole
      split at h
      · rename_i hnone
        simp only [Option.some.injEq, Except.ok.injEq] at h
        subst h
        refine ⟨hrole, ?_, ?_⟩
        · intro captured _ task hmem
          simp [tasksOf, hnone, TaskList.init] at hmem
        · intro _ lastTask _ task hmem
          simp [tasksOf, hnone, TaskList.init] at hmem
      · rename_i taskList hlist
        have htasks : tasksOf (states iteration)._taskLists nss = taskList._tasks := by
          simp [tasksOf, hlist]
        split at h
        · split at h
          · simp at h
          · rename_i lastTask hlast
            obtain ⟨hr, hc, _⟩ := ih _ _ _ h
            refine ⟨hr, fun captured hcap => by simp at hcap, ?_⟩
            intro _ lastTask2 hlast2 task hmem
            rw [htasks, hlast] at hlast2
            simp only [Option.some.injEq] at hlast2
            subst hlast2
            exact hc _ rfl task hmem
        · rename_i captured
          split at h
          · simp at h
          · rename_i activeTask rest hcons
            have hs := hsorted iteration
            rw [htasks, hcons] at hs
            unfold IncreasingTaskNums at hs
            rw [List.pairwise_cons] at hs
            split at h
            · rename_i hgt
              split at h
              · obtain ⟨hr, hc, _⟩ := ih _ _ _ h
                refine ⟨hr, ?_, fun hn => by simp at hn⟩
                intro c hcap task hmem
                simp only [Option.some.injEq] at hcap
                subst hcap
                exact lt_trans hgt (hc _ rfl task hmem)
              · split at h
                · rename_i secondTask rest2
                  split at h
                  · obtain ⟨hr, hc, _⟩ := ih _ _ _ h
                    refine ⟨hr, ?_, fun hn => by simp at hn⟩
                    intro c hcap task hmem
                    simp only [Option.some.injEq] at hcap
                    subst hcap
                    have h2 : activeTask.taskNum < secondTask.taskNum :=
                      hs.1 secondTask (by simp)
                    exact lt_trans (lt_trans hgt h2) (hc _ rfl task hmem)
                  · simp only [Option.some.injEq, Except.ok.injEq] at h
                    subst h
                    refine ⟨hrole, ?_, fun hn => by simp at hn⟩
                    intro c hcap task hmem
                    simp only [Option.some.injEq] at hcap
                    subst hcap
                    rw [htasks, hcons] at hmem
                    rcases List.mem_cons.1 hmem with heq | hin
                    · rw [heq]
                      exact hgt
                    · exact lt_trans hgt (hs.1 task hin)
                · simp only [Option.some.injEq, Except.ok.injEq] at h
                  subst h
                  refine ⟨hrole, ?_, fun hn => by simp at hn⟩
                  intro c hcap task hmem
                  simp only [Option.some.injEq] at hcap
                  subst hcap
                  rw [htasks, hcons] at hmem
                  rcases List.mem_cons.1 hmem with heq | hin
                  · rw [heq]
                    exact hgt
                  · exact lt_trans hgt (hs.1 task hin)
            · obtain ⟨hr, hc, _⟩ := ih _ _ _ h
              refine ⟨hr, ?_, fun hn => by simp at hn⟩
              intro c hcap task hmem
              simp only [Option.some.injEq] at hcap
              subst hcap
              exact hc _ rfl task hmem
    · simp at h

/-- C15: when `waitForCollectionFlush(nss)` returns normally, at iteration `k` of its
loop, the role is Primary and the term is the term at entry, and every task of the list
of nss at that moment has a taskNum strictly greater than the taskNum captured on the
first iteration, the taskNum of the last task queued at entry; the lists seen hold their
tasks in increasing taskNum order. -/
theorem waitForCollectionFlush_returns (states : Nat → LoaderState) (nss : NamespaceString)
    (fuel k : Nat)
    (hsorted : ∀ i, IncreasingTaskNums (tasksOf (states i)._taskLists nss))
    (h : waitForCollectionFlush states nss fuel = some (.ok k)) :
    ((states k)._role = ReplicaSetRole.Primary ∧ (states k)._term = (states 0)._term) ∧
      ∀ lastTask, (tasksOf (states 0)._taskLists nss).getLast? = some lastTask →
        ∀ task ∈ tasksOf (states k)._taskLists nss, lastTask.taskNum < task.taskNum := by
  obtain ⟨hr, _, hc⟩ :=
    waitForCollectionFlushLoop_ok states nss (states 0)._term hsorted fuel 0 none k h
  exact ⟨hr, hc rfl⟩

theorem waitForCollectionFlush_returns_witness :
    waitForCollectionFlush sampleFlushStates "db.coll" 3 = some (.ok 2) ∧
      (((sampleFlushStates 2)._role = ReplicaSetRole.Primary ∧
          (sampleFlushStates 2)._term = (sampleFlushStates 0)._term) ∧
        ∀ lastTask,
          (tasksOf (sampleFlushStates 0)._taskLists "db.coll").getLast? = some lastTask →
          ∀ task ∈ tasksOf (sampleFlushStates 2)._taskLists "db.coll",
            lastTask.taskNum < task.taskNum) :=
  ⟨rfl, waitForCollectionFlush_returns sampleFlushStates "db.coll" 3 2
    (fun i => by
      unfold IncreasingTaskNums sampleFlushStates tasksOf sampleTaskLists
      by_cases h0 : i = 0
      · simp [h0, sampleTaskA, sampleTaskB]
      · by_cases h1 : i = 1
        · simp [h1]
        · simp [h0, h1])
    rfl⟩

/-- Two refreshes queued in term 1. -/
theorem TaskList.getEnqueuedMetadataForTerm_replay_witness :
    TaskList.getEnqueuedMetadataForTerm ⟨[sampleTaskA, sampleTaskB]⟩ 1 =
        some (TaskList.replayForTerm ⟨[sampleTaskA, sampleTaskB]⟩ 1) ∧
      (TaskList.replayForTerm ⟨[sampleTaskA, sampleTaskB]⟩ 1).changedChunks =
        [sampleChunk1, sampleChunk2, sampleChunk3, sampleChunk4] :=
  ⟨(TaskList.getEnqueuedMetadataForTerm_replay ⟨[sampleTaskA, sampleTaskB]⟩ 1).2
    (fun task hmem _ _ => by
      simp only [List.mem_cons, List.mem_singleton, List.not_mem_nil, or_false] at hmem
      rcases hmem with h | h
      · subst h
        exact ⟨_, rfl, by simp [samplePayload], by simp [samplePayload]⟩
      · subst h
        exact ⟨_, rfl, by simp [samplePayload], by simp [samplePayload]⟩), rfl⟩

/-! ### The operation context group -/

/-- C21 (as amended): `onStepDown` interrupts every outstanding operation context of the
loader's group: each context that was not interrupted gets PrimarySteppedDown, so none is
left uninterrupted, and the term is incremented and the role set to Secondary. The locked
block of the destructor does the same with InterruptedAtShutdown and increments the term.
`onStepUp` interrupts none: it only increments the term and sets the role to Primary, the
group is left as it was. `onStepDown` and `onStepUp` return whenever the role is not
None. -/
theorem onStepDown_interrupts_onStepUp_does_not (loader : ShardServerCatalogCacheLoader)
    (hrole : loader.state._role ≠ ReplicaSetRole.None) :
    (loader.onStepDown =
        some ⟨{ loader.state with
                _term := loader.state._term + 1, _role := ReplicaSetRole.Secondary },
              loader._contexts.map (fun killStatus =>
                some (killStatus.getD ErrorCodes.PrimarySteppedDown))⟩ ∧
      ∀ killStatus ∈ loader._contexts.map (fun killStatus =>
          some (killStatus.getD ErrorCodes.PrimarySteppedDown)), killStatus ≠ none) ∧
    (loader.shutDown =
        ⟨{ loader.state with _term := loader.state._term + 1 },
         loader._contexts.map (fun killStatus =>
           some (killStatus.getD ErrorCodes.InterruptedAtShutdown))⟩ ∧
      ∀ killStatus ∈ loader.shutDown._contexts, killStatus ≠ none) ∧
    loader.onStepUp =
      some ⟨{ loader.state with
              _term := loader.state._term + 1, _role := ReplicaSetRole.Primary },
            loader._contexts⟩ := by
  refine ⟨⟨?_, ?_⟩, ⟨rfl, ?_⟩, ?_⟩
  · simp [ShardServerCatalogCacheLoader.onStepDown, Mongo.onStepDown, hrole,
      OperationContextGroup.interrupt]
  · intro killStatus hmem
    simp only [List.mem_map] at hmem
    obtain ⟨_, _, h⟩ := hmem
    rw [← h]
    simp
  · intro killStatus hmem
    simp only [ShardServerCatalogCacheLoader.shutDown, OperationContextGroup.interrupt,
      List.mem_map] at hmem
    obtain ⟨_, _, h⟩ := hmem
    rw [← h]
    simp
  · simp [ShardServerCatalogCacheLoader.onStepUp, Mongo.onStepUp, hrole]

/-- A primary in term 1 with a context that is not interrupted and one interrupted
before. -/
theorem onStepDown_interrupts_onStepUp_does_not_witness :
    (sampleLoader.onStepDown =
        some ⟨{ sampleLoader.state with
                _term := sampleLoader.state._term + 1, _role := ReplicaSetRole.Secondary },
              sampleLoader._contexts.map (fun killStatus =>
                some (killStatus.getD ErrorCodes.PrimarySteppedDown))⟩ ∧
      ∀ killStatus ∈ sampleLoader._contexts.map (fun killStatus =>
          some (killStatus.getD ErrorCodes.PrimarySteppedDown)), killStatus ≠ none) ∧
    (sampleLoader.shutDown =
        ⟨{ sampleLoader.state with _term := sampleLoader.state._term + 1 },
         sampleLoader._contexts.map (fun killStatus =>
           some (killStatus.getD ErrorCodes.InterruptedAtShutdown))⟩ ∧
      ∀ killStatus ∈ sampleLoader.shutDown._contexts, killStatus ≠ none) ∧
    sampleLoader.onStepUp =
      some ⟨{ sampleLoader.state with
              _term := sampleLoader.state._term + 1, _role := ReplicaSetRole.Primary },
            sampleLoader._contexts⟩ :=
  onStepDown_interrupts_onStepUp_does_not sampleLoader (by decide)

/-- C21 (counterexample): a primary with an outstanding operation context that is not
interrupted: after `onStepUp` the context is still not interrupted, while `onStepDown`
interrupts it with PrimarySteppedDown. -/
theorem onStepDown_interrupts_onStepUp_does_not_counterexample :
    (sampleLoader.onStepUp.map (fun loader2 => loader2._contexts)) =
        some [none, some ErrorCodes.Interrupted] ∧
      (sampleLoader.onStepDown.map (fun loader2 => loader2._contexts)) =
        some [some ErrorCodes.PrimarySteppedDown, some ErrorCodes.Interrupted] :=
  ⟨rfl, rfl⟩

/-! ### Reads of the persisted mirror -/

theorem filter_not_lt_zero (chunks : List ChunkType) (epoch : OID) :
    chunks.filter (fun chunk => !chunk.getVersion.lt ⟨0, 0, epoch⟩) = chunks := by
  rw [List.filter_eq_self]
  intro c _
  simp [ChunkVersion.lt]

/-- C22: `getPersistedMetadataSinceVersion(nss, version)` fails with NamespaceNotFound
when the store has no collections entry for nss; with an entry, and the storage reads
succeeding, it returns the stored uuid, epoch, key pattern, collation and unique flag
with, sorted ascending by version, the persisted chunks of version >= `version` when the
stored epoch equals `version.epoch`, and all persisted chunks when the epochs differ. -/
theorem getPersistedMetadataSinceVersion_result (reads : ReadFaults) (store : PersistedStore)
    (nss : NamespaceString) (version : ChunkVersion) (okToReadWhileRefreshing : Bool) :
    (store.collections nss = none → reads.readShardCollectionsEntry = none →
      getPersistedMetadataSinceVersion reads store nss version okToReadWhileRefreshing =
        .error ErrorCodes.NamespaceNotFound) ∧
    (∀ entry, store.collections nss = some entry →
      reads.readShardCollectionsEntry = none → reads.readShardChunks = none →
      ∃ changedChunks,
        getPersistedMetadataSinceVersion reads store nss version okToReadWhileRefreshing =
          .ok { uuid := entry._uuid, epoch := entry._epoch,
                shardKeyPattern := entry._keyPattern,
                defaultCollation := entry._defaultCollation,
                shardKeyIsUnique := entry._unique, changedChunks := changedChunks } ∧
        SortedByVersion changedChunks ∧
        (entry._epoch = version.epoch →
          changedChunks.Perm
            ((store.chunks nss).filter (fun chunk => !chunk.getVersion.lt version))) ∧
        (entry._epoch ≠ version.epoch → changedChunks.Perm (store.chunks nss))) := by
  constructor
  · intro hnone hread
    simp [getPersistedMetadataSinceVersion, readShardCollectionsEntry, hnone, hread]
  · intro entry hentry hread hchunks
    refine ⟨((store.chunks nss).filter
        (createShardChunkDiffQuery
          (if entry._epoch = version.epoch then version else ⟨0, 0, entry._epoch⟩)).query
        ).insertionSort versionAscending, ?_, ?_, ?_, ?_⟩
    · simp [getPersistedMetadataSinceVersion, readShardCollectionsEntry, hentry, hread,
        readShardChunks, hchunks, createShardChunkDiffQuery]
    · exact List.sorted_insertionSort versionAscending _
    · intro heq
      simp only [heq, if_true, createShardChunkDiffQuery]
      exact List.perm_insertionSort _ _
    · intro hne
      simp only [hne, if_false, createShardChunkDiffQuery]
      have h := List.perm_insertionSort versionAscending
        ((store.chunks nss).filter (fun chunk => !chunk.getVersion.lt ⟨0, 0, entry._epoch⟩))
      rw [filter_not_lt_zero] at h
      rw [filter_not_lt_zero]
      exact h

/-- The store holds the chunks at `1|3`, `1|0`, `1|2` of epoch 7: a read since `1|2` of
epoch 7 returns the chunks at `1|2` and `1|3`, a read since `1|2` of epoch 9 all three. -/
theorem getPersistedMetadataSinceVersion_result_witness :
    (∃ changedChunks,
      getPersistedMetadataSinceVersion ReadFaults.noFaults sampleStoreUnordered "db.coll"
          ⟨1, 2, 7⟩ false =
        .ok { uuid := sampleEntry._uuid, epoch := sampleEntry._epoch,
              shardKeyPattern := sampleEntry._keyPattern,
              defaultCollation := sampleEntry._defaultCollation,
              shardKeyIsUnique := sampleEntry._unique, changedChunks := changedChunks } ∧
      SortedByVersion changedChunks ∧
      (sampleEntry._epoch = (⟨1, 2, 7⟩ : ChunkVersion).epoch →
        changedChunks.Perm
          ((sampleStoreUnordered.chunks "db.coll").filter
            (fun chunk => !chunk.getVersion.lt ⟨1, 2, 7⟩))) ∧
      (sampleEntry._epoch ≠ (⟨1, 2, 7⟩ : ChunkVersion).epoch →
        changedChunks.Perm (sampleStoreUnordered.chunks "db.coll"))) ∧
    (getPersistedMetadataSinceVersion ReadFaults.noFaults sampleStoreUnordered
        "db.coll" ⟨1, 2, 7⟩ false).toOption.map (fun collAndChunks =>
          collAndChunks.changedChunks) = some [sampleChunk3, sampleChunk4] ∧
    (getPersistedMetadataSinceVersion ReadFaults.noFaults sampleStoreUnordered
        "db.coll" ⟨1, 2, 9⟩ false).toOption.map (fun collAndChunks =>
          collAndChunks.changedChunks) = some [sampleChunk1, sampleChunk3, sampleChunk4] :=
  ⟨(getPersistedMetadataSinceVersion_result ReadFaults.noFaults sampleStoreUnordered
      "db.coll" ⟨1, 2, 7⟩ false).2 sampleEntry rfl rfl rfl, rfl, rfl⟩

/-- C23: `getIncompletePersistedMetadataSinceVersion` returns an OK empty
CollectionAndChangedChunks when the collections entry is absent, when no chunk is read,
and when the epoch of the entry read after the chunks differs from the epoch read before
them; it returns the metadata read when the epoch is unchanged; every failure of a read
with a code other than NamespaceNotFound is returned as OperationFailed, and no call
returns an error other than OperationFailed, so none returns NamespaceNotFound. -/
theorem getIncompletePersistedMetadataSinceVersion_result (reads : ReadFaults)
    (store afterStore : PersistedStore) (nss : NamespaceString) (version : ChunkVersion) :
    (store.collections nss = none → reads.readShardCollectionsEntry = none →
      getIncompletePersistedMetadataSinceVersion reads store afterStore nss version =
        .ok CollectionAndChangedChunks.empty) ∧
    (∀ collAndChunks,
      getPersistedMetadataSinceVersion reads store nss version false = .ok collAndChunks →
      (collAndChunks.changedChunks = [] →
        getIncompletePersistedMetadataSinceVersion reads store afterStore nss version =
          .ok CollectionAndChangedChunks.empty) ∧
      (collAndChunks.changedChunks ≠ [] →
        (∀ afterEntry,
          readShardCollectionsEntry reads.afterShardCollectionsEntry afterStore nss =
            .ok afterEntry →
          (afterEntry._epoch ≠ collAndChunks.epoch →
            getIncompletePersistedMetadataSinceVersion reads store afterStore nss version =
              .ok CollectionAndChangedChunks.empty) ∧
          (afterEntry._epoch = collAndChunks.epoch →
            getIncompletePersistedMetadataSinceVersion reads store afterStore nss version =
              .ok collAndChunks)) ∧
        (∀ code,
          readShardCollectionsEntry reads.afterShardCollectionsEntry afterStore nss =
            .error code →
          getIncompletePersistedMetadataSinceVersion reads store afterStore nss version =
            if code = ErrorCodes.NamespaceNotFound then .ok CollectionAndChangedChunks.empty
            else .error ErrorCodes.OperationFailed))) ∧
    (∀ code,
      getPersistedMetadataSinceVersion reads store nss version false = .error code →
      getIncompletePersistedMetadataSinceVersion reads store afterStore nss version =
        if code = ErrorCodes.NamespaceNotFound then .ok CollectionAndChangedChunks.empty
        else .error ErrorCodes.OperationFailed) ∧
    (∀ code,
      getIncompletePersistedMetadataSinceVersion reads store afterStore nss version =
        .error code → code = ErrorCodes.OperationFailed) := by
  refine ⟨fun hnone hread => ?_, fun collAndChunks hget => ⟨fun hempty => ?_, fun hne =>
    ⟨fun afterEntry hafter => ⟨fun hdiff => ?_, fun hsame => ?_⟩, fun code hafter => ?_⟩⟩,
    fun code hget => ?_, fun code h => ?_⟩
  · simp [getIncompletePersistedMetadataSinceVersion, getPersistedMetadataSinceVersion,
      readShardCollectionsEntry, hnone, hread, caughtReadFailure]
  · simp [getIncompletePersistedMetadataSinceVersion, hget, hempty]
  · have hne2 : collAndChunks.changedChunks.isEmpty = false := by
      cases h : collAndChunks.changedChunks with
      | nil => exact absurd h hne
      | cons _ _ => rfl
    have hd : ¬ collAndChunks.epoch = afterEntry._epoch := fun h => hdiff h.symm
    simp [getIncompletePersistedMetadataSinceVersion, hget, hne2, hafter, hd]
  · have hne2 : collAndChunks.changedChunks.isEmpty = false := by
      cases h : collAndChunks.changedChunks with
      | nil => exact absurd h hne
      | cons _ _ => rfl
    simp [getIncompletePersistedMetadataSinceVersion, hget, hne2, hafter, hsame]
  · have hne2 : collAndChunks.changedChunks.isEmpty = false := by
      cases h : collAndChunks.changedChunks with
      | nil => exact absurd h hne
      | cons _ _ => rfl
    simp [getIncompletePersistedMetadataSinceVersion, hget, hne2, hafter, caughtReadFailure]
  · simp [getIncompletePersistedMetadataSinceVersion, hget, caughtReadFailure]
  · unfold getIncompletePersistedMetadataSinceVersion caughtReadFailure at h
    split at h
    · split at h
      · simp at h
      · simp only [Except.error.injEq] at h
        exact h.symm
    · split at h
      · simp at h
      · split at h
        · split at h
          · simp at h
          · simp only [Except.error.injEq] at h
            exact h.symm
        · split at h
          · simp at h
          · simp at h

/-- The chunks are read at epoch 7 and the entry read afterwards has epoch 8: the result
is the empty object; with the entry unchanged it is the metadata read; with a read of
the entry that fails with HostUnreachable it is OperationFailed. -/
theorem getIncompletePersistedMetadataSinceVersion_result_witness :
    (getIncompletePersistedMetadataSinceVersion ReadFaults.noFaults
        sampleStoreUnordered sampleStoreRecreated "db.coll" ⟨1, 2, 7⟩).toOption.map
      (fun collAndChunks => (collAndChunks.changedChunks, collAndChunks.epoch)) =
      some ([], 0) ∧
    getIncompletePersistedMetadataSinceVersion ReadFaults.noFaults sampleStoreUnordered
        sampleStoreUnordered "db.coll" ⟨1, 2, 7⟩ =
      getPersistedMetadataSinceVersion ReadFaults.noFaults sampleStoreUnordered "db.coll"
        ⟨1, 2, 7⟩ false ∧
    ∀ code,
      getIncompletePersistedMetadataSinceVersion
          { ReadFaults.noFaults with
            readShardCollectionsEntry := some ErrorCodes.HostUnreachable }
          sampleStoreUnordered sampleStoreUnordered "db.coll" ⟨1, 2, 7⟩ = .error code →
        code = ErrorCodes.OperationFailed :=
  ⟨rfl, rfl,
    (getIncompletePersistedMetadataSinceVersion_result
      { ReadFaults.noFaults with readShardCollectionsEntry := some ErrorCodes.HostUnreachable }
      sampleStoreUnordered sampleStoreUnordered "db.coll" ⟨1, 2, 7⟩).2.2.2⟩

/-! ### Tasks of an older term -/

theorem updatePersistedMetadata_of_stale_term (state : LoaderState) (store : PersistedStore)
    (nss : NamespaceString) (faults : StorageFaults) (front : Task) (rest : List Task)
    (hlist : tasksOf state._taskLists nss = front :: rest)
    (hterm : front.termCreated ≠ state._term)
    (hinv : front.dropped = true ∨
      ∃ payload, front.collectionAndChangedChunks = some payload ∧
        payload.changedChunks ≠ []) :
    _updatePersistedMetadata state store nss faults = some (store, none) := by
  unfold tasksOf at hlist
  unfold _updatePersistedMetadata
  rw [hlist]
  simp only
  rcases hinv with hd | ⟨payload, hp, hne⟩
  · simp [hd, hterm]
  · have : payload.changedChunks.isEmpty = false := by
      cases h : payload.changedChunks with
      | nil => exact absurd h hne
      | cons _ _ => rfl
    simp [hp, this, hterm]

/-- C24 (as amended): in `_runTasks`, when the termCreated of the front task of nss
differs from the current term, the task is not applied, the persisted store is left as
it was, and the task is popped: after the iteration the list of nss holds the tasks that
stood behind it, in their order, when the thread pool accepts the next worker, and nss
has no task left when the thread pool refuses it. -/
theorem _runTasks_stale_term (sys : System) (nss : NamespaceString) (faults : StorageFaults)
    (front : Task) (rest : List Task)
    (hlist : tasksOf sys.loader._taskLists nss = front :: rest)
    (hterm : front.termCreated ≠ sys.loader._term)
    (hinv : front.dropped = true ∨
      ∃ payload, front.collectionAndChangedChunks = some payload ∧
        payload.changedChunks ≠ []) :
    ∀ scheduleStatus : Status,
      ∃ sys2 rescheduled, _runTasks sys nss faults scheduleStatus = some (sys2, rescheduled) ∧
        sys2.store = sys.store ∧
        (scheduleStatus = none → tasksOf sys2.loader._taskLists nss = rest) ∧
        (scheduleStatus ≠ none → tasksOf sys2.loader._taskLists nss = []) := by
  intro sched
  have hupdate := updatePersistedMetadata_of_stale_term sys.loader sys.store nss faults front
    rest hlist hterm hinv
  have hlist2 : tasksOf (({ sys with store := sys.store } : System).loader._taskLists) nss =
      front :: rest := hlist
  obtain ⟨sys2, r, hrun, _, _, hstore, h1, h2⟩ :=
    runTasksLocked_finished { sys with store := sys.store } nss front rest sched hlist2
  refine ⟨sys2, r, ?_, hstore, h1, h2⟩
  unfold _runTasks
  rw [hupdate]
  simpa [runTasksAfterUpdate] using hrun

theorem _runTasks_stale_term_witness :
    ∃ sys2 rescheduled,
      _runTasks (sampleSystemSteppedDown [sampleTaskA, sampleTaskB] 1) "db.coll"
        StorageFaults.noFaults none = some (sys2, rescheduled) ∧
      sys2.store = (sampleSystemSteppedDown [sampleTaskA, sampleTaskB] 1).store ∧
      tasksOf sys2.loader._taskLists "db.coll" = [sampleTaskB] :=
  have h := _runTasks_stale_term (sampleSystemSteppedDown [sampleTaskA, sampleTaskB] 1)
    "db.coll" StorageFaults.noFaults sampleTaskA [sampleTaskB] rfl (by decide)
    (Or.inr ⟨_, rfl, by simp [samplePayload]⟩) none
  h.imp fun _ h2 => h2.imp fun _ h3 => ⟨h3.1, h3.2.1, h3.2.2.1 rfl⟩

/-- C24 (counterexample): the node is in term 2 and the list of `db.coll` holds two tasks
created in term 1, numbered 0 and 1: after the iteration of `_runTasks` the list holds
the task numbered 1 only, the front task was popped. -/
theorem _runTasks_stale_term_counterexample :
    (tasksOf (sampleSystemSteppedDown [sampleTaskA, sampleTaskB] 1).loader._taskLists
        "db.coll").map (fun task => (task.taskNum, task.termCreated)) = [(0, 1), (1, 1)] ∧
      (sampleSystemSteppedDown [sampleTaskA, sampleTaskB] 1).loader._term = 2 ∧
      (_runTasks (sampleSystemSteppedDown [sampleTaskA, sampleTaskB] 1) "db.coll"
          StorageFaults.noFaults none).map
        (fun r => ((tasksOf r.1.loader._taskLists "db.coll").map (fun task => task.taskNum),
          r.2)) = some ([1], true) :=
  ⟨rfl, rfl, rfl⟩

/-! ### The writes of persistCollectionAndChangedChunks in order -/

/-- C25: `persistCollectionAndChangedChunks` calls, in this order, the upsert of the
collection entry, `setPersistedRefreshFlags`, `updateShardChunks` and
`unsetPersistedRefreshFlags` with the version of the payload's last chunk; it stops at
the first failing step and returns that step's status. The chunk table of nss differs
from the one before only when the upsert and the setting of refreshing succeeded; a run
that fails after them leaves the entry of nss with refreshing = true;
`unsetPersistedRefreshFlags` is called only after the chunk diff succeeded, and a run
that returns OK leaves refreshing = false and lastRefreshedCollectionVersion equal to
the version of the payload's last chunk. -/
theorem persistCollectionAndChangedChunks_order (faults : PersistFaults)
    (store : PersistedStore) (nss : NamespaceString) (payload : CollectionAndChangedChunks)
    (back : ChunkType) (hback : payload.changedChunks.getLast? = some back) :
    ∃ store2 status calls,
      persistCollectionAndChangedChunksTraced faults store nss payload =
        some (store2, status, calls) ∧
      persistCollectionAndChangedChunks faults store nss payload = some (store2, status) ∧
      (calls, status) = stopAtFirstFailure
        [(StorageWrite.updateShardCollectionsEntry
            (ShardCollectionType.construct nss payload.uuid payload.epoch
              payload.shardKeyPattern payload.defaultCollation payload.shardKeyIsUnique) true,
            faults.updateShardCollectionsEntry),
         (StorageWrite.setPersistedRefreshFlags, faults.setPersistedRefreshFlags),
         (StorageWrite.updateShardChunks payload.changedChunks payload.epoch,
            faults.updateShardChunks.map (fun fault => fault.code)),
         (StorageWrite.unsetPersistedRefreshFlags back.getVersion,
            faults.unsetPersistedRefreshFlags)] ∧
      (store2.chunks nss ≠ store.chunks nss →
        faults.updateShardCollectionsEntry = none ∧ faults.setPersistedRefreshFlags = none) ∧
      (faults.updateShardCollectionsEntry = none → faults.setPersistedRefreshFlags = none →
        status ≠ none →
        ∃ entry, store2.collections nss = some entry ∧ entry._refreshing = some true) ∧
      (∀ version, StorageWrite.unsetPersistedRefreshFlags version ∈ calls →
        faults.updateShardChunks = none ∧ version = back.getVersion) ∧
      (status = none →
        ∃ entry, store2.collections nss = some entry ∧ entry._refreshing = some false ∧
          entry._lastRefreshedCollectionVersion = some back.getVersion) := by
  obtain ⟨fu, fs, fd, fn⟩ := faults
  have hentry : ∀ (chunks : NamespaceString → List ChunkType), ∃ entry,
      ({ setPersistedRefreshFlags (updateShardCollectionsEntry store nss
          (ShardCollectionType.construct nss payload.uuid payload.epoch
            payload.shardKeyPattern payload.defaultCollation payload.shardKeyIsUnique)
          true) nss with chunks := chunks } : PersistedStore).collections nss =
        some entry ∧ entry._refreshing = some true := by
    intro chunks
    cases hc : store.collections nss with
    | none =>
      refine ⟨{ ShardCollectionType.construct nss payload.uuid payload.epoch
          payload.shardKeyPattern payload.defaultCollation payload.shardKeyIsUnique with
          _refreshing := some true }, ?_, rfl⟩
      simp [setPersistedRefreshFlags, updateShardCollectionsEntry, hc]
    | some old =>
      refine ⟨{ (ShardCollectionType.construct nss payload.uuid payload.epoch
          payload.shardKeyPattern payload.defaultCollation
          payload.shardKeyIsUnique).applyUpdate old with _refreshing := some true }, ?_, rfl⟩
      simp [setPersistedRefreshFlags, updateShardCollectionsEntry, hc]
  cases fu with
  | some code =>
    exact ⟨store, some code, [StorageWrite.updateShardCollectionsEntry
        (ShardCollectionType.construct nss payload.uuid payload.epoch
          payload.shardKeyPattern payload.defaultCollation payload.shardKeyIsUnique) true],
      rfl, rfl, rfl, fun h => absurd rfl h, fun h => by simp at h, fun v h => by simp at h,
      fun h => by simp at h⟩
  | none =>
    cases fs with
    | some code =>
      exact ⟨updateShardCollectionsEntry store nss
          (ShardCollectionType.construct nss payload.uuid payload.epoch
            payload.shardKeyPattern payload.defaultCollation payload.shardKeyIsUnique) true,
        some code,
        [StorageWrite.updateShardCollectionsEntry
          (ShardCollectionType.construct nss payload.uuid payload.epoch
            payload.shardKeyPattern payload.defaultCollation payload.shardKeyIsUnique) true,
         StorageWrite.setPersistedRefreshFlags],
        rfl, rfl, rfl, fun h => absurd rfl h, fun _ h => by simp at h,
        fun v h => by simp at h, fun h => by simp at h⟩
    | none =>
      cases fd with
      | some fault =>
        exact ⟨(updateShardChunks (some fault)
            (setPersistedRefreshFlags (updateShardCollectionsEntry store nss
              (ShardCollectionType.construct nss payload.uuid payload.epoch
                payload.shardKeyPattern payload.defaultCollation payload.shardKeyIsUnique)
              true) nss) nss payload.changedChunks payload.epoch).1,
          some fault.code,
          [StorageWrite.updateShardCollectionsEntry
            (ShardCollectionType.construct nss payload.uuid payload.epoch
              payload.shardKeyPattern payload.defaultCollation payload.shardKeyIsUnique) true,
           StorageWrite.setPersistedRefreshFlags,
           StorageWrite.updateShardChunks payload.changedChunks payload.epoch],
          rfl, rfl, rfl, fun _ => ⟨rfl, rfl⟩, fun _ _ _ => hentry _,
          fun v h => by simp at h, fun h => by simp at h⟩
      | none =>
        cases fn with
        | some code =>
          refine ⟨(updateShardChunks none
              (setPersistedRefreshFlags (updateShardCollectionsEntry store nss
                (ShardCollectionType.construct nss payload.uuid payload.epoch
                  payload.shardKeyPattern payload.defaultCollation payload.shardKeyIsUnique)
                true) nss) nss payload.changedChunks payload.epoch).1,
            some code,
            [StorageWrite.updateShardCollectionsEntry
              (ShardCollectionType.construct nss payload.uuid payload.epoch
                payload.shardKeyPattern payload.defaultCollation payload.shardKeyIsUnique)
              true,
             StorageWrite.setPersistedRefreshFlags,
             StorageWrite.updateShardChunks payload.changedChunks payload.epoch,
             StorageWrite.unsetPersistedRefreshFlags back.getVersion],
            ?_, ?_, rfl, fun _ => ⟨rfl, rfl⟩, fun _ _ _ => hentry _, fun v h => ?_,
            fun h => by simp at h⟩
          · unfold persistCollectionAndChangedChunksTraced
            simp only [updateShardChunks, hback]
          · unfold persistCollectionAndChangedChunks
            simp only [updateShardChunks, hback]
          · simp only [List.mem_cons, List.mem_singleton, List.not_mem_nil, or_false,
              StorageWrite.unsetPersistedRefreshFlags.injEq] at h
            rcases h with h | h | h | h
            · cases h
            · cases h
            · cases h
            · exact ⟨rfl, h⟩
        | none =>
          refine ⟨unsetPersistedRefreshFlags (updateShardChunks none
              (setPersistedRefreshFlags (updateShardCollectionsEntry store nss
                (ShardCollectionType.construct nss payload.uuid payload.epoch
                  payload.shardKeyPattern payload.defaultCollation payload.shardKeyIsUnique)
                true) nss) nss payload.changedChunks payload.epoch).1 nss back.getVersion,
            none,
            [StorageWrite.updateShardCollectionsEntry
              (ShardCollectionType.construct nss payload.uuid payload.epoch
                payload.shardKeyPattern payload.defaultCollation payload.shardKeyIsUnique)
              true,
             StorageWrite.setPersistedRefreshFlags,
             StorageWrite.updateShardChunks payload.changedChunks payload.epoch,
             StorageWrite.unsetPersistedRefreshFlags back.getVersion],
            ?_, ?_, rfl, fun _ => ⟨rfl, rfl⟩, fun _ _ h => absurd rfl h, fun v h => ?_,
            fun _ => ?_⟩
          · unfold persistCollectionAndChangedChunksTraced
            simp only [updateShardChunks, hback]
          · unfold persistCollectionAndChangedChunks
            simp only [updateShardChunks, hback]
          · simp only [List.mem_cons, List.mem_singleton, List.not_mem_nil, or_false,
              StorageWrite.unsetPersistedRefreshFlags.injEq] at h
            rcases h with h | h | h | h
            · cases h
            · cases h
            · cases h
            · exact ⟨rfl, h⟩
          · obtain ⟨entry, he, _⟩ := hentry
              (fun n => if n = nss then payload.changedChunks.foldl applyChunk (store.chunks nss)
                else store.chunks n)
            refine ⟨{ entry with
              _refreshing := some false,
              _lastRefreshedCollectionVersion := some back.getVersion }, ?_, rfl, rfl⟩
            simp only [unsetPersistedRefreshFlags, updateShardChunks, if_true]
            simp only at he
            rw [show (setPersistedRefreshFlags (updateShardCollectionsEntry store nss
                (ShardCollectionType.construct nss payload.uuid payload.epoch
                  payload.shardKeyPattern payload.defaultCollation payload.shardKeyIsUnique)
                true) nss).collections nss = some entry from he]
            rfl

/-- A run on the empty store whose chunk diff fails after the first of two chunks. -/
theorem persistCollectionAndChangedChunks_order_witness :
    ∃ store2 status calls,
      persistCollectionAndChangedChunksTraced sampleDiffFaults PersistedStore.empty "db.coll"
          (samplePayload [sampleChunk1, sampleChunk2]) = some (store2, status, calls) ∧
      persistCollectionAndChangedChunks sampleDiffFaults PersistedStore.empty "db.coll"
          (samplePayload [sampleChunk1, sampleChunk2]) = some (store2, status) ∧
      (calls, status) = stopAtFirstFailure
        [(StorageWrite.updateShardCollectionsEntry
            (ShardCollectionType.construct "db.coll"
              (samplePayload [sampleChunk1, sampleChunk2]).uuid
              (samplePayload [sampleChunk1, sampleChunk2]).epoch
              (samplePayload [sampleChunk1, sampleChunk2]).shardKeyPattern
              (samplePayload [sampleChunk1, sampleChunk2]).defaultCollation
              (samplePayload [sampleChunk1, sampleChunk2]).shardKeyIsUnique) true,
            sampleDiffFaults.updateShardCollectionsEntry),
         (StorageWrite.setPersistedRefreshFlags, sampleDiffFaults.setPersistedRefreshFlags),
         (StorageWrite.updateShardChunks
            (samplePayload [sampleChunk1, sampleChunk2]).changedChunks
            (samplePayload [sampleChunk1, sampleChunk2]).epoch,
            sampleDiffFaults.updateShardChunks.map (fun fault => fault.code)),
         (StorageWrite.unsetPersistedRefreshFlags sampleChunk2.getVersion,
            sampleDiffFaults.unsetPersistedRefreshFlags)] ∧
      (store2.chunks "db.coll" ≠ PersistedStore.empty.chunks "db.coll" →
        sampleDiffFaults.updateShardCollectionsEntry = none ∧
          sampleDiffFaults.setPersistedRefreshFlags = none) ∧
      (sampleDiffFaults.updateShardCollectionsEntry = none →
        sampleDiffFaults.setPersistedRefreshFlags = none → status ≠ none →
        ∃ entry, store2.collections "db.coll" = some entry ∧ entry._refreshing = some true) ∧
      (∀ version, StorageWrite.unsetPersistedRefreshFlags version ∈ calls →
        sampleDiffFaults.updateShardChunks = none ∧ version = sampleChunk2.getVersion) ∧
      (status = none →
        ∃ entry, store2.collections "db.coll" = some entry ∧
          entry._refreshing = some false ∧
          entry._lastRefreshedCollectionVersion = some sampleChunk2.getVersion) :=
  persistCollectionAndChangedChunks_order sampleDiffFaults PersistedStore.empty "db.coll"
    (samplePayload [sampleChunk1, sampleChunk2]) sampleChunk2 rfl

/-! ### Empty enqueued metadata -/

theorem enqueuedMetadataStep_last_not_empty (term : Int)
    (acc : Option CollectionAndChangedChunks) (back : Task) (enqueued payload :
      CollectionAndChangedChunks)
    (hterm : back.termCreated = term) (hdropped : back.dropped = false)
    (hpayload : back.collectionAndChangedChunks = some payload)
    (hne : payload.changedChunks ≠ [])
    (h : enqueuedMetadataStep term acc back = some enqueued) :
    enqueued.changedChunks ≠ [] := by
  unfold enqueuedMetadataStep at h
  cases acc with
  | none => simp at h
  | some collAndChunks =>
    simp only [hterm, ne_eq, not_true_eq_false, if_false, hdropped, Bool.false_eq_true,
      hpayload] at h
    split at h
    · simp only [Option.some.injEq] at h
      rw [← h]
      exact hne
    · split at h
      · rename_i last front rest hlast _
        have hacc : collAndChunks.changedChunks ≠ [] := by
          intro hnil
          rw [hnil] at hlast
          simp at hlast
        split at h
        · simp only [Option.some.injEq] at h
          rw [← h]
          simp [hacc]
        · simp only [Option.some.injEq] at h
          rw [← h]
          simp
      · simp at h

/-- The two ways in which `_getEnqueuedMetadata` returns true with no chunk, for a list
whose non-drop last task carries a payload with a chunk, as the constructor of Task
requires: the last task of the list, which was created in that term, is a drop task, or
the metadata enqueued for the term has the epoch of the since-version and each of its
chunks has a version below the since-version, so that the trim of lines 760-767 removed
them all. -/
theorem _getEnqueuedMetadata_empty (taskLists : TaskLists) (nss : NamespaceString)
    (catalogCacheSinceVersion : ChunkVersion) (term : Int) (m : CollectionAndChangedChunks)
    (h : _getEnqueuedMetadata taskLists nss catalogCacheSinceVersion term = some (true, m))
    (hempty : m.changedChunks = [])
    (hpayload : ∀ back, (tasksOf taskLists nss).getLast? = some back → back.dropped = false →
      ∃ payload, back.collectionAndChangedChunks = some payload ∧
        payload.changedChunks ≠ []) :
    ∃ back, (tasksOf taskLists nss).getLast? = some back ∧ back.termCreated = term ∧
      (back.dropped = true ∨
        ∃ enqueued,
          ((taskLists nss).getD TaskList.init).getEnqueuedMetadataForTerm term =
            some enqueued ∧
          enqueued.changedChunks ≠ [] ∧ enqueued.epoch = catalogCacheSinceVersion.epoch ∧
          ∀ chunk ∈ enqueued.changedChunks,
            chunk.getVersion.lt catalogCacheSinceVersion = true) := by
  unfold _getEnqueuedMetadata at h
  cases hl : taskLists nss with
  | none => simp [hl] at h
  | some taskList =>
    have htasks : tasksOf taskLists nss = taskList._tasks := by simp [tasksOf, hl]
    simp only [hl, TaskList.hasTasksFromThisTerm] at h
    cases hlast : taskList._tasks.getLast? with
    | none => simp [hlast] at h
    | some back =>
      simp only [hlast] at h
      by_cases hterm : back.termCreated = term
      · simp only [hterm, decide_True] at h
        cases henq : taskList.getEnqueuedMetadataForTerm term with
        | none => simp [henq] at h
        | some enqueued =>
          simp only [henq] at h
          refine ⟨back, by rw [htasks, hlast], hterm, ?_⟩
          cases hdropped : back.dropped with
          | true => exact Or.inl rfl
          | false =>
            right
            obtain ⟨payload, hp, hne⟩ := hpayload back (by rw [htasks, hlast]) hdropped
            obtain ⟨ys, hys⟩ := List.getLast?_eq_some_iff.1 hlast
            have hfold := henq
            rw [getEnqueuedMetadataForTerm_eq_foldl, hys, List.foldl_append] at hfold
            simp only [List.foldl_cons, List.foldl_nil] at hfold
            have hnonempty := enqueuedMetadataStep_last_not_empty term _ back enqueued payload
              hterm hdropped hp hne hfold
            refine ⟨enqueued, by simpa [hl] using henq, hnonempty, ?_⟩
            split at h
            · simp only [Option.some.injEq, Prod.mk.injEq, true_and] at h
              rw [← h] at hempty
              exact absurd hempty hnonempty
            · rename_i hepoch
              simp only [ne_eq, not_not] at hepoch
              simp only [Option.some.injEq, Prod.mk.injEq, true_and] at h
              rw [← h] at hempty
              simp only at hempty
              exact ⟨hepoch, List.dropWhile_eq_nil_iff.1 hempty⟩
      · simp [hterm] at h

theorem waitUntilNotRefreshing_ok (observe : Nat → Observation) :
    ∀ (fuel time : Nat) (refreshState : RefreshState) (time2 : Nat),
      waitUntilNotRefreshing observe fuel time = some (.ok (refreshState, time2)) →
      ∃ t, time ≤ t ∧ time2 = t + 1 ∧ (observe t).refreshFlags = .ok refreshState ∧
        refreshState.refreshing = false := by
  intro fuel
  induction fuel with
  | zero =>
    intro time s time2 h
    simp [waitUntilNotRefreshing] at h
  | succ fuel ih =>
    intro time s time2 h
    unfold waitUntilNotRefreshing at h
    split at h
    · simp at h
    · rename_i refreshState hflags
      split at h
      · rename_i hnot
        simp only [Option.some.injEq, Except.ok.injEq, Prod.mk.injEq] at h
        refine ⟨time, le_refl _, h.2.symm, ?_, ?_⟩
        · rw [hflags, h.1]
        · rw [← h.1]
          simpa using hnot
      · split at h
        · simp at h
        · obtain ⟨t, hle, h2, h3, h4⟩ := ih _ _ _ h
          exact ⟨t, by omega, h2, h3, h4⟩

/-- C27: every result that `_getCompletePersistedMetadataForSecondarySinceVersion`
returns was read between two equal observations of the refresh state with refreshing =
false: at some moment `t` the refresh flags were read with refreshing = false, the
metadata returned is the one read at the next moment, and the refresh flags read after
it are equal to those read at `t`. So no result comes from a read begun under refreshing
= true, nor from a read after which the refresh state had changed. -/
theorem _getCompletePersistedMetadataForSecondarySinceVersion_complete
    (observe : Nat → Observation) (fuel time : Nat) (m : CollectionAndChangedChunks)
    (h : _getCompletePersistedMetadataForSecondarySinceVersion observe fuel time =
      some (.ok m)) :
    ∃ t refreshState, time ≤ t ∧
      (observe t).refreshFlags = .ok refreshState ∧ refreshState.refreshing = false ∧
      (observe (t + 1)).metadata = .ok m ∧
      (observe (t + 2)).refreshFlags = .ok refreshState := by
  induction fuel generalizing time with
  | zero => simp [_getCompletePersistedMetadataForSecondarySinceVersion] at h
  | succ fuel ih =>
    unfold _getCompletePersistedMetadataForSecondarySinceVersion at h
    split at h
    · simp at h
    · simp at h
    · rename_i beginRefreshState time2 hwait
      obtain ⟨t, hle, h2, hflags, hnot⟩ := waitUntilNotRefreshing_ok observe _ _ _ _ hwait
      subst h2
      split at h
      · simp at h
      · rename_i collAndChangedChunks hmeta
        split at h
        · simp at h
        · rename_i endRefreshState hend
          split at h
          · rename_i heq
            simp only [Option.some.injEq, Except.ok.injEq] at h
            refine ⟨t, beginRefreshState, hle, hflags, hnot, ?_, ?_⟩
            · rw [hmeta, h]
            · rw [show t + 2 = t + 1 + 1 from rfl, hend, heq]
          · obtain ⟨t2, s, hle2, r⟩ := ih _ h
            exact ⟨t2, s, by omega, r⟩

/-- A secondary that first sees refreshing = true, then reads the chunks while a refresh
completes, returns the chunks of its second read, made between two observations of
version `1|3`. -/
theorem _getCompletePersistedMetadataForSecondarySinceVersion_complete_witness :
    _getCompletePersistedMetadataForSecondarySinceVersion sampleObserveRefreshing 3 0 =
        some (.ok (samplePayload [sampleChunk1, sampleChunk2, sampleChunk3, sampleChunk4])) ∧
      ∃ t refreshState, 0 ≤ t ∧
        (sampleObserveRefreshing t).refreshFlags = .ok refreshState ∧
        refreshState.refreshing = false ∧
        (sampleObserveRefreshing (t + 1)).metadata =
          .ok (samplePayload [sampleChunk1, sampleChunk2, sampleChunk3, sampleChunk4]) ∧
        (sampleObserveRefreshing (t + 2)).refreshFlags = .ok refreshState :=
  ⟨rfl, _getCompletePersistedMetadataForSecondarySinceVersion_complete
    sampleObserveRefreshing 3 0
    (samplePayload [sampleChunk1, sampleChunk2, sampleChunk3, sampleChunk4]) rfl⟩

/-! ### The place of a drop task -/

theorem addTask_drop_position (l l2 : TaskList) (task : Task)
    (hadd : l.addTask task = some l2)
    (ih : (l._tasks.filter (fun t => t.dropped)).length ≤ 1 ∧
      ∀ t ∈ l._tasks.drop 2, t.dropped = false) :
    (l2._tasks.filter (fun t => t.dropped)).length ≤ 1 ∧
      ∀ t ∈ l2._tasks.drop 2, t.dropped = false := by
  obtain ⟨tasks⟩ := l
  cases tasks with
  | nil =>
    simp only [TaskList.addTask, Option.some.injEq] at hadd
    subst hadd
    constructor
    · cases hd : task.dropped <;> simp [hd]
    · intro t ht
      simp at ht
  | cons front rest =>
    simp only [TaskList.addTask] at hadd
    split at hadd
    · rename_i hdrop
      split at hadd
      · split at hadd
        · rename_i hfront
          simp only [Option.some.injEq] at hadd
          subst hadd
          have hf : front.dropped = false := by simpa using hfront
          constructor
          · simp [hf, hdrop]
          · intro t ht
            simp at ht
        · simp only [Option.some.injEq] at hadd
          subst hadd
          constructor
          · cases hd : front.dropped <;> simp [hd]
          · intro t ht
            simp at ht
      · simp at hadd
    · rename_i hdrop
      have hd : task.dropped = false := by simpa using hdrop
      split at hadd
      · simp only [Option.some.injEq] at hadd
        subst hadd
        constructor
        · have : ((front :: rest) ++ [task]).filter (fun t => t.dropped) =
              (front :: rest).filter (fun t => t.dropped) := by
            rw [List.filter_append]
            simp [hd]
          simp only at this ⊢
          rw [this]
          exact ih.1
        · intro t ht
          simp only at ht
          rw [List.drop_append_eq_append_drop] at ht
          rcases List.mem_append.1 ht with h1 | h2
          · exact ih.2 t h1
          · have := List.mem_of_mem_drop h2
            simp only [List.mem_singleton] at this
            rw [this]
            exact hd
      · simp at hadd

theorem pop_front_drop_position (l l2 : TaskList) (hpop : l.pop_front = some l2)
    (ih : (l._tasks.filter (fun t => t.dropped)).length ≤ 1 ∧
      ∀ t ∈ l._tasks.drop 2, t.dropped = false) :
    (l2._tasks.filter (fun t => t.dropped)).length ≤ 1 ∧
      ∀ t ∈ l2._tasks.drop 2, t.dropped = false := by
  obtain ⟨tasks⟩ := l
  cases tasks with
  | nil => simp [TaskList.pop_front] at hpop
  | cons front rest =>
    simp only [TaskList.pop_front, Option.some.injEq] at hpop
    subst hpop
    constructor
    · have h : ((front :: rest).filter (fun t => t.dropped)).length ≤ 1 := ih.1
      have hle : (rest.filter (fun t => t.dropped)).length ≤
          ((front :: rest).filter (fun t => t.dropped)).length := by
        rw [List.filter_cons]
        split
        · simp
        · exact le_refl _
      exact le_trans hle h
    · intro t ht
      apply ih.2 t
      simp only [List.drop_succ_cons]
      have : List.drop 2 rest = List.drop 1 (List.drop 1 rest) := by
        rw [List.drop_drop]
      rw [this] at ht
      exact List.mem_of_mem_drop ht

/-- C28: in every task list reached from the empty list by `addTask` and `pop_front`,
at most one task is a drop task, and no task at index 2 or beyond is one: a drop task is
the front task or the task right behind it. -/
theorem TaskList.reachable_drop_position (l : TaskList) (h : TaskList.Reachable l) :
    (l._tasks.filter (fun task => task.dropped)).length ≤ 1 ∧
      ∀ (i : Nat) (task : Task), 2 ≤ i → l._tasks[i]? = some task → task.dropped = false := by
  have hinv : (l._tasks.filter (fun t => t.dropped)).length ≤ 1 ∧
      ∀ t ∈ l._tasks.drop 2, t.dropped = false := by
    induction h with
    | init => exact ⟨by simp [TaskList.init], fun t ht => by simp [TaskList.init] at ht⟩
    | addTask l l2 task _ hadd ih => exact addTask_drop_position l l2 task hadd ih
    | pop_front l l2 _ hpop ih => exact pop_front_drop_position l l2 hpop ih
  refine ⟨hinv.1, fun i task hi hget => hinv.2 task ?_⟩
  have hget2 : (l._tasks.drop 2)[i - 2]? = some task := by
    rw [List.getElem?_drop]
    rw [show 2 + (i - 2) = i by omega]
    exact hget
  exact List.getElem?_mem hget2

/-- Two refreshes and the drop that follows them: the drop stands right behind the front
task. -/
theorem TaskList.reachable_drop_position_witness :
    TaskList.Reachable ⟨[sampleTaskA, sampleDropTask]⟩ ∧
      (([sampleTaskA, sampleDropTask] : List Task).filter
          (fun task => task.dropped)).length ≤ 1 ∧
      ∀ (i : Nat) (task : Task), 2 ≤ i →
        ([sampleTaskA, sampleDropTask] : List Task)[i]? = some task → task.dropped = false :=
  have hr : TaskList.Reachable ⟨[sampleTaskA, sampleDropTask]⟩ :=
    TaskList.Reachable.addTask ⟨[sampleTaskA, sampleTaskB]⟩ _ sampleDropTask
      (TaskList.Reachable.addTask ⟨[sampleTaskA]⟩ _ sampleTaskB
        (TaskList.Reachable.addTask TaskList.init _ sampleTaskA TaskList.Reachable.init rfl)
        rfl)
      rfl
  ⟨hr, TaskList.reachable_drop_position ⟨[sampleTaskA, sampleDropTask]⟩ hr⟩

/-! ### Task lists found in the map -/

theorem ensureMajority_listsNonEmpty (state state2 : LoaderState) (nss : NamespaceString)
    (task : Task) (lin sched status : Status) (hinv : state.ListsNonEmpty)
    (h : _ensureMajorityPrimaryAndScheduleTask state nss task lin sched =
      some (state2, status)) : state2.ListsNonEmpty := by
  unfold _ensureMajorityPrimaryAndScheduleTask at h
  cases lin with
  | some code =>
    simp only [Option.some.injEq, Prod.mk.injEq] at h
    rw [← h.1]
    exact hinv
  | none =>
    simp only at h
    cases hadd : ((state._taskLists nss).getD TaskList.init).addTask task with
    | none => simp [hadd] at h
    | some taskList2 =>
      have hne := addTask_ne_nil _ _ _ hadd
      simp only [hadd] at h
      have hstate : state2 = { state with
          _taskLists := fun n => if n = nss then some taskList2 else state._taskLists n } := by
        split at h
        · cases sched with
          | none =>
            simp only [Option.some.injEq, Prod.mk.injEq] at h
            exact h.1.symm
          | some code => simp at h
        · simp only [Option.some.injEq, Prod.mk.injEq] at h
          exact h.1.symm
      rw [hstate]
      intro n taskList hl
      simp only at hl
      by_cases hn : n = nss
      · simp only [hn, if_true, Option.some.injEq] at hl
        rw [← hl]
        exact hne
      · simp only [hn, if_false] at hl
        exact hinv n taskList hl

theorem runTasksLocked_listsNonEmpty (sys sys2 : System) (nss : NamespaceString)
    (taskFinished : Bool) (sched : Status) (rescheduled : Bool)
    (hinv : sys.loader.ListsNonEmpty)
    (h : runTasksLocked sys nss taskFinished sched = some (sys2, rescheduled)) :
    sys2.loader.ListsNonEmpty := by
  unfold runTasksLocked at h
  simp only at h
  split at h
  · simp at h
  · rename_i taskList2 _
    have herase : LoaderState.ListsNonEmpty
        { sys.loader with _taskLists := eraseTaskList sys.loader._taskLists nss } := by
      intro n taskList hl
      simp only [eraseTaskList] at hl
      by_cases hn : n = nss
      · simp [hn] at hl
      · simp only [hn, if_false] at hl
        exact hinv n taskList hl
    by_cases hempty : taskList2.empty = true
    · simp only [hempty, Bool.not_true, Bool.false_eq_true, if_false, Option.some.injEq,
        Prod.mk.injEq] at h
      rw [← h.1]
      exact herase
    · simp only [hempty, Bool.not_false, if_true] at h
      cases sched with
      | none =>
        simp only [Option.some.injEq, Prod.mk.injEq] at h
        rw [← h.1]
        intro n taskList hl
        simp only [setTaskList] at hl
        by_cases hn : n = nss
        · simp only [hn, if_true, Option.some.injEq] at hl
          rw [← hl]
          intro hnil
          apply hempty
          simp [TaskList.empty, hnil]
        · simp only [hn, if_false] at hl
          exact hinv n taskList hl
      | some code =>
        simp only [Option.some.injEq, Prod.mk.injEq] at h
        rw [← h.1]
        exact herase

theorem runTasksAfterUpdate_listsNonEmpty (sys sys2 : System) (nss : NamespaceString)
    (updateStatus sched : Status) (rescheduled : Bool) (hinv : sys.loader.ListsNonEmpty)
    (h : runTasksAfterUpdate sys nss updateStatus sched = some (sys2, rescheduled)) :
    sys2.loader.ListsNonEmpty := by
  unfold runTasksAfterUpdate at h
  cases updateStatus with
  | none => exact runTasksLocked_listsNonEmpty _ _ nss true sched rescheduled hinv h
  | some code =>
    simp only at h
    by_cases hshut : isShutdownError code = true
    · simp only [hshut, if_true, Option.some.injEq, Prod.mk.injEq] at h
      rw [← h.1]
      exact hinv
    · simp only [hshut, if_false, Bool.false_eq_true] at h
      exact runTasksLocked_listsNonEmpty _ _ nss false sched rescheduled hinv h

theorem step_listsNonEmpty (sys sys2 : System) (hinv : sys.loader.ListsNonEmpty)
    (hstep : System.Step sys sys2) : sys2.loader.ListsNonEmpty := by
  cases hstep
  · rename_i nss task lin sched status h
    unfold ensureMajorityPrimaryAndScheduleTaskStep at h
    cases hens : _ensureMajorityPrimaryAndScheduleTask sys.loader nss task lin sched with
    | none => simp [hens] at h
    | some r =>
      obtain ⟨loader2, st⟩ := r
      simp only [hens, Option.some.injEq, Prod.mk.injEq] at h
      rw [← h.1]
      exact ensureMajority_listsNonEmpty _ _ nss task lin sched st hinv hens
  · rename_i nss store2 updateStatus sched rescheduled hpos h
    have hinv2 : LoaderState.ListsNonEmpty ({ sys with store := store2 } : System).loader :=
      hinv
    exact runTasksAfterUpdate_listsNonEmpty _ _ nss updateStatus sched rescheduled hinv2 h
  · rename_i loader2 h
    unfold onStepDown at h
    split at h
    · simp only [Option.some.injEq] at h
      subst h
      exact hinv
    · simp at h
  · rename_i loader2 h
    unfold onStepUp at h
    split at h
    · simp only [Option.some.injEq] at h
      subst h
      exact hinv
    · simp at h

/-- C30: a completed call of `_ensureMajorityPrimaryAndScheduleTask` and a completed
iteration of `_runTasks` each leave every task list present in the map non-empty when it
was so before, and so does every state reached from a loader without task list; on a
non-empty list the invariants of `hasTasksFromThisTerm` and `getHighestVersionEnqueued`
hold and `back()` and `front()` are defined. -/
theorem System.task_lists_non_empty :
    (∀ (state state2 : LoaderState) (nss : NamespaceString) (task : Task)
        (linearizableReadStatus scheduleStatus status : Status),
      state.ListsNonEmpty →
      _ensureMajorityPrimaryAndScheduleTask state nss task linearizableReadStatus
        scheduleStatus = some (state2, status) →
      state2.ListsNonEmpty) ∧
    (∀ (sys sys2 : System) (nss : NamespaceString) (faults : StorageFaults)
        (scheduleStatus : Status) (rescheduled : Bool),
      sys.loader.ListsNonEmpty →
      _runTasks sys nss faults scheduleStatus = some (sys2, rescheduled) →
      sys2.loader.ListsNonEmpty) ∧
    (∀ sys : System, System.Reachable sys → sys.loader.ListsNonEmpty) ∧
    (∀ taskList : TaskList, taskList._tasks ≠ [] →
      (∀ term, ∃ fromThisTerm, taskList.hasTasksFromThisTerm term = some fromThisTerm) ∧
      (∃ version, taskList.getHighestVersionEnqueued = some version) ∧
      (∃ back, taskList._tasks.getLast? = some back) ∧
      (∃ front, taskList._tasks.head? = some front)) := by
  refine ⟨fun state state2 nss task lin sched status hinv h =>
      ensureMajority_listsNonEmpty state state2 nss task lin sched status hinv h,
    fun sys sys2 nss faults sched r hinv h => ?_, fun sys hreach => ?_,
    fun taskList hne => ?_⟩
  · unfold _runTasks at h
    split at h
    · simp at h
    · rename_i store2 updateStatus _
      have hinv2 : LoaderState.ListsNonEmpty ({ sys with store := store2 } : System).loader :=
        hinv
      exact runTasksAfterUpdate_listsNonEmpty _ _ nss updateStatus sched r hinv2 h
  · induction hreach with
    | init s hlists _ =>
      intro n taskList hl
      rw [hlists n] at hl
      simp at hl
    | step s s2 _ hstep ih => exact step_listsNonEmpty s s2 ih hstep
  · obtain ⟨tasks⟩ := taskList
    cases tasks with
    | nil => exact absurd rfl hne
    | cons front rest =>
      have hlast : ∃ back, (front :: rest).getLast? = some back :=
        ⟨(front :: rest).getLast (List.cons_ne_nil _ _), List.getLast?_eq_getLast _ _⟩
      obtain ⟨back, hback⟩ := hlast
      refine ⟨fun term => ⟨decide (back.termCreated = term), ?_⟩, ⟨back.maxQueryVersion, ?_⟩,
        ⟨back, hback⟩, ⟨front, rfl⟩⟩
      · simp only [TaskList.hasTasksFromThisTerm, hback]
      · simp only [TaskList.getHighestVersionEnqueued, hback]

/-- A primary on which one task was enqueued for `db.coll`. -/
theorem System.task_lists_non_empty_witness :
    LoaderState.ListsNonEmpty
      { samplePrimaryState with
        _taskLists := setTaskList samplePrimaryState._taskLists "db.coll" ⟨[sampleTaskA]⟩ } :=
  System.task_lists_non_empty.2.2.1
    { loader := { samplePrimaryState with
        _taskLists := setTaskList samplePrimaryState._taskLists "db.coll" ⟨[sampleTaskA]⟩ },
      store := PersistedStore.empty,
      workers := workerScheduled (fun _ => 0) "db.coll" }
    (System.Reachable.step
      { loader := samplePrimaryState, store := PersistedStore.empty, workers := fun _ => 0 } _
      (System.Reachable.init _ (fun _ => rfl) (fun _ => rfl))
      (System.Step.enqueue _ _ "db.coll" sampleTaskA none none none rfl))

/-! ### The contiguity invariant after a change of term -/

/-- C29 (failing input): a primary of term 1 enqueues a refresh of `db.coll` up to `1|1`;
before the worker runs, the node steps down and up, so the list holds only a task of an
older term. The primary path of term 3 then takes `maxLoaderVersion` from the persisted
store, which is empty: UNSHARDED. The config server answers NamespaceNotFound, and the
drop task built with minQueryVersion = UNSHARDED meets the back task's maxQueryVersion
`1|1` in `addTask`: the invariant fails and the call does not return. -/
theorem addTask_invariant_fails_after_step_up :
    System.Reachable sampleSystemSteppedUp ∧
      sampleSystemSteppedUp.loader._role = ReplicaSetRole.Primary ∧
      sampleSystemSteppedUp.loader._term = 3 ∧
      (tasksOf sampleSystemSteppedUp.loader._taskLists "db.coll").map
          (fun task => (task.termCreated, task.maxQueryVersion)) = [(1, ⟨1, 1, 7⟩)] ∧
      getMaxLoaderVersion sampleSystemSteppedUp.loader "db.coll" 3
          (getPersistedMaxVersion ReadFaults.noFaults sampleSystemSteppedUp.store "db.coll") =
        some (.ok ChunkVersion.UNSHARDED) ∧
      ((sampleSystemSteppedUp.loader._taskLists "db.coll").getD TaskList.init).addTask
          (dropTask sampleSystemSteppedUp.loader.taskIdGenerator ChunkVersion.UNSHARDED 3) =
        none ∧
      (_schedulePrimaryGetChunksSince sampleSystemSteppedUp.loader "db.coll"
          ChunkVersion.UNSHARDED 3
          (sampleOutcomesOn sampleSystemSteppedUp ChunkVersion.UNSHARDED
            (.error ErrorCodes.NamespaceNotFound))).isNone = true :=
  have h1 : System.Reachable
      { loader := { samplePrimaryState with
          _taskLists := setTaskList samplePrimaryState._taskLists "db.coll" ⟨[sampleTaskA]⟩ },
        store := PersistedStore.empty,
        workers := workerScheduled (fun _ => 0) "db.coll" } :=
    System.Reachable.step
      { loader := samplePrimaryState, store := PersistedStore.empty, workers := fun _ => 0 } _
      (System.Reachable.init _ (fun _ => rfl) (fun _ => rfl))
      (System.Step.enqueue _ _ "db.coll" sampleTaskA none none none rfl)
  have h2 : System.Reachable
      { loader := { _role := ReplicaSetRole.Secondary, _term := 2,
                    _taskLists := setTaskList samplePrimaryState._taskLists "db.coll"
                      ⟨[sampleTaskA]⟩,
                    taskIdGenerator := 0 },
        store := PersistedStore.empty,
        workers := workerScheduled (fun _ => 0) "db.coll" } :=
    System.Reachable.step _ _ h1 (System.Step.stepDown _ _ rfl)
  have h3 : System.Reachable sampleSystemSteppedUp :=
    System.Reachable.step _ _ h2 (System.Step.stepUp _ _ rfl)
  ⟨h3, rfl, rfl, rfl, rfl, rfl, rfl⟩

end Mongo
